import Mathlib

/-!
# autobahn-binlog: byte codec, packet framing and binlog event decoder

A shallow embedding of the Go package `binlog`.

Conventions of the embedding.

* A Go `[]byte` is a `List Nat`; a list is a byte sequence when every element is
  below 256 (`IsBytes`).  Slices are modelled with capacity equal to length, so a
  slice expression whose bounds leave the list panics.
* A Go call either returns normally, returns a non-nil `error`, panics (index out
  of range, slice bounds out of range) or never returns.  The last three are the
  constructors of `Fault`, and a fallible function returns `Except Fault _`.
  Memory exhaustion is not modelled.
* Fixed-width unsigned integers are natural numbers reduced modulo `2 ^ w` at the
  places where the Go operation can wrap.
-/

namespace Binlog

/-- How a Go call can fail to return a value: a returned `error` carrying its
message, a run-time panic, or a loop that never ends. -/
inductive Fault where
  | error (msg : String)
  | panic
  | diverge
  deriving DecidableEq, Repr

deriving instance DecidableEq for Except

/-- Every element of the list is a byte value. -/
def IsBytes (b : List Nat) : Prop := ∀ x ∈ b, x < 256

instance (b : List Nat) : Decidable (IsBytes b) := by
  unfold IsBytes; infer_instance

/-- Go index expression `b[i]`; panics when `i` is out of range. -/
def index (b : List Nat) (i : Nat) : Except Fault Nat :=
  match b[i]? with
  | some x => .ok x
  | none => .error .panic

/-- Go slice expression `b[lo:hi]`; panics unless `lo ≤ hi ≤ len(b)`. -/
def slice (b : List Nat) (lo hi : Nat) : Except Fault (List Nat) :=
  if lo ≤ hi ∧ hi ≤ b.length then .ok ((b.take hi).drop lo) else .error .panic

/-- Go slice expression `b[lo:]`; panics unless `lo ≤ len(b)`. -/
def sliceFrom (b : List Nat) (lo : Nat) : Except Fault (List Nat) :=
  if lo ≤ b.length then .ok (b.drop lo) else .error .panic

/-- Go slice expression `b[:hi]`; panics unless `hi ≤ len(b)`. -/
def sliceTo (b : List Nat) (hi : Nat) : Except Fault (List Nat) :=
  if hi ≤ b.length then .ok (b.take hi) else .error .panic

/-- Go slice expression `b[lo:hi]` with `int` bounds; panics unless
`0 ≤ lo ≤ hi ≤ len(b)`. -/
def sliceInt (b : List Nat) (lo hi : Int) : Except Fault (List Nat) :=
  if 0 ≤ lo ∧ lo ≤ hi ∧ hi ≤ (b.length : Int) then .ok ((b.take hi.toNat).drop lo.toNat)
  else .error .panic

/-- Go slice expression `b[lo:]` with an `int` bound; panics unless `0 ≤ lo ≤ len(b)`. -/
def sliceFromInt (b : List Nat) (lo : Int) : Except Fault (List Nat) :=
  if 0 ≤ lo ∧ lo ≤ (b.length : Int) then .ok (b.drop lo.toNat) else .error .panic

/-- Go index expression `b[i]` with an `int` index. -/
def indexInt (b : List Nat) (i : Int) : Except Fault Nat :=
  if 0 ≤ i then
    match b[i.toNat]? with
    | some x => .ok x
    | none => .error .panic
  else .error .panic

/-! ## util.go -/

/-- Source `byteCountFromBitCount`: `(n + 7) / 8`. -/
def byteCountFromBitCount (n : Nat) : Nat := (n + 7) / 8

/-- Source `binary.LittleEndian.Uint16`. -/
def leUint16 (b : List Nat) : Except Fault Nat := do
  let b1 ← index b 1
  let b0 ← index b 0
  pure (b0 ||| b1 <<< 8)

/-- Source `binary.LittleEndian.Uint32`. -/
def leUint32 (b : List Nat) : Except Fault Nat := do
  let b3 ← index b 3
  let b0 ← index b 0
  let b1 ← index b 1
  let b2 ← index b 2
  pure (b0 ||| b1 <<< 8 ||| b2 <<< 16 ||| b3 <<< 24)

/-- Source `binary.LittleEndian.Uint64`. -/
def leUint64 (b : List Nat) : Except Fault Nat := do
  let b7 ← index b 7
  let b0 ← index b 0
  let b1 ← index b 1
  let b2 ← index b 2
  let b3 ← index b 3
  let b4 ← index b 4
  let b5 ← index b 5
  let b6 ← index b 6
  pure (b0 ||| b1 <<< 8 ||| b2 <<< 16 ||| b3 <<< 24 |||
    b4 <<< 32 ||| b5 <<< 40 ||| b6 <<< 48 ||| b7 <<< 56)

/-- Source `binary.BigEndian.Uint16`. -/
def beUint16 (b : List Nat) : Except Fault Nat := do
  let b1 ← index b 1
  let b0 ← index b 0
  pure (b1 ||| b0 <<< 8)

/-- Source `binary.BigEndian.Uint32`. -/
def beUint32 (b : List Nat) : Except Fault Nat := do
  let b3 ← index b 3
  let b0 ← index b 0
  let b1 ← index b 1
  let b2 ← index b 2
  pure (b3 ||| b2 <<< 8 ||| b1 <<< 16 ||| b0 <<< 24)

/-- Source `binary.BigEndian.Uint64`. -/
def beUint64 (b : List Nat) : Except Fault Nat := do
  let b7 ← index b 7
  let b0 ← index b 0
  let b1 ← index b 1
  let b2 ← index b 2
  let b3 ← index b 3
  let b4 ← index b 4
  let b5 ← index b 5
  let b6 ← index b 6
  pure (b7 ||| b6 <<< 8 ||| b5 <<< 16 ||| b4 <<< 24 |||
    b3 <<< 32 ||| b2 <<< 40 ||| b1 <<< 48 ||| b0 <<< 56)

/-- Two's-complement reading of a `w`-bit pattern (`intN(uintN)` conversion). -/
def toSigned (w : Nat) (u : Nat) : Int :=
  if u % 2 ^ w < 2 ^ (w - 1) then (u % 2 ^ w : Nat) else ((u % 2 ^ w : Nat) : Int) - 2 ^ w

/-- Source `getBinaryInt8`. -/
def getBinaryInt8 (b : List Nat) : Except Fault Int := do
  let b0 ← index b 0
  pure (toSigned 8 b0)

/-- Source `getBinaryUint8`. -/
def getBinaryUint8 (b : List Nat) : Except Fault Nat := index b 0

/-- Source `getBinaryInt16`. -/
def getBinaryInt16 (data : List Nat) : Except Fault Int := do
  let u ← leUint16 data
  pure (toSigned 16 u)

/-- Source `getBinaryUint16`. -/
def getBinaryUint16 (data : List Nat) : Except Fault Nat := leUint16 data

/-- Source `getBinaryUint24`. -/
def getBinaryUint24 (data : List Nat) : Except Fault Nat := do
  let d0 ← index data 0
  let d1 ← index data 1
  let d2 ← index data 2
  pure (d0 ||| d1 <<< 8 ||| d2 <<< 16)

/-- Source `getBinaryInt24`: the 24-bit value sign-extended from bit 23 into an int32. -/
def getBinaryInt24 (data : List Nat) : Except Fault Int := do
  let u ← getBinaryUint24 data
  let u32 := if u &&& 0x00800000 ≠ 0 then u ||| 0xFF000000 else u
  pure (toSigned 32 u32)

/-- Source `getBinaryInt32`. -/
def getBinaryInt32 (data : List Nat) : Except Fault Int := do
  let u ← leUint32 data
  pure (toSigned 32 u)

/-- Source `getBinaryUint32`. -/
def getBinaryUint32 (data : List Nat) : Except Fault Nat := leUint32 data

/-- Source `getBinaryInt64`. -/
def getBinaryInt64 (data : List Nat) : Except Fault Int := do
  let u ← leUint64 data
  pure (toSigned 64 u)

/-- Source `getBinaryUint64`. -/
def getBinaryUint64 (data : List Nat) : Except Fault Nat := leUint64 data

/-- Loop of `getLittleEndianFixedLengthInt`, started at index `i` with accumulator
`num`; a `uint64` shift drops the bits at and above position 64. -/
def leFixedLoop : List Nat → Nat → Nat → Nat
  | [], _, num => num
  | b :: rest, i, num => leFixedLoop rest (i + 1) (num ||| (b <<< (i * 8)) % 2 ^ 64)

/-- Source `getLittleEndianFixedLengthInt`. -/
def getLittleEndianFixedLengthInt (buf : List Nat) : Nat := leFixedLoop buf 0 0

/-- Loop of `getBigEndianFixedLengthInt` over the bytes from index `i` on, where
`len` is the length of the whole buffer. -/
def beFixedLoop (len : Nat) : List Nat → Nat → Nat → Nat
  | [], _, num => num
  | b :: rest, i, num => beFixedLoop len rest (i + 1) (num ||| (b <<< ((len - i - 1) * 8)) % 2 ^ 64)

/-- Source `getBigEndianFixedLengthInt`. -/
def getBigEndianFixedLengthInt (buf : List Nat) : Nat := beFixedLoop buf.length buf 0 0

/-- Source `getLengthEncodedInt`: the triple `(num, isNull, n)`. -/
def getLengthEncodedInt (b : List Nat) : Except Fault (Nat × Bool × Nat) := do
  let b0 ← index b 0
  if b0 = 0xfb then
    pure (0, true, 1)
  else if b0 = 0xfc then do
    let b1 ← index b 1
    let b2 ← index b 2
    pure (b1 ||| b2 <<< 8, false, 3)
  else if b0 = 0xfd then do
    let b1 ← index b 1
    let b2 ← index b 2
    let b3 ← index b 3
    pure (b1 ||| b2 <<< 8 ||| b3 <<< 16, false, 4)
  else if b0 = 0xfe then do
    let b1 ← index b 1
    let b2 ← index b 2
    let b3 ← index b 3
    let b4 ← index b 4
    let b5 ← index b 5
    let b6 ← index b 6
    let b7 ← index b 7
    let b8 ← index b 8
    pure (b1 ||| b2 <<< 8 ||| b3 <<< 16 ||| b4 <<< 24 ||| b5 <<< 32 ||| b6 <<< 40 |||
      b7 <<< 48 ||| b8 <<< 56, false, 9)
  else
    pure (b0, false, 1)

/-- Source `putLengthEncodedInt`; `byte(x)` keeps the low eight bits of `x`. -/
def putLengthEncodedInt (n : Nat) : List Nat :=
  if n ≤ 250 then [n % 256]
  else if n ≤ 0xffff then [0xfc, n % 256, (n >>> 8) % 256]
  else if n ≤ 0xffffff then [0xfd, n % 256, (n >>> 8) % 256, (n >>> 16) % 256]
  else if n ≤ 0xffffffffffffffff then
    [0xfe, n % 256, (n >>> 8) % 256, (n >>> 16) % 256, (n >>> 24) % 256,
      (n >>> 32) % 256, (n >>> 40) % 256, (n >>> 48) % 256, (n >>> 56) % 256]
  else []

/-- Source `getLengthEncodedString`: `(bytes, isNull, n)` or `io.EOF`; a nil slice is the
empty list.  `int(num)` reads the `uint64` as a signed 64-bit integer. -/
def getLengthEncodedString (b : List Nat) : Except Fault (List Nat × Bool × Int) := do
  let (num, isNull, n) ← getLengthEncodedInt b
  if num < 1 then
    pure ([], isNull, (n : Int))
  else
    let n : Int := (n : Int) + toSigned 64 num
    if (b.length : Int) ≥ n then do
      let s ← sliceInt b (n - toSigned 64 num) n
      pure (s, false, n)
    else
      throw (.error "EOF")

/-- Source `skipLengthEncodedString`. -/
def skipLengthEncodedString (b : List Nat) : Except Fault Int := do
  let (num, _, n) ← getLengthEncodedInt b
  if num < 1 then
    pure (n : Int)
  else
    let n : Int := (n : Int) + toSigned 64 num
    if (b.length : Int) ≥ n then pure n else throw (.error "EOF")

/-- The table `bitCountInByte`. -/
def bitCountInByte : List Nat :=
  [0, 1, 1, 2, 1, 2, 2, 3, 1, 2, 2, 3, 2, 3, 3, 4,
   1, 2, 2, 3, 2, 3, 3, 4, 2, 3, 3, 4, 3, 4, 4, 5,
   1, 2, 2, 3, 2, 3, 3, 4, 2, 3, 3, 4, 3, 4, 4, 5,
   2, 3, 3, 4, 3, 4, 4, 5, 3, 4, 4, 5, 4, 5, 5, 6,
   1, 2, 2, 3, 2, 3, 3, 4, 2, 3, 3, 4, 3, 4, 4, 5,
   2, 3, 3, 4, 3, 4, 4, 5, 3, 4, 4, 5, 4, 5, 5, 6,
   2, 3, 3, 4, 3, 4, 4, 5, 3, 4, 4, 5, 4, 5, 5, 6,
   3, 4, 4, 5, 4, 5, 5, 6, 4, 5, 5, 6, 5, 6, 6, 7,
   1, 2, 2, 3, 2, 3, 3, 4, 2, 3, 3, 4, 3, 4, 4, 5,
   2, 3, 3, 4, 3, 4, 4, 5, 3, 4, 4, 5, 4, 5, 5, 6,
   2, 3, 3, 4, 3, 4, 4, 5, 3, 4, 4, 5, 4, 5, 5, 6,
   3, 4, 4, 5, 4, 5, 5, 6, 4, 5, 5, 6, 5, 6, 6, 7,
   2, 3, 3, 4, 3, 4, 4, 5, 3, 4, 4, 5, 4, 5, 5, 6,
   3, 4, 4, 5, 4, 5, 5, 6, 4, 5, 5, 6, 5, 6, 6, 7,
   3, 4, 4, 5, 4, 5, 5, 6, 4, 5, 5, 6, 5, 6, 6, 7,
   4, 5, 5, 6, 5, 6, 6, 7, 5, 6, 6, 7, 6, 7, 7, 8]

/-- Source `bitCount`: the `uint32` accumulator wraps modulo `2 ^ 32`; the table is indexed
by a byte, so the lookup cannot leave it for a byte sequence. -/
def bitCount (bitmap : List Nat) : Nat :=
  bitmap.foldl (fun n bit => (n + bitCountInByte.getD bit 0) % 2 ^ 32) 0

/-- Source `getBit` for a non-negative offset: `bitmap[off/8] & (1 << (uint(off) & 7))`. -/
def getBit (bitmap : List Nat) (off : Nat) : Except Fault Nat := do
  let bit ← index bitmap (off / 8)
  pure (bit &&& (1 <<< (off &&& 7)))

/-- Source `putBinaryUint16`. -/
def putBinaryUint16 (n : Nat) : List Nat := [n % 256, (n >>> 8) % 256]

/-- Source `putBinaryUint32`. -/
def putBinaryUint32 (n : Nat) : List Nat :=
  [n % 256, (n >>> 8) % 256, (n >>> 16) % 256, (n >>> 24) % 256]

/-- Source `putBinaryUint64`. -/
def putBinaryUint64 (n : Nat) : List Nat :=
  [n % 256, (n >>> 8) % 256, (n >>> 16) % 256, (n >>> 24) % 256,
    (n >>> 32) % 256, (n >>> 40) % 256, (n >>> 48) % 256, (n >>> 56) % 256]

/-! ## conn.go: packet framing -/

/-- Source `maxPayloadLength = 1<<24 - 1`. -/
def maxPayloadLength : Nat := 16777215

/-- The part of `Conn` the framing layer uses.  `seq` is the `uint8` packet sequence
number.  The network connection is a byte stream in each direction: `br` holds the
bytes the buffered reader will still deliver (its end is end-of-stream), `sent` the
bytes written so far, and `room` the number of bytes the connection still accepts
before a write fails. -/
structure Conn where
  seq : Nat
  br : List Nat
  sent : List Nat
  room : Nat
  deriving DecidableEq, Repr

/-- Source `Conn.write`, i.e. `net.Conn.Write`: returns the connection, the number of bytes
written and whether an error is returned; as for every `io.Writer`, the error is
non-nil exactly when fewer than `len(b)` bytes were written. -/
def Conn.write (c : Conn) (b : List Nat) : Conn × Nat × Bool :=
  if b.length ≤ c.room then
    ({ c with sent := c.sent ++ b, room := c.room - b.length }, b.length, false)
  else
    ({ c with sent := c.sent ++ b.take c.room, room := 0 }, c.room, true)

/-- Source `Conn.readPacketTo`: the connection afterwards, the contents of the writer `w`
afterwards, and the returned error (`none` for nil).  `io.ReadFull` fails at the end
of the stream, and `io.CopyN` copies what is left and fails with `io.EOF` when the
stream ends early. -/
def Conn.readPacketTo (c : Conn) (w : List Nat) : Conn × List Nat × Option Fault :=
  match hbr : c.br with
  | h0 :: h1 :: h2 :: h3 :: rest =>
    let c1 := { c with br := rest }
    match getBinaryUint24 [h0, h1, h2] with
    | .error f => (c1, w, some f)
    | .ok payloadLength =>
      if payloadLength < 1 then
        (c1, w, some (.error ("invalid payload length " ++ toString payloadLength)))
      else
        let sequence := h3
        if sequence ≠ c1.seq then
          (c1, w, some (.error
            ("invalid sequence " ++ toString sequence ++ " != " ++ toString c1.seq)))
        else
          let c2 := { c1 with seq := (c1.seq + 1) % 256 }
          if rest.length < payloadLength then
            ({ c2 with br := [] }, w ++ rest, some (.error "EOF"))
          else
            let c3 := { c2 with br := rest.drop payloadLength }
            let w3 := w ++ rest.take payloadLength
            if payloadLength < maxPayloadLength then
              (c3, w3, none)
            else
              Conn.readPacketTo c3 w3
  | [] => (c, w, some (.error "EOF"))
  | _ => ({ c with br := [] }, w, some (.error "unexpected EOF"))
termination_by c.br.length
decreasing_by
  simp only [hbr, List.length_cons, List.length_drop]
  omega

/-- Source `Conn.readPacket`: the connection afterwards and either the payload or the error. -/
def Conn.readPacket (c : Conn) : Conn × Except Fault (List Nat) :=
  match Conn.readPacketTo c [] with
  | (c1, _, some err) => (c1, .error err)
  | (c1, buf, none) => (c1, .ok buf)

/-- The assignments `data[0], data[1], data[2], data[3] = h0, h1, h2, h3`; panics
when `data` has fewer than four bytes. -/
def setHeader (data : List Nat) (h0 h1 h2 h3 : Nat) : Except Fault (List Nat) :=
  if data.length < 4 then .error .panic else .ok (h0 :: h1 :: h2 :: h3 :: data.drop 4)

/-- The `for payloadLength >= maxPayloadLength` loop of `Conn.writePacket` together
with the code after it; `payloadLength` is the Go `int` variable. -/
def Conn.writePacketLoop (c : Conn) (payloadLength : Int) (data : List Nat) :
    Conn × Option Fault :=
  if payloadLength ≥ (maxPayloadLength : Int) then
    match hs : setHeader data 0xff 0xff 0xff c.seq with
    | .error f => (c, some f)
    | .ok data1 =>
      if hlen : 4 + maxPayloadLength ≤ data1.length then
        match c.write (data1.take (4 + maxPayloadLength)) with
        | (c1, n, err) =>
          if err then (c1, some (.error "connection was bad"))
          else if n ≠ 4 + maxPayloadLength then (c1, some (.error "connection was bad"))
          else
            Conn.writePacketLoop { c1 with seq := (c1.seq + 1) % 256 }
              (payloadLength - maxPayloadLength) (data1.drop maxPayloadLength)
      else (c, some .panic)
  else
    match setHeader data (payloadLength % 256).toNat ((payloadLength / 256) % 256).toNat
        ((payloadLength / 65536) % 256).toNat c.seq with
    | .error f => (c, some f)
    | .ok data1 =>
      match c.write data1 with
      | (c1, n, err) =>
        if err then (c1, some (.error "connection was bad"))
        else if n ≠ data1.length then (c1, some (.error "connection was bad"))
        else ({ c1 with seq := (c1.seq + 1) % 256 }, none)
termination_by data.length
decreasing_by
  have h1 : data1.length = data.length := by
    unfold setHeader at hs
    split at hs
    · cases hs
    · cases hs
      simp only [List.length_cons, List.length_drop]
      omega
  simp only [List.length_drop]
  unfold maxPayloadLength at hlen
  unfold maxPayloadLength
  omega

/-- Source `Conn.writePacket`: the connection afterwards and the returned error or panic. -/
def Conn.writePacket (c : Conn) (data : List Nat) : Conn × Option Fault :=
  Conn.writePacketLoop c ((data.length : Int) - 4) data

/-- The four header bytes of a fragment on the wire: the payload length as a
three-byte little-endian integer, then the sequence byte. -/
def fragmentHeader (len seq : Nat) : List Nat :=
  [len % 256, (len / 256) % 256, (len / 65536) % 256, seq]

/-- The wire image of a list of fragment payloads: each payload preceded by its own
header, the sequence byte starting at `seq` and counting up modulo 256. -/
def encodeFragments : Nat → List (List Nat) → List Nat
  | _, [] => []
  | seq, f :: fs => fragmentHeader f.length seq ++ f ++ encodeFragments ((seq + 1) % 256) fs

/-- Source `Conn.resetSequence`. -/
def Conn.resetSequence (c : Conn) : Conn := { c with seq := 0 }

/-- Modelled from the spec: the packet marker `EOF_HEADER` ("EOF=0xFE"). -/
def EOF_HEADER : Nat := 0xfe

/-- Go builtin `copy(dst, src)`: the contents of `dst` afterwards. -/
def copyBytes (dst src : List Nat) : List Nat := src.take dst.length ++ dst.drop src.length

/-- Assignment `m[col] = x` into a slice; panics when `col` is out of range. -/
def setAt (m : List Nat) (col : Nat) (x : Nat) : Except Fault (List Nat) :=
  if col < m.length then .ok (m.set col x) else .error .panic

/-- Source `makeCommandWithArg`; the string `s` is given by its bytes. -/
def makeCommandWithArg (command : Nat) (s : List Nat) : Except Fault (List Nat) := do
  let b := List.replicate (s.length + 5) 0
  let b ← setAt b 4 command
  let dst ← sliceFrom b 5
  pure (b.take 5 ++ copyBytes dst s)

/-- Source `isEOFPacket`. -/
def isEOFPacket (b : List Nat) : Except Fault Bool := do
  let b0 ← index b 0
  pure (decide (b0 = EOF_HEADER) && decide (b.length ≤ 5))

/-! ## Constants

The constants of `const.go`, with the values the specification gives. -/

/-- Modelled from the spec: the constant `EventHeaderSize` ("Event header size: 19 for
binlog v4"). -/
def EventHeaderSize : Nat := 19

/-- Modelled from the spec: the event type code `QUERY_EVENT` (0x02). -/
def QUERY_EVENT : Nat := 2

/-- Modelled from the spec: the event type code `ROTATE_EVENT` (0x04). -/
def ROTATE_EVENT : Nat := 4

/-- Modelled from the spec: the event type code `FORMAT_DESCRIPTION_EVENT` (0x0F). -/
def FORMAT_DESCRIPTION_EVENT : Nat := 15

/-- Modelled from the spec: the event type code `XID_EVENT` (0x10). -/
def XID_EVENT : Nat := 16

/-- Modelled from the spec: the event type code `BEGIN_LOAD_QUERY_EVENT` (0x11). -/
def BEGIN_LOAD_QUERY_EVENT : Nat := 17

/-- Modelled from the spec: the event type code `EXECUTE_LOAD_QUERY_EVENT` (0x12). -/
def EXECUTE_LOAD_QUERY_EVENT : Nat := 18

/-- Modelled from the spec: the event type code `TABLE_MAP_EVENT` (0x13). -/
def TABLE_MAP_EVENT : Nat := 19

/-- Modelled from the spec: the event type code `WRITE_ROWS_EVENT_V1` (0x17). -/
def WRITE_ROWS_EVENT_V1 : Nat := 23

/-- Modelled from the spec: the event type code `UPDATE_ROWS_EVENT_V1` (0x18). -/
def UPDATE_ROWS_EVENT_V1 : Nat := 24

/-- Modelled from the spec: the event type code `DELETE_ROWS_EVENT_V1` (0x19). -/
def DELETE_ROWS_EVENT_V1 : Nat := 25

/-- Modelled from the spec: `DATETIMEF_INT_OFS = 0x8000000000`. -/
def DATETIMEF_INT_OFS : Int := 0x8000000000

/-- Source `TIMEF_OFS` (eventtype-rows.go). -/
def TIMEF_OFS : Int := 0x800000000000

/-- Source `TIMEF_INT_OFS` (eventtype-rows.go). -/
def TIMEF_INT_OFS : Int := 0x800000

/-! Modelled from the spec: the column type codes, "MySQL's canonical `MYSQL_TYPE_*`
numbering". -/

/-- Modelled from the spec: column type code `MYSQL_TYPE_DECIMAL`. -/
def MYSQL_TYPE_DECIMAL : Nat := 0
/-- Modelled from the spec: column type code `MYSQL_TYPE_TINY`. -/
def MYSQL_TYPE_TINY : Nat := 1
/-- Modelled from the spec: column type code `MYSQL_TYPE_SHORT`. -/
def MYSQL_TYPE_SHORT : Nat := 2
/-- Modelled from the spec: column type code `MYSQL_TYPE_LONG`. -/
def MYSQL_TYPE_LONG : Nat := 3
/-- Modelled from the spec: column type code `MYSQL_TYPE_FLOAT`. -/
def MYSQL_TYPE_FLOAT : Nat := 4
/-- Modelled from the spec: column type code `MYSQL_TYPE_DOUBLE`. -/
def MYSQL_TYPE_DOUBLE : Nat := 5
/-- Modelled from the spec: column type code `MYSQL_TYPE_NULL`. -/
def MYSQL_TYPE_NULL : Nat := 6
/-- Modelled from the spec: column type code `MYSQL_TYPE_TIMESTAMP`. -/
def MYSQL_TYPE_TIMESTAMP : Nat := 7
/-- Modelled from the spec: column type code `MYSQL_TYPE_LONGLONG`. -/
def MYSQL_TYPE_LONGLONG : Nat := 8
/-- Modelled from the spec: column type code `MYSQL_TYPE_INT24`. -/
def MYSQL_TYPE_INT24 : Nat := 9
/-- Modelled from the spec: column type code `MYSQL_TYPE_DATE`. -/
def MYSQL_TYPE_DATE : Nat := 10
/-- Modelled from the spec: column type code `MYSQL_TYPE_TIME`. -/
def MYSQL_TYPE_TIME : Nat := 11
/-- Modelled from the spec: column type code `MYSQL_TYPE_DATETIME`. -/
def MYSQL_TYPE_DATETIME : Nat := 12
/-- Modelled from the spec: column type code `MYSQL_TYPE_YEAR`. -/
def MYSQL_TYPE_YEAR : Nat := 13
/-- Modelled from the spec: column type code `MYSQL_TYPE_NEWDATE`. -/
def MYSQL_TYPE_NEWDATE : Nat := 14
/-- Modelled from the spec: column type code `MYSQL_TYPE_VARCHAR`. -/
def MYSQL_TYPE_VARCHAR : Nat := 15
/-- Modelled from the spec: column type code `MYSQL_TYPE_BIT`. -/
def MYSQL_TYPE_BIT : Nat := 16
/-- Modelled from the spec: column type code `MYSQL_TYPE_TIMESTAMP2`. -/
def MYSQL_TYPE_TIMESTAMP2 : Nat := 17
/-- Modelled from the spec: column type code `MYSQL_TYPE_DATETIME2`. -/
def MYSQL_TYPE_DATETIME2 : Nat := 18
/-- Modelled from the spec: column type code `MYSQL_TYPE_TIME2`. -/
def MYSQL_TYPE_TIME2 : Nat := 19
/-- Modelled from the spec: column type code `MYSQL_TYPE_NEWDECIMAL`. -/
def MYSQL_TYPE_NEWDECIMAL : Nat := 246
/-- Modelled from the spec: column type code `MYSQL_TYPE_ENUM`. -/
def MYSQL_TYPE_ENUM : Nat := 247
/-- Modelled from the spec: column type code `MYSQL_TYPE_SET`. -/
def MYSQL_TYPE_SET : Nat := 248
/-- Modelled from the spec: column type code `MYSQL_TYPE_TINY_BLOB`. -/
def MYSQL_TYPE_TINY_BLOB : Nat := 249
/-- Modelled from the spec: column type code `MYSQL_TYPE_MEDIUM_BLOB`. -/
def MYSQL_TYPE_MEDIUM_BLOB : Nat := 250
/-- Modelled from the spec: column type code `MYSQL_TYPE_LONG_BLOB`. -/
def MYSQL_TYPE_LONG_BLOB : Nat := 251
/-- Modelled from the spec: column type code `MYSQL_TYPE_BLOB`. -/
def MYSQL_TYPE_BLOB : Nat := 252
/-- Modelled from the spec: column type code `MYSQL_TYPE_VAR_STRING`. -/
def MYSQL_TYPE_VAR_STRING : Nat := 253
/-- Modelled from the spec: column type code `MYSQL_TYPE_STRING`. -/
def MYSQL_TYPE_STRING : Nat := 254
/-- Modelled from the spec: column type code `MYSQL_TYPE_GEOMETRY`. -/
def MYSQL_TYPE_GEOMETRY : Nat := 255

/-! ## eventheader.go -/

/-- Source `EventHeader`. -/
structure EventHeader where
  Timestamp : Nat
  EventType : Nat
  ServerId : Nat
  EventSize : Nat
  LogPos : Nat
  Flags : Nat
  deriving DecidableEq, Repr

/-- Source `NewEventHeader`. -/
def NewEventHeader (b : List Nat) : Except Fault EventHeader := do
  if b.length < EventHeaderSize then
    throw (.error "error parsing event header: header size too short")
  let i := 0
  let timestamp ← (slice b i (i + 4)) >>= leUint32
  let i := i + 4
  let eventType ← index b i
  let i := i + 1
  let serverId ← (slice b i (i + 4)) >>= leUint32
  let i := i + 4
  let eventSize ← (sliceFrom b i) >>= leUint32
  if eventSize < EventHeaderSize then
    throw (.error "error parsing event header: stated event size too short")
  let i := i + 4
  let logPos ← (sliceFrom b i) >>= leUint32
  let i := i + 4
  let flags ← (sliceFrom b i) >>= leUint16
  pure { Timestamp := timestamp, EventType := eventType, ServerId := serverId,
         EventSize := eventSize, LogPos := logPos, Flags := flags }

/-! ## eventtype-formatdescription.go, eventtype-rotate.go, eventtype-generic.go -/

/-- Source `FormatDescriptionEvent`. -/
structure FormatDescriptionEvent where
  BinlogVersion : Nat
  ServerVersion : List Nat
  CreationTimestamp : Nat
  EventHeaderLength : Nat
  EventTypeHeaderLengths : List Nat
  deriving DecidableEq, Repr

/-- Source `NewFormatDescriptionEvent`. -/
def NewFormatDescriptionEvent (b : List Nat) : Except Fault FormatDescriptionEvent := do
  let i := 0
  let binlogVersion ← (slice b i (i + 2)) >>= leUint16
  let i := i + 2
  let serverVersion ← slice b i (i + 50)
  let i := i + 50
  let creationTimestamp ← (slice b i (i + 4)) >>= leUint32
  let i := i + 4
  let eventHeaderLength ← index b i
  let i := i + 1
  if eventHeaderLength ≠ EventHeaderSize % 256 then
    throw (.error "invalid event header length")
  let eventTypeHeaderLengths ← sliceFrom b i
  pure { BinlogVersion := binlogVersion, ServerVersion := serverVersion,
         CreationTimestamp := creationTimestamp, EventHeaderLength := eventHeaderLength,
         EventTypeHeaderLengths := eventTypeHeaderLengths }

/-- Source `RotateEvent`. -/
structure RotateEvent where
  NextPosition : Nat
  NextFile : List Nat
  deriving DecidableEq, Repr

/-- Source `NewRotateEvent`. -/
def NewRotateEvent (b : List Nat) : Except Fault RotateEvent := do
  let i := 0
  let nextPosition ← (slice b i (i + 8)) >>= leUint64
  let i := i + 8
  let nextFile ← sliceFrom b i
  pure { NextPosition := nextPosition, NextFile := nextFile }

/-- Source `XidEvent`. -/
structure XidEvent where
  Xid : Nat
  deriving DecidableEq, Repr

/-- Source `NewXidEvent`. -/
def NewXidEvent (b : List Nat) : Except Fault XidEvent := do
  let xid ← leUint64 b
  pure { Xid := xid }

/-- Source `QueryEvent`. -/
structure QueryEvent where
  SlaveProxyID : Nat
  ExecutionTime : Nat
  ErrorCode : Nat
  StatusVars : List Nat
  DatabaseName : List Nat
  Query : List Nat
  deriving DecidableEq, Repr

/-- Source `NewQueryEvent`. -/
def NewQueryEvent (b : List Nat) : Except Fault QueryEvent := do
  let i := 0
  let slaveProxyID ← (slice b i (i + 4)) >>= leUint32
  let i := i + 4
  let executionTime ← (slice b i (i + 4)) >>= leUint32
  let i := i + 4
  let dbNameLength ← index b i
  let i := i + 1
  let errorCode ← (slice b i (i + 2)) >>= leUint16
  let i := i + 2
  let statusVarsLength ← (slice b i (i + 2)) >>= leUint16
  let i := i + 2
  let statusVars ← slice b i (i + statusVarsLength)
  let i := i + statusVarsLength
  let databaseName ← slice b i (i + dbNameLength)
  let i := i + dbNameLength
  let i := i + 1
  let query ← sliceFrom b i
  pure { SlaveProxyID := slaveProxyID, ExecutionTime := executionTime, ErrorCode := errorCode,
         StatusVars := statusVars, DatabaseName := databaseName, Query := query }

/-- Source `BeginLoadQueryEvent`. -/
structure BeginLoadQueryEvent where
  FileID : Nat
  BlockData : List Nat
  deriving DecidableEq, Repr

/-- Source `NewBeginLoadQueryEvent`. -/
def NewBeginLoadQueryEvent (b : List Nat) : Except Fault BeginLoadQueryEvent := do
  let i := 0
  let fileID ← (slice b i (i + 4)) >>= leUint32
  let i := i + 4
  let blockData ← sliceFrom b i
  pure { FileID := fileID, BlockData := blockData }

/-- Source `ExecuteLoadQueryEvent`. -/
structure ExecuteLoadQueryEvent where
  SlaveProxyID : Nat
  ExecutionTime : Nat
  SchemaLength : Nat
  ErrorCode : Nat
  StatusVars : Nat
  FileID : Nat
  StartPos : Nat
  EndPos : Nat
  DupHandlingFlags : Nat
  deriving DecidableEq, Repr

/-- Source `NewExecuteLoadQueryEvent`. -/
def NewExecuteLoadQueryEvent (b : List Nat) : Except Fault ExecuteLoadQueryEvent := do
  let i := 0
  let slaveProxyID ← (slice b i (i + 4)) >>= leUint32
  let i := i + 4
  let executionTime ← (slice b i (i + 4)) >>= leUint32
  let i := i + 4
  let schemaLength ← index b i
  let i := i + 1
  let errorCode ← (slice b i (i + 2)) >>= leUint16
  let i := i + 2
  let statusVars ← (slice b i (i + 2)) >>= leUint16
  let i := i + 2
  let fileID ← (slice b i (i + 4)) >>= leUint32
  let i := i + 4
  let startPos ← (slice b i (i + 4)) >>= leUint32
  let i := i + 4
  let endPos ← (slice b i (i + 4)) >>= leUint32
  let i := i + 4
  let dupHandlingFlags ← index b i
  pure { SlaveProxyID := slaveProxyID, ExecutionTime := executionTime,
         SchemaLength := schemaLength, ErrorCode := errorCode, StatusVars := statusVars,
         FileID := fileID, StartPos := startPos, EndPos := endPos,
         DupHandlingFlags := dupHandlingFlags }

/-- Source `GenericEvent`. -/
structure GenericEvent where
  Data : List Nat
  deriving DecidableEq, Repr

/-- Source `NewGenericEvent`. -/
def NewGenericEvent (b : List Nat) : Except Fault GenericEvent :=
  pure { Data := b }

/-! ## eventtype-tablemap.go -/

/-- Go `int64` arithmetic result: the value reduced to the signed 64-bit range. -/
def wrapInt64 (x : Int) : Int := toSigned 64 (x % 2 ^ 64).toNat

/-- Source `TableMapEvent`. -/
structure TableMapEvent where
  TableID : Nat
  Flags : Nat
  DatabaseName : List Nat
  TableName : List Nat
  ColumnCount : Nat
  ColumnTypes : List Nat
  ColumnMetadata : List Nat
  NullBitVector : List Nat
  deriving DecidableEq, Repr

/-- Source `bitmapByteSize`: `int(columnCount+7) / 8` on Go `int`s (the sum wraps, the
quotient truncates toward zero). -/
def bitmapByteSize (columnCount : Int) : Int := Int.tdiv (wrapInt64 (columnCount + 7)) 8

/-- The `for col, t := range e.ColumnTypes` loop of `parseMetadata`: `col` is the
index of the head of the remaining types, `i` the cursor into `b`, `m` the metadata
slice being filled. -/
def parseMetadataLoop (b : List Nat) : List Nat → Nat → Nat → List Nat → Except Fault (List Nat)
  | [], _, _, m => pure m
  | t :: rest, col, i, m =>
    if t = MYSQL_TYPE_STRING then do
      let hi ← index b i
      let x := (hi <<< 8) % 65536
      let lo ← index b (i + 1)
      let x := (x + lo) % 65536
      let m ← setAt m col x
      parseMetadataLoop b rest (col + 1) (i + 2) m
    else if t = MYSQL_TYPE_VAR_STRING ∨ t = MYSQL_TYPE_VARCHAR ∨ t = MYSQL_TYPE_BIT then do
      let x ← (sliceFrom b i) >>= leUint16
      let m ← setAt m col x
      parseMetadataLoop b rest (col + 1) (i + 2) m
    else if t = MYSQL_TYPE_NEWDECIMAL then do
      let hi ← index b i
      let x := (hi <<< 8) % 65536
      let lo ← index b (i + 1)
      let x := (x + lo) % 65536
      let m ← setAt m col x
      parseMetadataLoop b rest (col + 1) (i + 2) m
    else if t = MYSQL_TYPE_BLOB ∨ t = MYSQL_TYPE_DOUBLE ∨ t = MYSQL_TYPE_FLOAT ∨
        t = MYSQL_TYPE_GEOMETRY then do
      let x ← index b i
      let m ← setAt m col x
      parseMetadataLoop b rest (col + 1) (i + 1) m
    else if t = MYSQL_TYPE_TIME2 ∨ t = MYSQL_TYPE_DATETIME2 ∨ t = MYSQL_TYPE_TIMESTAMP2 then do
      let x ← index b i
      let m ← setAt m col x
      parseMetadataLoop b rest (col + 1) (i + 1) m
    else if t = MYSQL_TYPE_NEWDATE ∨ t = MYSQL_TYPE_ENUM ∨ t = MYSQL_TYPE_SET ∨
        t = MYSQL_TYPE_TINY_BLOB ∨ t = MYSQL_TYPE_MEDIUM_BLOB ∨ t = MYSQL_TYPE_LONG_BLOB then
      throw (.error "unsupported type")
    else do
      let m ← setAt m col 0
      parseMetadataLoop b rest (col + 1) i m

/-- Source `TableMapEvent.parseMetadata`: the metadata slice `make([]uint16, ColumnCount)`
after the loop over `columnTypes`. -/
def parseMetadata (columnCount : Nat) (columnTypes : List Nat) (b : List Nat) :
    Except Fault (List Nat) :=
  parseMetadataLoop b columnTypes 0 0 (List.replicate columnCount 0)

/-- Source `NewTableMapEvent`; a nil `format` is `none`. -/
def NewTableMapEvent (format : Option FormatDescriptionEvent) (b : List Nat) :
    Except Fault TableMapEvent := do
  let fmt ← match format with
    | some f => pure f
    | none => throw Fault.panic
  let hl ← index fmt.EventTypeHeaderLengths (TABLE_MAP_EVENT - 1)
  let tableIDSize : Int := if hl = 6 then 4 else 6
  let i : Int := 0
  let tableID := getLittleEndianFixedLengthInt (← sliceInt b 0 tableIDSize)
  let i := i + tableIDSize
  let flags ← (sliceFromInt b i) >>= leUint16
  let i := i + 2
  let dbNameLength : Int := ← indexInt b i
  let i := i + 1
  let dbName ← sliceInt b i (i + dbNameLength + 1)
  let i := i + dbNameLength + 1
  let databaseName ← sliceInt dbName 0 dbNameLength
  let tblNameLength : Int := ← indexInt b i
  let i := i + 1
  let tblName ← sliceInt b i (i + tblNameLength + 1)
  let i := i + tblNameLength + 1
  let tableName ← sliceInt tblName 0 tblNameLength
  let (columnCount, _, n) ← (sliceFromInt b i) >>= getLengthEncodedInt
  let i := i + (n : Int)
  let columnTypes ← sliceInt b i (i + toSigned 64 columnCount)
  let i := i + toSigned 64 columnCount
  let (metadata, _, n) ← (sliceFromInt b i) >>= getLengthEncodedString
  let columnMetadata ← parseMetadata columnCount columnTypes metadata
  let i := i + n
  let tail ← sliceFromInt b i
  if (tail.length : Int) ≠ bitmapByteSize (toSigned 64 columnCount) then
    throw (.error "EOF")
  pure { TableID := tableID, Flags := flags, DatabaseName := databaseName,
         TableName := tableName, ColumnCount := columnCount, ColumnTypes := columnTypes,
         ColumnMetadata := columnMetadata, NullBitVector := tail }

/-! ## eventtype-rows.go: column values -/

/-- The dynamic values `parseValue` stores in a row (`interface{}`).  A float is kept
as its IEEE-754 bit pattern, a decimal as the text handed to `strconv.ParseFloat`, a
`time.Time` by the arguments it is built from, and a string either as the text a
format call produces or as the raw bytes it aliases. -/
inductive Value where
  | null
  | int8 (v : Int)
  | int16 (v : Int)
  | int32 (v : Int)
  | int64 (v : Int)
  | float32 (bits : Nat)
  | float64 (bits : Nat)
  | decimal (text : String)
  | unixTime (sec : Nat)
  | date (year month day hour minute second : Nat)
  | timeText (sec usec : Nat)
  | text (s : String)
  | string (b : List Nat)
  | bytes (b : List Nat)
  deriving DecidableEq, Repr

/-- Decimal digits of `n`, left-padded with zeros to `width` characters. -/
def padZero (width : Nat) (n : Nat) : String :=
  String.mk (List.replicate (width - (toString n).length) (Char.ofNat 48)) ++ toString n

/-- The verb `%0<width>d` of `fmt.Sprintf` (`%d` for width 0): the sign counts toward
the width and precedes the padding. -/
def fmtD (width : Nat) (n : Int) : String :=
  if n < 0 then "-" ++ padZero (width - 1) n.natAbs else padZero width n.toNat

/-- Source `digitsPerInteger`. -/
def digitsPerInteger : Int := 9

/-- Source `compressedBytes`. -/
def compressedBytes : List Nat := [0, 1, 1, 2, 2, 3, 3, 4, 4, 4]

/-- Source `parseYear`. -/
def parseYear (b : List Nat) : Except Fault (Value × Nat) := do
  let v ← index b 0
  let str := if v = 0 then "0000" else toString (v + 1900)
  pure (.text str, 1)

/-- Source `parseBit`. -/
def parseBit (b : List Nat) (numBits : Int) (length : Int) : Except Fault Int :=
  if numBits > 1 then
    if length = 1 then do
      let v ← index b 0
      pure (v : Int)
    else if length = 2 then do
      let v ← beUint16 b
      pure (v : Int)
    else if length = 4 then do
      let v ← beUint32 b
      pure (v : Int)
    else if length = 3 ∨ length = 5 ∨ length = 6 ∨ length = 7 then do
      let s ← sliceInt b 0 length
      pure (toSigned 64 (getBigEndianFixedLengthInt s))
    else if length = 8 then do
      let v ← beUint64 b
      pure (toSigned 64 v)
    else
      throw (.error ("invalid bit length " ++ toString length))
  else
    if length ≠ 1 then
      throw (.error ("invalid bit length " ++ toString length))
    else do
      let v ← index b 0
      pure (v : Int)

/-- Source `parseBitType`; `meta` is a `uint16`. -/
def parseBitType (b : List Nat) (m : Nat) : Except Fault (Value × Nat) := do
  let numBits := ((m >>> 8) * 8 + (m &&& 0xFF)) % 65536
  let numBytes := byteCountFromBitCount numBits
  let v ← parseBit b numBits numBytes
  pure (.int64 v, numBytes)

/-- Source `parseDecimalDecompressValue`: `(size, value)`; `compIndx` is a Go `int`. -/
def parseDecimalDecompressValue (compIndx : Int) (data : List Nat) (mask : Nat) :
    Except Fault (Nat × Nat) := do
  let size ← indexInt compressedBytes compIndx
  let databuff ← (List.range size).mapM (fun i => do
    let d ← index data i
    pure (d ^^^ mask))
  pure (size, getBigEndianFixedLengthInt databuff % 2 ^ 32)

/-- The two loops of `parseDecimalType` that read `count` uncompressed 4-byte groups
from `pos` on, appending each as `%09d` to `res`. -/
def decimalGroups (data : List Nat) (mask : Nat) : Nat → Nat → String →
    Except Fault (Nat × String)
  | 0, pos, res => pure (pos, res)
  | count + 1, pos, res => do
    let v ← (sliceFrom data pos) >>= beUint32
    let value := v ^^^ mask
    decimalGroups data mask count (pos + 4) (res ++ fmtD 9 value)

/-- Source `parseDecimalType`.  The result is the `float64` that `strconv.ParseFloat` reads
from the text built here, which it accepts; the value is recorded as that text. -/
def parseDecimalType (data : List Nat) (m : Nat) : Except Fault (Value × Nat) := do
  let precision : Int := ((m >>> 8 : Nat) : Int)
  let decimals : Int := ((m &&& 0xFF : Nat) : Int)
  let integral := precision - decimals
  let uncompIntegral := Int.tdiv integral digitsPerInteger
  let uncompFractional := Int.tdiv decimals digitsPerInteger
  let compIntegral := integral - uncompIntegral * digitsPerInteger
  let compFractional := decimals - uncompFractional * digitsPerInteger
  let cI ← indexInt compressedBytes compIntegral
  let cF ← indexInt compressedBytes compFractional
  let binSize : Int := uncompIntegral * 4 + cI + uncompFractional * 4 + cF
  if binSize < 0 then throw Fault.panic
  let buf ← sliceInt data 0 binSize
  let data := buf
  let value ← index data 0
  let (mask, res) := if value &&& 0x80 = 0 then (2 ^ 32 - 1, "-") else (0, "")
  let data := data.set 0 (value ^^^ 0x80)
  let (pos, value) ← parseDecimalDecompressValue compIntegral data (mask % 256)
  let res := res ++ fmtD 0 value
  let (pos, res) ← decimalGroups data mask uncompIntegral.toNat pos res
  let res := res ++ "."
  let (pos, res) ← decimalGroups data mask uncompFractional.toNat pos res
  let (size, value) ← (sliceFrom data pos) >>=
    (fun d => parseDecimalDecompressValue compFractional d (mask % 256))
  let (pos, res) := if size > 0 then (pos + size, res ++ fmtD compFractional.toNat value)
    else (pos, res)
  pure (.decimal res, pos)

/-- Source `parseDateTime`. -/
def parseDateTime (b : List Nat) : Except Fault (Value × Nat) := do
  let val ← leUint64 b
  let d := val / 1000000
  let t := val % 1000000
  pure (.date (d / 10000) ((d % 10000) / 100) (d % 100) (t / 10000) ((t % 10000) / 100)
    (t % 100), 8)

/-- Source `parseString`; `length` is a Go `int`. -/
def parseString (data : List Nat) (length : Int) : Except Fault (Value × Nat) :=
  if length < 256 then do
    let length ← index data 0
    let n := length + 1
    let v ← slice data 1 n
    pure (.string v, n)
  else do
    let length ← (sliceFrom data 0) >>= leUint16
    let n := length + 2
    let v ← slice data 2 n
    pure (.string v, n)

/-- Source `parseTimestamp2Type`; `meta` is a `uint16`.  The formatted time
`time.Unix(sec, usec*1000).Format(TimeFormat)` is recorded by `sec` and `usec`. -/
def parseTimestamp2Type (data : List Nat) (m : Nat) : Except Fault (Value × Nat) := do
  let numBytes := 4 + ((m + 1) % 65536) / 2
  let sec ← (slice data 0 4) >>= beUint32
  let usec ←
    if m = 1 ∨ m = 2 then do
      let d ← index data 4
      pure (d * 10000)
    else if m = 3 ∨ m = 4 then do
      let v ← (sliceFrom data 4) >>= beUint16
      pure (v * 100)
    else if m = 5 ∨ m = 6 then do
      let s ← slice data 4 7
      pure (getBigEndianFixedLengthInt s)
    else
      pure 0
  if sec = 0 then
    pure (.text "0000-00-00 00:00:00", numBytes)
  else
    pure (.timeText sec usec, numBytes)

/-- Source `decodeDatetime2`; `meta` is a `uint16`. -/
def decodeDatetime2 (data : List Nat) (m : Nat) : Except Fault (Value × Nat) := do
  let n := 5 + ((m + 1) % 65536) / 2
  let s ← slice data 0 5
  let intPart : Int := toSigned 64 (getBigEndianFixedLengthInt s) - DATETIMEF_INT_OFS
  let fracN : Nat ←
    if m = 1 ∨ m = 2 then do
      let d ← index data 5
      pure (d * 10000)
    else if m = 3 ∨ m = 4 then do
      let v ← (slice data 5 7) >>= beUint16
      pure (v * 100)
    else if m = 5 ∨ m = 6 then do
      let s ← slice data 5 8
      pure (getBigEndianFixedLengthInt s)
    else
      pure 0
  let frac : Int := fracN
  if intPart = 0 then
    pure (.text "0000-00-00 00:00:00", n)
  else
    let tmp := wrapInt64 (intPart * 2 ^ 24 + frac)
    let tmp := if tmp < 0 then wrapInt64 (-tmp) else tmp
    let ymdhms := tmp / 2 ^ 24
    let ymd := ymdhms / 2 ^ 17
    let ym := ymd / 2 ^ 5
    let hms := Int.tmod ymdhms (2 ^ 17)
    let day := Int.tmod ymd (2 ^ 5)
    let month := Int.tmod ym 13
    let year := Int.tdiv ym 13
    let second := Int.tmod hms (2 ^ 6)
    let minute := Int.tmod (hms / 2 ^ 6) (2 ^ 6)
    let hour := hms / 2 ^ 12
    pure (.text (fmtD 4 year ++ "-" ++ fmtD 2 month ++ "-" ++ fmtD 2 day ++ " " ++
      fmtD 2 hour ++ ":" ++ fmtD 2 minute ++ ":" ++ fmtD 2 second), n)

/-- Source `parseTime2Type`; `meta` is a `uint16`.  The cases `1`, `3` and `5` of the switch
have empty bodies. -/
def parseTime2Type (data : List Nat) (m : Nat) : Except Fault (Value × Nat) := do
  let numBytes := 3 + ((m + 1) % 65536) / 2
  let r : Int × Int ←
    if m = 1 ∨ m = 3 ∨ m = 5 then
      pure (0, 0)
    else if m = 2 then do
      let s ← slice data 0 3
      let intPart : Int := toSigned 64 (getBigEndianFixedLengthInt s) - TIMEF_INT_OFS
      let frac : Int := ← index data 3
      let (intPart, frac) := if intPart < 0 ∧ frac > 0 then (intPart + 1, frac - 0x100)
        else (intPart, frac)
      pure (wrapInt64 (intPart * 2 ^ 24 + frac * 10000), intPart)
    else if m = 4 then do
      let s ← slice data 0 3
      let intPart : Int := toSigned 64 (getBigEndianFixedLengthInt s) - TIMEF_INT_OFS
      let frac : Int := ← (slice data 3 5) >>= beUint16
      let (intPart, frac) := if intPart < 0 ∧ frac > 0 then (intPart + 1, frac - 0x10000)
        else (intPart, frac)
      pure (wrapInt64 (intPart * 2 ^ 24 + frac * 100), intPart)
    else if m = 6 then do
      let s ← slice data 0 6
      pure (toSigned 64 (getBigEndianFixedLengthInt s) - TIMEF_OFS, 0)
    else do
      let s ← slice data 0 3
      let intPart : Int := toSigned 64 (getBigEndianFixedLengthInt s) - TIMEF_INT_OFS
      pure (wrapInt64 (intPart * 2 ^ 24), intPart)
  let tmp := r.1
  let intPart := r.2
  if intPart = 0 then
    pure (.text "00:00:00", numBytes)
  else
    let (tmp, sign) := if tmp < 0 then (wrapInt64 (-tmp), "-") else (tmp, "")
    let hms := tmp / 2 ^ 24
    let hour := Int.tmod (hms / 2 ^ 12) (2 ^ 10)
    let minute := Int.tmod (hms / 2 ^ 6) (2 ^ 6)
    let second := Int.tmod hms (2 ^ 6)
    pure (.text (sign ++ fmtD 2 hour ++ ":" ++ fmtD 2 minute ++ ":" ++ fmtD 2 second),
      numBytes)

/-- The type switch of `parseValue`, entered with the type `tp` and the `length`
computed by the `MYSQL_TYPE_STRING` prologue.  A returned error is a `Fault.error`;
the value and byte count returned along with an error are not recorded. -/
def parseValueSwitch (data : List Nat) (tp : Nat) (m : Nat) (length : Int) :
    Except Fault (Value × Nat) :=
  if tp = MYSQL_TYPE_NULL then
    pure (.null, 0)
  else if tp = MYSQL_TYPE_TINY then do
    let v ← getBinaryInt8 data
    pure (.int8 v, 1)
  else if tp = MYSQL_TYPE_SHORT then do
    let v ← getBinaryInt16 data
    pure (.int16 v, 2)
  else if tp = MYSQL_TYPE_INT24 then do
    let v ← (slice data 0 3) >>= getBinaryInt24
    pure (.int32 v, 3)
  else if tp = MYSQL_TYPE_LONG then do
    let v ← getBinaryInt32 data
    pure (.int32 v, 4)
  else if tp = MYSQL_TYPE_LONGLONG then do
    let v ← getBinaryInt64 data
    pure (.int64 v, 8)
  else if tp = MYSQL_TYPE_NEWDECIMAL then
    parseDecimalType data m
  else if tp = MYSQL_TYPE_FLOAT then do
    let v ← leUint32 data
    pure (.float32 v, 4)
  else if tp = MYSQL_TYPE_DOUBLE then do
    let v ← leUint64 data
    pure (.float64 v, 8)
  else if tp = MYSQL_TYPE_BIT then
    parseBitType data m
  else if tp = MYSQL_TYPE_TIMESTAMP then do
    let t ← leUint32 data
    pure (.unixTime t, 4)
  else if tp = MYSQL_TYPE_TIMESTAMP2 then
    parseTimestamp2Type data m
  else if tp = MYSQL_TYPE_DATETIME then
    parseDateTime data
  else if tp = MYSQL_TYPE_DATETIME2 then
    decodeDatetime2 data m
  else if tp = MYSQL_TYPE_TIME then do
    let s ← slice data 0 3
    let i32 : Nat := getLittleEndianFixedLengthInt s % 2 ^ 32
    if i32 = 0 then
      pure (.text "00:00:00", 3)
    else
      let sign := if (i32 : Int) < 0 then "-" else ""
      pure (.text (sign ++ fmtD 2 ((i32 / 10000 : Nat) : Int) ++ ":" ++
        fmtD 2 (((i32 % 10000) / 100 : Nat) : Int) ++ ":" ++ fmtD 2 ((i32 % 100 : Nat) : Int)), 3)
  else if tp = MYSQL_TYPE_TIME2 then
    parseTime2Type data m
  else if tp = MYSQL_TYPE_DATE then do
    let s ← slice data 0 3
    let i32 : Nat := getLittleEndianFixedLengthInt s % 2 ^ 32
    if i32 = 0 then
      pure (.text "0000-00-00", 3)
    else
      pure (.text (fmtD 4 ((i32 / (16 * 32) : Nat) : Int) ++ "-" ++
        fmtD 2 ((i32 / 32 % 16 : Nat) : Int) ++ "-" ++ fmtD 2 ((i32 % 32 : Nat) : Int)), 3)
  else if tp = MYSQL_TYPE_YEAR then
    parseYear data
  else if tp = MYSQL_TYPE_ENUM then
    let l := m &&& 0xFF
    if l = 1 then do
      let v ← index data 0
      pure (.int64 v, 1)
    else if l = 2 then do
      let v ← beUint16 data
      pure (.int64 v, 2)
    else
      throw (.error ("Unknown ENUM packlen=" ++ toString l))
  else if tp = MYSQL_TYPE_SET then do
    let nbits := m &&& 0xFF
    let n := ((nbits + 7) % 65536) / 8
    let v ← parseBit data nbits n
    pure (.int64 v, n)
  else if tp = MYSQL_TYPE_BLOB then
    if m = 1 then do
      let length ← index data 0
      let v ← slice data 1 (1 + length)
      pure (.bytes v, length + 1)
    else if m = 2 then do
      let length ← leUint16 data
      let v ← slice data 2 (2 + length)
      pure (.bytes v, length + 2)
    else if m = 3 then do
      let length := getLittleEndianFixedLengthInt (← slice data 0 3)
      let v ← slice data 3 (3 + length)
      pure (.bytes v, length + 3)
    else if m = 4 then do
      let length ← leUint32 data
      let v ← slice data 4 (4 + length)
      pure (.bytes v, length + 4)
    else
      throw (.error ("invalid blob packlen = " ++ toString m))
  else if tp = MYSQL_TYPE_VARCHAR ∨ tp = MYSQL_TYPE_VAR_STRING then
    parseString data m
  else if tp = MYSQL_TYPE_STRING then
    parseString data length
  else
    throw (.error ("unsupported type " ++ toString tp ++ " in binlog"))

/-- Source `parseValue`; `tp` is a byte and `meta` a `uint16`. -/
def parseValue (data : List Nat) (tp : Nat) (m : Nat) : Except Fault (Value × Nat) :=
  if tp = MYSQL_TYPE_STRING then
    if m ≥ 256 then
      let b0 := (m >>> 8) % 256
      let b1 := (m &&& 0xFF) % 256
      if b0 &&& 0x30 ≠ 0x30 then
        parseValueSwitch data ((b0 ||| 0x30) % 256) m
          ((b1 ||| ((((b0 &&& 0x30) ^^^ 0x30) <<< 4) % 65536) : Nat) : Int)
      else
        parseValueSwitch data b0 m ((m &&& 0xFF : Nat) : Int)
    else
      parseValueSwitch data tp m (m : Int)
  else
    parseValueSwitch data tp m 0

/-! ## eventtype-rows.go: row events -/

/-- Source `RowsEvent`; `Table` is the table map the event refers to. -/
structure RowsEvent where
  Table : TableMapEvent
  TableID : Nat
  Flags : Nat
  ColumnCount : Nat
  ColumnBitmap1 : List Nat
  ColumnBitmap2 : List Nat
  Rows : List (List Value)
  deriving DecidableEq, Repr

/-- The fields `NewRowsEvent` reads before it looks the table up, and the cursor `i`
behind them. -/
structure RowsPostHeader where
  TableID : Nat
  Flags : Nat
  ColumnCount : Nat
  ColumnBitmap1 : List Nat
  ColumnBitmap2 : List Nat
  i : Int
  deriving DecidableEq, Repr

/-- The first part of `NewRowsEvent`, up to the table lookup: table id, flags,
column count and the column bitmap(s). -/
def rowsPostHeader (eventType : Nat) (b : List Nat) : Except Fault RowsPostHeader := do
  let i : Int := 0
  let tableID := getLittleEndianFixedLengthInt (← sliceInt b i 6)
  let i := i + 6
  let flags ← (sliceInt b i (i + 2)) >>= leUint16
  let i := i + 2
  let (columnCount, _, n) ← (sliceFromInt b i) >>= getLengthEncodedInt
  let i := i + (n : Int)
  let bitCount := bitmapByteSize (toSigned 64 columnCount)
  let columnBitmap1 ← sliceInt b i (i + bitCount)
  let i := i + bitCount
  if eventType = UPDATE_ROWS_EVENT_V1 then do
    let columnBitmap2 ← sliceInt b i (i + bitCount)
    let i := i + bitCount
    pure { TableID := tableID, Flags := flags, ColumnCount := columnCount,
           ColumnBitmap1 := columnBitmap1, ColumnBitmap2 := columnBitmap2, i := i }
  else
    pure { TableID := tableID, Flags := flags, ColumnCount := columnCount,
           ColumnBitmap1 := columnBitmap1, ColumnBitmap2 := [], i := i }

/-- Assignment `row[j] = v`; panics when `j` is out of range. -/
def setRow (row : List Value) (j : Nat) (v : Value) : Except Fault (List Value) :=
  if j < row.length then .ok (row.set j v) else .error .panic

/-- The `for j := 0; j < int(e.ColumnCount); j++` loop of `parseRows`, with `k`
iterations left.  The result `none` is the early `return 0, nil` taken when
`parseValue` returns an error; `some (row, i)` is the normal end of the loop. -/
def parseRowsLoop (b : List Nat) (table : TableMapEvent) (bitmap nullBitmap : List Nat) :
    Nat → Nat → Nat → Nat → List Value → Except Fault (Option (List Value × Nat))
  | 0, _, i, _, row => pure (some (row, i))
  | k + 1, j, i, nullBitIndex, row => do
    let bit ← getBit bitmap j
    if bit = 0 then
      parseRowsLoop b table bitmap nullBitmap k (j + 1) i nullBitIndex row
    else do
      let nb ← index nullBitmap (nullBitIndex / 8)
      let isNull := (nb >>> (nullBitIndex % 8)) &&& 0x01
      if isNull > 0 then do
        let row ← setRow row j .null
        parseRowsLoop b table bitmap nullBitmap k (j + 1) i (nullBitIndex + 1) row
      else do
        let data ← sliceFrom b i
        let tp ← index table.ColumnTypes j
        let m ← index table.ColumnMetadata j
        match parseValue data tp m with
        | .error (.error _) => pure none
        | .error f => throw f
        | .ok (v, n) => do
          let row ← setRow row j v
          parseRowsLoop b table bitmap nullBitmap k (j + 1) (i + n) (nullBitIndex + 1) row

/-- Source `RowsEvent.parseRows`: the event afterwards and the returned byte count; the
returned error is always nil.  `make([]interface{}, e.ColumnCount)` panics when the
count does not fit an `int`. -/
def parseRows (e : RowsEvent) (b : List Nat) (table : TableMapEvent) (bitmap : List Nat) :
    Except Fault (RowsEvent × Nat) := do
  if e.ColumnCount ≥ 2 ^ 63 then throw Fault.panic
  let row := List.replicate e.ColumnCount Value.null
  let i := 0
  let count := byteCountFromBitCount (bitCount bitmap)
  let nullBitmap ← slice b i (i + count)
  let i := i + count
  match ← parseRowsLoop b table bitmap nullBitmap e.ColumnCount 0 i 0 row with
  | none => pure (e, 0)
  | some (row, i) => pure ({ e with Rows := e.Rows ++ [row] }, i)

/-- The `for i < len(b)` loop of `NewRowsEvent`.  An iteration that leaves the cursor
where it was is repeated unchanged for ever, so the call never returns
(`Fault.diverge`); every other iteration advances the cursor, so `len(b)` iterations
are enough and the first argument, started at `len(b)`, is never used up. -/
def rowsLoop (eventType : Nat) (b : List Nat) : Nat → RowsEvent → Nat → Except Fault RowsEvent
  | fuel, e, i =>
    if i < b.length then
      match fuel with
      | 0 => throw Fault.diverge
      | fuel + 1 => do
        let (e, n) ← (sliceFrom b i) >>= (fun d => parseRows e d e.Table e.ColumnBitmap1)
        let i1 := i + n
        let (e, i2) ←
          if eventType = UPDATE_ROWS_EVENT_V1 then do
            let (e, n) ← (sliceFrom b i1) >>= (fun d => parseRows e d e.Table e.ColumnBitmap2)
            pure (e, i1 + n)
          else
            pure (e, i1)
        if i2 = i then throw Fault.diverge
        else rowsLoop eventType b fuel e i2
    else
      pure e

/-- The table registry `map[uint64]*TableMapEvent`, as an association list read with
`List.lookup`; the empty map `make(map[uint64]*TableMapEvent)` is `[]`. -/
abbrev Tables := List (Nat × TableMapEvent)

/-- Map assignment `tables[id] = e`. -/
def Tables.set (tables : Tables) (id : Nat) (e : TableMapEvent) : Tables :=
  (id, e) :: tables.filter (fun kv => kv.1 ≠ id)

/-- Source `NewRowsEvent`. -/
def NewRowsEvent (tables : Tables) (eventType : Nat) (b : List Nat) :
    Except Fault RowsEvent := do
  let ph ← rowsPostHeader eventType b
  match tables.lookup ph.TableID with
  | none => throw (.error "invalid table id")
  | some table =>
    rowsLoop eventType b b.length
      { Table := table, TableID := ph.TableID, Flags := ph.Flags,
        ColumnCount := ph.ColumnCount, ColumnBitmap1 := ph.ColumnBitmap1,
        ColumnBitmap2 := ph.ColumnBitmap2, Rows := [] }
      ph.i.toNat

/-! ## event.go, parser.go -/

/-- Source `Event`: the parsed event body, one constructor per concrete event type. -/
inductive Event where
  | formatDescription (e : FormatDescriptionEvent)
  | rotate (e : RotateEvent)
  | tableMap (e : TableMapEvent)
  | rows (e : RowsEvent)
  | query (e : QueryEvent)
  | xid (e : XidEvent)
  | beginLoadQuery (e : BeginLoadQueryEvent)
  | executeLoadQuery (e : ExecuteLoadQueryEvent)
  | generic (e : GenericEvent)
  deriving DecidableEq, Repr

/-- Source `EventContainer`. -/
structure EventContainer where
  Header : EventHeader
  Event : Event
  Bytes : List Nat
  deriving DecidableEq, Repr

/-- Source `EventError`. -/
structure EventError where
  Header : EventHeader
  Err : String
  Data : List Nat
  deriving DecidableEq, Repr

/-- How a call of the parser can fail: a plain `error`, an `*EventError`, a panic, or
a call that never returns. -/
inductive ParseFault where
  | error (msg : String)
  | eventError (e : EventError)
  | panic
  | diverge
  deriving DecidableEq, Repr

/-- Source `BinlogParser`; a nil `format` is `none`. -/
structure BinlogParser where
  format : Option FormatDescriptionEvent
  tables : Tables
  deriving DecidableEq, Repr

/-- Source `NewBinlogParser`. -/
def NewBinlogParser : BinlogParser := { format := none, tables := [] }

/-- Source `parseHeader`. -/
def parseHeader (b : List Nat) : Except Fault EventHeader :=
  match NewEventHeader b with
  | .error f => .error f
  | .ok h => .ok h

/-- The end of `parseEvent`: an `error` returned by the body parser is wrapped as
`&EventError{h, err.Error(), data}`. -/
def wrapEventError (h : EventHeader) (data : List Nat) : Fault → ParseFault
  | .error msg => .eventError { Header := h, Err := msg, Data := data }
  | .panic => .panic
  | .diverge => .diverge

/-- Source `BinlogParser.parseEvent`: the parser afterwards and the returned event or
failure. -/
def BinlogParser.parseEvent (p : BinlogParser) (h : EventHeader) (data : List Nat) :
    BinlogParser × Except ParseFault Event :=
  if h.EventType = FORMAT_DESCRIPTION_EVENT then
    match NewFormatDescriptionEvent data with
    | .ok e => ({ p with format := some e }, .ok (.formatDescription e))
    | .error f => (p, .error (wrapEventError h data f))
  else if h.EventType = ROTATE_EVENT then
    match NewRotateEvent data with
    | .ok e => ({ p with tables := [] }, .ok (.rotate e))
    | .error f => (p, .error (wrapEventError h data f))
  else if h.EventType = TABLE_MAP_EVENT then
    match NewTableMapEvent p.format data with
    | .ok e => ({ p with tables := p.tables.set e.TableID e }, .ok (.tableMap e))
    | .error f => (p, .error (wrapEventError h data f))
  else if h.EventType = WRITE_ROWS_EVENT_V1 ∨ h.EventType = DELETE_ROWS_EVENT_V1 ∨
      h.EventType = UPDATE_ROWS_EVENT_V1 then
    match NewRowsEvent p.tables h.EventType data with
    | .ok e => (p, .ok (.rows e))
    | .error f => (p, .error (wrapEventError h data f))
  else if h.EventType = QUERY_EVENT then
    match NewQueryEvent data with
    | .ok e => (p, .ok (.query e))
    | .error f => (p, .error (wrapEventError h data f))
  else if h.EventType = XID_EVENT then
    match NewXidEvent data with
    | .ok e => (p, .ok (.xid e))
    | .error f => (p, .error (wrapEventError h data f))
  else if h.EventType = BEGIN_LOAD_QUERY_EVENT then
    match NewBeginLoadQueryEvent data with
    | .ok e => (p, .ok (.beginLoadQuery e))
    | .error f => (p, .error (wrapEventError h data f))
  else if h.EventType = EXECUTE_LOAD_QUERY_EVENT then
    match NewExecuteLoadQueryEvent data with
    | .ok e => (p, .ok (.executeLoadQuery e))
    | .error f => (p, .error (wrapEventError h data f))
  else
    match NewGenericEvent data with
    | .ok e => (p, .ok (.generic e))
    | .error f => (p, .error (wrapEventError h data f))

/-- An `error` returned by `parseHeader` is passed on unchanged by `Parse`. -/
def plainError : Fault → ParseFault
  | .error msg => .error msg
  | .panic => .panic
  | .diverge => .diverge

/-- Source `BinlogParser.Parse`: the parser afterwards and the returned container or
failure. -/
def BinlogParser.Parse (p : BinlogParser) (b : List Nat) :
    BinlogParser × Except ParseFault EventContainer :=
  match parseHeader b with
  | .error f => (p, .error (plainError f))
  | .ok h =>
    match sliceFrom b EventHeaderSize with
    | .error f => (p, .error (plainError f))
    | .ok body =>
      let eventLen : Int := (h.EventSize : Int) - (EventHeaderSize : Int)
      if (body.length : Int) ≠ eventLen then
        (p, .error (.error "invalid event size"))
      else
        match p.parseEvent h body with
        | (p1, .error f) => (p1, .error f)
        | (p1, .ok e) => (p1, .ok { Header := h, Event := e, Bytes := b })

/-! ## conn.go: OK packets -/

/-- Modelled from the spec: the packet marker `OK_HEADER` ("OK=0x00"). -/
def OK_HEADER : Nat := 0x00

/-- Modelled from the spec: the packet marker `ERR_HEADER` ("ERR=0xFF"). -/
def ERR_HEADER : Nat := 0xff

/-- Modelled from the spec: the capability flag `CLIENT_PROTOCOL_41` ("PROTOCOL_41=0x200"). -/
def CLIENT_PROTOCOL_41 : Nat := 0x200

/-- Modelled from the spec: the capability flag `CLIENT_TRANSACTIONS`
("TRANSACTIONS=0x2000"). -/
def CLIENT_TRANSACTIONS : Nat := 0x2000

/-- Modelled from the spec: the command byte `COM_BINLOG_DUMP` (0x12). -/
def COM_BINLOG_DUMP : Nat := 0x12

/-- Modelled from the spec: the dump flags `BINLOG_DUMP_NEVER_STOP = 0x00`. -/
def BINLOG_DUMP_NEVER_STOP : Nat := 0x00

/-- Modelled from the spec: the marker `SemiSyncIndicator = 0xEF` (also asserted by
`const_test.go`). -/
def SemiSyncIndicator : Nat := 0xef

/-- The part of source `Result` that `handleOKPacket` fills. -/
structure Result where
  Status : Nat
  InsertId : Nat
  AffectedRows : Nat
  deriving DecidableEq, Repr

/-- Source `Conn` as the follower uses it: the framing part `framing` together with the
handshake fields `capability` and `status` that `handleOKPacket` reads and writes. -/
structure ClientConn where
  framing : Conn
  capability : Nat
  status : Nat
  deriving DecidableEq, Repr

/-- Source `Conn.handleErrorPacket`: the returned error. -/
def ClientConn.handleErrorPacket (_c : ClientConn) (_data : List Nat) : Fault :=
  .error "error packet"

/-- Source `Conn.handleOKPacket`: the connection afterwards and the result. -/
def ClientConn.handleOKPacket (c : ClientConn) (b : List Nat) : Except Fault (ClientConn × Result) := do
  let i := 1
  let (affectedRows, _, n) ← (sliceFrom b i) >>= getLengthEncodedInt
  let i := i + n
  let (insertId, _, n) ← (sliceFrom b i) >>= getLengthEncodedInt
  let i := i + n
  if c.capability &&& CLIENT_PROTOCOL_41 > 0 then do
    let status ← (sliceFrom b i) >>= leUint16
    pure ({ c with status := status },
      { Status := status, InsertId := insertId, AffectedRows := affectedRows })
  else if c.capability &&& CLIENT_TRANSACTIONS > 0 then do
    let status ← (sliceFrom b i) >>= leUint16
    pure ({ c with status := status },
      { Status := status, InsertId := insertId, AffectedRows := affectedRows })
  else
    pure (c, { Status := 0, InsertId := insertId, AffectedRows := affectedRows })

/-- Source `Conn.readOKPacket`: the connection afterwards and the result or failure. -/
def ClientConn.readOKPacket (c : ClientConn) : ClientConn × Except Fault Result :=
  match c.framing.readPacket with
  | (fr, .error err) => ({ c with framing := fr }, .error err)
  | (fr, .ok data) =>
    let c := { c with framing := fr }
    match index data 0 with
    | .error f => (c, .error f)
    | .ok d0 =>
      if d0 = OK_HEADER then
        match c.handleOKPacket data with
        | .error f => (c, .error f)
        | .ok (c, r) => (c, .ok r)
      else if d0 = ERR_HEADER then
        (c, .error (c.handleErrorPacket data))
      else
        (c, .error (.error "invalid ok packet"))

/-- Source `binary.LittleEndian.PutUint16(b[i:], v)`: the slice `b` afterwards. -/
def lePutUint16 (b : List Nat) (i : Nat) (v : Nat) : Except Fault (List Nat) := do
  let d ← sliceFrom b i
  if d.length < 2 then throw Fault.panic
  pure (b.take i ++ [v % 256, (v >>> 8) % 256] ++ d.drop 2)

/-- Source `binary.LittleEndian.PutUint32(b[i:], v)`: the slice `b` afterwards. -/
def lePutUint32 (b : List Nat) (i : Nat) (v : Nat) : Except Fault (List Nat) := do
  let d ← sliceFrom b i
  if d.length < 4 then throw Fault.panic
  pure (b.take i ++ [v % 256, (v >>> 8) % 256, (v >>> 16) % 256, (v >>> 24) % 256] ++ d.drop 4)

/-- Source `binary.LittleEndian.PutUint64(b[i:], v)`: the slice `b` afterwards. -/
def lePutUint64 (b : List Nat) (i : Nat) (v : Nat) : Except Fault (List Nat) := do
  let d ← sliceFrom b i
  if d.length < 8 then throw Fault.panic
  pure (b.take i ++ [v % 256, (v >>> 8) % 256, (v >>> 16) % 256, (v >>> 24) % 256,
    (v >>> 32) % 256, (v >>> 40) % 256, (v >>> 48) % 256, (v >>> 56) % 256] ++ d.drop 8)

/-! ## streamer.go -/

/-- Source `Streamer`.  A Go `error` is an `Option String`, nil being `none`; the
channel `ch` (capacity 1024) and the channel `ech` (capacity 4) are the queues of the
values sent and not yet received. -/
structure Streamer where
  ch : List EventContainer
  ech : List (Option String)
  err : Option String
  deriving DecidableEq, Repr

/-- Source `newStreamer`. -/
def newStreamer : Streamer := { ch := [], ech := [], err := none }

/-- Source `Streamer.GetEvent`: the streamer afterwards and the returned pair
`(*EventContainer, error)`, or `none` while the `select` is still waiting because both
channels are empty.  When both channels hold a value the runtime picks a case; that
choice is the argument `pickError`. -/
def Streamer.GetEvent (s : Streamer) (pickError : Bool) :
    Streamer × Option (Option EventContainer × Option String) :=
  match s.err with
  | some _ => (s, some (none, some "last sync failed"))
  | none =>
    match s.ch, s.ech with
    | [], [] => (s, none)
    | c :: rest, [] => ({ s with ch := rest }, some (some c, none))
    | [], e :: rest => ({ s with ech := rest, err := e }, some (none, e))
    | c :: rc, e :: re =>
      if pickError then ({ s with ech := re, err := e }, some (none, e))
      else ({ s with ch := rc }, some (some c, none))

/-- Source `Streamer.closeWithError`: a non-blocking send on `ech`, dropped when the
channel is full. -/
def Streamer.closeWithError (s : Streamer) (err : Option String) : Streamer :=
  let err := match err with
    | none => some "sync was closed"
    | some msg => some msg
  if s.ech.length < 4 then { s with ech := s.ech ++ [err] } else s

/-- Source `Streamer.Close`. -/
def Streamer.Close (s : Streamer) : Streamer := s.closeWithError (some "last sync failed")

/-! ## follower.go -/

/-- Source `Position` (util.go); the name is given by its bytes. -/
structure Position where
  Name : List Nat
  Pos : Nat
  deriving DecidableEq, Repr

/-- The part of source `Follower` that `StartSync` and `parseEvent` use.  A nil
connection is `none`; `stopChan` is the number of stop signals waiting in the
channel. -/
structure Follower where
  c : Option ClientConn
  followerID : Nat
  parser : BinlogParser
  NextPosition : Position
  running : Bool
  semiSyncEnabled : Bool
  stopChan : Nat
  deriving DecidableEq, Repr

/-- Source `Follower.checkExec`: the returned error, nil being `none`. -/
def Follower.checkExec (f : Follower) : Option String :=
  if f.running then some "Sync is running, must close first"
  else if f.c.isNone then some "Follower is not registered."
  else none

/-- Source `makeBinlogDumpCommand`. -/
def makeBinlogDumpCommand (p : Position) (followerID : Nat) : Except Fault (List Nat) := do
  let b := List.replicate (4 + 1 + 4 + 2 + 4 + p.Name.length) 0
  let i := 4
  let b ← setAt b i COM_BINLOG_DUMP
  let i := i + 1
  let b ← lePutUint32 b i p.Pos
  let i := i + 4
  let b ← lePutUint16 b i BINLOG_DUMP_NEVER_STOP
  let i := i + 2
  let b ← lePutUint32 b i followerID
  let i := i + 4
  let dst ← sliceFrom b i
  pure (b.take i ++ copyBytes dst p.Name)

/-- Source `Follower.writeBinlogDumpCommand`: the follower afterwards and the returned
error; a nil connection panics. -/
def Follower.writeBinlogDumpCommand (f : Follower) (p : Position) : Follower × Option Fault :=
  match f.c with
  | none => (f, some .panic)
  | some c =>
    let fr := c.framing.resetSequence
    match makeBinlogDumpCommand p f.followerID with
    | .error e => ({ f with c := some { c with framing := fr } }, some e)
    | .ok data =>
      let r := fr.writePacket data
      ({ f with c := some { c with framing := r.1 } }, r.2)

/-- Source `Follower.startStream`; the task it spawns is not run here. -/
def Follower.startStream (f : Follower) : Follower × Streamer :=
  ({ f with running := true, stopChan := 0 }, newStreamer)

/-- Source `Follower.StartSync`: the follower afterwards and the returned streamer or
error. -/
def Follower.StartSync (f : Follower) (binlogFile : List Nat) (binlogPos : Nat) :
    Follower × Except Fault Streamer :=
  let pos : Position := { Name := binlogFile, Pos := binlogPos }
  match f.checkExec with
  | some msg => (f, .error (.error msg))
  | none =>
    let pos := if pos.Pos < 4 then { pos with Pos := 4 } else pos
    match f.writeBinlogDumpCommand pos with
    | (f1, some err) => (f1, .error err)
    | (f1, none) => (f1.startStream.1, .ok f1.startStream.2)

/-- Source `makeSemiSyncAck`. -/
def makeSemiSyncAck (p : Position) : Except Fault (List Nat) := do
  let b := List.replicate (4 + 1 + 8 + p.Name.length) 0
  let pos := 4
  let b ← setAt b pos SemiSyncIndicator
  let pos := pos + 1
  let b ← lePutUint64 b pos p.Pos
  let pos := pos + 8
  let dst ← sliceFrom b pos
  pure (b.take pos ++ copyBytes dst p.Name)

/-- Source `Follower.replySemiSyncAck`: the follower afterwards and the returned
error; a nil connection panics. -/
def Follower.replySemiSyncAck (f : Follower) (p : Position) : Follower × Option Fault :=
  match f.c with
  | none => (f, some .panic)
  | some c =>
    let fr := c.framing.resetSequence
    match makeSemiSyncAck p with
    | .error e => ({ f with c := some { c with framing := fr } }, some e)
    | .ok data =>
      match fr.writePacket data with
      | (fr, some err) => ({ f with c := some { c with framing := fr } }, some err)
      | (fr, none) =>
        match ClientConn.readOKPacket { c with framing := fr } with
        | (c, .error err) => ({ f with c := some c }, some err)
        | (c, .ok _) => ({ f with c := some c }, none)

/-- The case of the `select` in `Follower.parseEvent` that fires, possibly after
waiting: the send on the streamer's channel or the receive from the stop channel. -/
inductive SelectCase where
  | delivered
  | stopped
  deriving DecidableEq, Repr

/-- The first lines of source `Follower.parseEvent`: the packet without the OK byte
and, when semi-sync is enabled and the indicator is present, without the two-byte
semi-sync header, together with `needACK`. -/
def stripStreamHeader (semiSyncEnabled : Bool) (b : List Nat) :
    Except Fault (List Nat × Bool) := do
  let b ← sliceFrom b 1
  if semiSyncEnabled then do
    let b0 ← index b 0
    if b0 = SemiSyncIndicator then do
      let b1 ← index b 1
      let b ← sliceFrom b 2
      pure (b, decide (b1 = 0x01))
    else
      pure (b, false)
  else
    pure (b, false)

/-- Source `Follower.parseEvent`: the follower and the streamer afterwards and the
returned error, nil being `none`. -/
def Follower.parseEvent (f : Follower) (str : Streamer) (b : List Nat) (fired : SelectCase) :
    Follower × Streamer × Option ParseFault :=
  match stripStreamHeader f.semiSyncEnabled b with
  | .error e => (f, str, some (plainError e))
  | .ok (b, needACK) =>
    match f.parser.Parse b with
    | (p, .error pf) => ({ f with parser := p }, str, some pf)
    | (p, .ok e) =>
      let f1 : Follower := { f with parser := p,
                                    NextPosition := { f.NextPosition with Pos := e.Header.LogPos } }
      let f2 : Follower := match e.Event with
        | .rotate re =>
          { f1 with NextPosition := { Name := re.NextFile, Pos := re.NextPosition % 2 ^ 32 } }
        | _ => f1
      let f3 : Follower := match fired with
        | .delivered => f2
        | .stopped => { f2 with stopChan := f2.stopChan - 1 }
      let str1 : Streamer := match fired with
        | .delivered => { str with ch := str.ch ++ [e] }
        | .stopped => str
      let needStop : Bool := match fired with
        | .delivered => false
        | .stopped => true
      let acked : Follower × Option Fault :=
        if needACK then f3.replySemiSyncAck f3.NextPosition else (f3, none)
      match acked with
      | (f4, some err) => (f4, str1, some (plainError err))
      | (f4, none) =>
        if needStop then (f4, str1, some (.error "sync stopping")) else (f4, str1, none)

/-! ## util.go: scramble41, with the SHA-1 digest of crypto/sha1 -/

/-- Left rotation of a 32-bit word. -/
def rotl32 (x n : Nat) : Nat := ((x <<< n) ||| (x >>> (32 - n))) % 2 ^ 32

/-- The `k` low bytes of `v`, most significant first. -/
def beBytes : Nat → Nat → List Nat
  | 0, _ => []
  | k + 1, v => (v / 256 ^ k) % 256 :: beBytes k v

/-- SHA-1 padding: the byte `0x80`, zero bytes up to 56 modulo 64, and the bit length
as a 64-bit big-endian integer. -/
def sha1Pad (msg : List Nat) : List Nat :=
  msg ++ [0x80] ++ List.replicate ((119 - msg.length % 64) % 64) 0 ++ beBytes 8 (8 * msg.length)

/-- The big-endian 32-bit words of a block. -/
def sha1Words : List Nat → List Nat
  | a :: b :: c :: d :: rest => (a <<< 24 ||| b <<< 16 ||| c <<< 8 ||| d) :: sha1Words rest
  | _ => []

/-- The five working words of SHA-1. -/
structure Sha1State where
  a : Nat
  b : Nat
  c : Nat
  d : Nat
  e : Nat
  deriving DecidableEq, Repr

/-- Round `t` of the SHA-1 compression function on the schedule word `w`. -/
def sha1Round (t : Nat) (st : Sha1State) (w : Nat) : Sha1State :=
  let f := if t < 20 then (st.b &&& st.c) ||| ((st.b ^^^ 0xFFFFFFFF) &&& st.d)
    else if t < 40 then st.b ^^^ st.c ^^^ st.d
    else if t < 60 then (st.b &&& st.c) ||| (st.b &&& st.d) ||| (st.c &&& st.d)
    else st.b ^^^ st.c ^^^ st.d
  let k := if t < 20 then 0x5A827999 else if t < 40 then 0x6ED9EBA1
    else if t < 60 then 0x8F1BBCDC else 0xCA62C1D6
  { a := (rotl32 st.a 5 + f + st.e + k + w) % 2 ^ 32, b := st.a, c := rotl32 st.b 30,
    d := st.c, e := st.d }

/-- The rounds `t, t+1, ..` of one block, `n` of them, over a sliding window of the
sixteen latest schedule words. -/
def sha1Rounds : Nat → Nat → Sha1State → List Nat → Sha1State
  | 0, _, st, _ => st
  | n + 1, t, st, win =>
    match win with
    | [] => st
    | w0 :: rest =>
      sha1Rounds n (t + 1) (sha1Round t st w0)
        (rest ++ [rotl32 (win.getD 13 0 ^^^ win.getD 8 0 ^^^ win.getD 2 0 ^^^ w0) 1])

/-- The SHA-1 compression of one 64-byte block into the chaining value `h`. -/
def sha1Block (h : Sha1State) (block : List Nat) : Sha1State :=
  let r := sha1Rounds 80 0 h (sha1Words block)
  { a := (h.a + r.a) % 2 ^ 32, b := (h.b + r.b) % 2 ^ 32, c := (h.c + r.c) % 2 ^ 32,
    d := (h.d + r.d) % 2 ^ 32, e := (h.e + r.e) % 2 ^ 32 }

/-- The compression of `n` consecutive blocks. -/
def sha1Blocks : Nat → Sha1State → List Nat → Sha1State
  | 0, h, _ => h
  | n + 1, h, bytes => sha1Blocks n (sha1Block h (bytes.take 64)) (bytes.drop 64)

/-- The SHA-1 digest of a byte sequence (FIPS 180-4), which Go's `crypto/sha1`
computes. -/
def sha1 (msg : List Nat) : List Nat :=
  let padded := sha1Pad msg
  let h := sha1Blocks (padded.length / 64)
    { a := 0x67452301, b := 0xEFCDAB89, c := 0x98BADCFE, d := 0x10325476, e := 0xC3D2E1F0 } padded
  beBytes 4 h.a ++ beBytes 4 h.b ++ beBytes 4 h.c ++ beBytes 4 h.d ++ beBytes 4 h.e

/-- Go's `hash.Hash` as `sha1.New()` returns it: the bytes written since the last
reset. -/
structure Sha1Hash where
  written : List Nat
  deriving DecidableEq, Repr

/-- Go `sha1.New()`. -/
def sha1New : Sha1Hash := { written := [] }

/-- Go `hash.Write(p)`: appends `p` to the hashed data. -/
def Sha1Hash.Write (h : Sha1Hash) (p : List Nat) : Sha1Hash := { written := h.written ++ p }

/-- Go `hash.Sum(b)`: appends the digest of the data written so far to `b`, leaving the
hash state as it is. -/
def Sha1Hash.Sum (h : Sha1Hash) (b : List Nat) : List Nat := b ++ sha1 h.written

/-- Go `hash.Reset()`. -/
def Sha1Hash.Reset (_h : Sha1Hash) : Sha1Hash := { written := [] }

/-- The loop `for i := range result { result[i] ^= stage1[i] }` of `scramble41`, with
`k` iterations left. -/
def xorLoop (stage1 : List Nat) : Nat → Nat → List Nat → Except Fault (List Nat)
  | 0, _, result => pure result
  | k + 1, i, result => do
    let r ← index result i
    let s ← index stage1 i
    let result ← setAt result i (r ^^^ s)
    xorLoop stage1 k (i + 1) result

/-- Source `scramble41`; the `nil` result is the empty sequence. -/
def scramble41 (scramble password : List Nat) : Except Fault (List Nat) :=
  if password.length = 0 then pure []
  else do
    let hash := sha1New
    let hash := hash.Write password
    let stage1 := hash.Sum []
    let hash := hash.Reset
    let hash := hash.Write stage1
    let stage2 := hash.Sum []
    let hash := hash.Reset
    let hash := hash.Write scramble
    let hash := hash.Write stage2
    let result := hash.Sum []
    xorLoop stage1 result.length 0 result

/-! ## Specification-side definitions -/

/-- The `k` bytes of the little-endian encoding of `v`, lowest byte first. -/
def littleEndianBytes : Nat → Nat → List Nat
  | 0, _ => []
  | k + 1, v => v % 256 :: littleEndianBytes k (v / 256)

/-- What can happen to a streamer after a call of `GetEvent`: another call of
`GetEvent`, a send of an event on `ch` by the producer, a call of `closeWithError`, or
a call of `Close`. -/
inductive StreamOp where
  | getEvent (pickError : Bool)
  | send (c : EventContainer)
  | closeWithError (err : Option String)
  | close
  deriving DecidableEq, Repr

/-- The streamer after a sequence of operations, with the results of the calls of
`GetEvent` among them, in order. -/
def Streamer.run : Streamer → List StreamOp →
    Streamer × List (Option (Option EventContainer × Option String))
  | s, [] => (s, [])
  | s, .getEvent pickError :: ops =>
    let r := s.GetEvent pickError
    let rest := Streamer.run r.1 ops
    (rest.1, r.2 :: rest.2)
  | s, .send c :: ops => Streamer.run { s with ch := s.ch ++ [c] } ops
  | s, .closeWithError err :: ops => Streamer.run (s.closeWithError err) ops
  | s, .close :: ops => Streamer.run s.Close ops


/-- The value of a byte string read as a little-endian integer. -/
def littleEndian (bs : List Nat) : Nat := bs.foldr (fun x acc => x + 256 * acc) 0

/-- The value of a byte string read as a big-endian integer. -/
def bigEndian (bs : List Nat) : Nat := bs.foldl (fun acc x => acc * 256 + x) 0

/-- Two's-complement signed reading of an unsigned `bits`-bit value `u`. -/
def twosComplement (bits : Nat) (u : Nat) : Int :=
  if u < 2 ^ (bits - 1) then (u : Int) else (u : Int) - 2 ^ bits

/-- The integer MySQL packs a date and time of day into, before the bias
`DATETIMEF_INT_OFS` is added. -/
def packDatetime2 (year month day hour minute second : Nat) : Nat :=
  ((((year * 13 + month) <<< 5) ||| day) <<< 17) ||| (hour <<< 12) ||| (minute <<< 6) ||| second

/-- The size in bytes of the binary form of a decimal with precision `p` and scale `s`:
four bytes for every nine digits and `compressedBytes` for the digits left over, on
each side of the decimal point. -/
def decimalBinarySize (p s : Nat) : Nat :=
  (p - s) / 9 * 4 + compressedBytes.getD ((p - s) % 9) 0 +
    s / 9 * 4 + compressedBytes.getD (s % 9) 0

/-- Population count of a byte: the number of set bits among its low eight bits. -/
def popCount8 (v : Nat) : Nat := (List.range 8).countP (fun k => v.testBit k)

/-- Whether `getBit bitmap i` returns a non-zero byte. -/
def bitIsSet (bitmap : List Nat) (i : Nat) : Bool :=
  match getBit bitmap i with
  | .ok v => v != 0
  | .error _ => false

/-- The number of indices `i` with `0 ≤ i < 8 * len(bitmap)` at which `getBit` is
non-zero. -/
def setBitIndices (bitmap : List Nat) : Nat :=
  (List.range (8 * bitmap.length)).countP (bitIsSet bitmap)

/-- The packet buffer of a `COM_BINLOG_DUMP` command: four reserved bytes, the command
byte 0x12, the position clamped to at least 4 as a little-endian `uint32`, the two flag
bytes, the follower id as a little-endian `uint32`, and the file name. -/
def binlogDumpPacket (file : List Nat) (pos fid : Nat) : List Nat :=
  [0, 0, 0, 0] ++ [0x12] ++ littleEndianBytes 4 (max pos 4) ++ [0x00, 0x00] ++
    littleEndianBytes 4 fid ++ file

/-- The number of set bits of a bitmap. -/
def popcount (bitmap : List Nat) : Nat := (bitmap.map popCount8).sum

/-- Whether column `j` is selected by a column bitmap: bit `j mod 8` of byte `j / 8`. -/
def columnSelected (bitmap : List Nat) (j : Nat) : Bool := (bitmap.getD (j / 8) 0).testBit (j % 8)

/-- The columns `0 .. C-1` that a column bitmap selects, in column order. -/
def selectedColumns (bitmap : List Nat) (C : Nat) : List Nat :=
  (List.range C).filter (columnSelected bitmap)

/-- Decoding of the selected columns `js`, the first of which is the `k`-th selected
column of the row, with the values read from the row image `b` at the cursor `i`: the
`k`-th selected column is nil when bit `k mod 8` of null-bitmap byte `k / 8` is set,
and otherwise holds what `parseValue` returns for the column's type and metadata on
the image from the cursor on, the cursor then moving by the consumed size.  The result
is the row and the final cursor, or `none` when a column does not decode. -/
def decodeSelected (b types metas nullBitmap : List Nat) :
    List Nat → Nat → Nat → List Value → Option (List Value × Nat)
  | [], _, i, row => some (row, i)
  | j :: js, k, i, row =>
    if columnSelected nullBitmap k then
      decodeSelected b types metas nullBitmap js (k + 1) i (row.set j .null)
    else if i ≤ b.length then
      match parseValue (b.drop i) (types.getD j 0) (metas.getD j 0) with
      | .ok (v, n) => decodeSelected b types metas nullBitmap js (k + 1) (i + n) (row.set j v)
      | .error _ => none
    else none

/-- Row decoding as the specification words it: a null bitmap of
`ceil(popcount(bitmap) / 8)` bytes, then the values of the selected non-null columns,
in a row of `C` entries that starts all nil. -/
def decodeRow (C : Nat) (b : List Nat) (table : TableMapEvent) (bitmap : List Nat) :
    Option (List Value × Nat) :=
  decodeSelected b table.ColumnTypes table.ColumnMetadata (b.take ((popcount bitmap + 7) / 8))
    (selectedColumns bitmap C) 0 ((popcount bitmap + 7) / 8) (List.replicate C .null)

/-! ## Case lists of the dispatch switches -/

/-- The event type codes that the switch of `parseEvent` names. -/
def namedEventTypes : List Nat :=
  [QUERY_EVENT, ROTATE_EVENT, FORMAT_DESCRIPTION_EVENT, XID_EVENT, BEGIN_LOAD_QUERY_EVENT,
   EXECUTE_LOAD_QUERY_EVENT, TABLE_MAP_EVENT, WRITE_ROWS_EVENT_V1, UPDATE_ROWS_EVENT_V1,
   DELETE_ROWS_EVENT_V1]

/-- The event type codes of the cases of `parseEvent` that assign neither `p.format`
nor `p.tables`: query, xid, the two load-query events and the three rows events. -/
def frameEventTypes : List Nat :=
  [QUERY_EVENT, XID_EVENT, BEGIN_LOAD_QUERY_EVENT, EXECUTE_LOAD_QUERY_EVENT,
   WRITE_ROWS_EVENT_V1, UPDATE_ROWS_EVENT_V1, DELETE_ROWS_EVENT_V1]

/-- The column type codes that have a case in the switch of `parseValue`. -/
def supportedColumnTypes : List Nat :=
  [MYSQL_TYPE_NULL, MYSQL_TYPE_TINY, MYSQL_TYPE_SHORT, MYSQL_TYPE_INT24, MYSQL_TYPE_LONG,
   MYSQL_TYPE_LONGLONG, MYSQL_TYPE_NEWDECIMAL, MYSQL_TYPE_FLOAT, MYSQL_TYPE_DOUBLE,
   MYSQL_TYPE_BIT, MYSQL_TYPE_TIMESTAMP, MYSQL_TYPE_TIMESTAMP2, MYSQL_TYPE_DATETIME,
   MYSQL_TYPE_DATETIME2, MYSQL_TYPE_TIME, MYSQL_TYPE_TIME2, MYSQL_TYPE_DATE, MYSQL_TYPE_YEAR,
   MYSQL_TYPE_ENUM, MYSQL_TYPE_SET, MYSQL_TYPE_BLOB, MYSQL_TYPE_VARCHAR,
   MYSQL_TYPE_VAR_STRING, MYSQL_TYPE_STRING]

/-! ## Example inputs -/

/-- A table map with a `GEOMETRY` column followed by a `TINY` column, as
`NewTableMapEvent` builds it. -/
def geometryTable : TableMapEvent :=
  { TableID := 1, Flags := 0, DatabaseName := [100], TableName := [116], ColumnCount := 2,
    ColumnTypes := [255, 1], ColumnMetadata := [0, 0], NullBitVector := [3] }

/-- A `ROTATE_EVENT`: a 19-byte header with event size 28, then position 4 and the file
name `a`. -/
def rotateEventBytes : List Nat :=
  [0, 0, 0, 0, 4, 1, 0, 0, 0, 28, 0, 0, 0, 0, 0, 0, 0, 0, 0, 4, 0, 0, 0, 0, 0, 0, 0, 97]

/-- An `UPDATE_ROWS_EVENT_V1` for table id 1: a 19-byte header with event size 34, then
a post-header with two columns and one before/after pair of rows. -/
def updateEventBytes : List Nat :=
  [0, 0, 0, 0, 24, 1, 0, 0, 0, 34, 0, 0, 0, 0, 0, 0, 0, 0, 0,
   1, 0, 0, 0, 0, 0, 0, 0, 2, 2, 2, 0, 5, 0, 7]

/-- A format description whose post-header length entry is 8 for every event type, so
that table ids take six bytes. -/
def sixByteFormat : FormatDescriptionEvent :=
  { BinlogVersion := 4, ServerVersion := [], CreationTimestamp := 0, EventHeaderLength := 19,
    EventTypeHeaderLengths := List.replicate 27 8 }

/-- A `TABLE_MAP_EVENT` for table id 1: a 19-byte header with event size 39, then the
table map of `geometryTable` (database `d`, table `t`, a `GEOMETRY` and a `TINY`
column). -/
def tableMapEventBytes : List Nat :=
  [0, 0, 0, 0, 19, 1, 0, 0, 0, 39, 0, 0, 0, 0, 0, 0, 0, 0, 0,
   1, 0, 0, 0, 0, 0, 0, 0, 1, 100, 0, 1, 116, 0, 2, 255, 1, 1, 0, 3]

/-- A format description body of 57 bytes that declares binlog version 3 and header
length 19. -/
def versionThreeFormatBody : List Nat :=
  3 :: 0 :: (List.replicate 54 0 ++ [19])

/-- A `ROTATE_EVENT` whose next position is `2^32 + 4`: a 19-byte header with event size
28, then the position bytes `04 00 00 00 01 00 00 00` and the file name `a`. -/
def farRotateEventBytes : List Nat :=
  [0, 0, 0, 0, 4, 1, 0, 0, 0, 28, 0, 0, 0, 0, 0, 0, 0, 0, 0, 4, 0, 0, 0, 1, 0, 0, 0, 97]

/-- A follower that is not registered, not running, without semi-sync, with a new
parser and the position 0 of the file `z`. -/
def idleFollower : Follower :=
  { c := none, followerID := 7, parser := NewBinlogParser,
    NextPosition := { Name := [122], Pos := 0 }, running := false, semiSyncEnabled := false,
    stopChan := 0 }

/-- A table map of three `TINY` columns. -/
def tinyTable : TableMapEvent :=
  { TableID := 1, Flags := 0, DatabaseName := [100], TableName := [116], ColumnCount := 3,
    ColumnTypes := [1, 1, 1], ColumnMetadata := [0, 0, 0], NullBitVector := [7] }

/-- A rows event of three columns on `tinyTable` that holds no row yet. -/
def tinyRows : RowsEvent :=
  { Table := tinyTable, TableID := 1, Flags := 0, ColumnCount := 3, ColumnBitmap1 := [5],
    ColumnBitmap2 := [], Rows := [] }

/-! ## Bytes and integers -/

theorem lor_shl (a b k : Nat) (h : a < 2 ^ k) : a ||| b <<< k = a + b * 2 ^ k := by
  rw [Nat.lor_comm, Nat.shiftLeft_eq, Nat.mul_comm, ← Nat.mul_add_lt_is_or h]; omega

theorem lor_shl_eight (b0 b1 b2 b3 b4 b5 b6 b7 : Nat) (h0 : b0 < 256) (h1 : b1 < 256) (h2 : b2 < 256)
    (h3 : b3 < 256) (h4 : b4 < 256) (h5 : b5 < 256) (h6 : b6 < 256) :
    b0 ||| b1 <<< 8 ||| b2 <<< 16 ||| b3 <<< 24 ||| b4 <<< 32 ||| b5 <<< 40 ||| b6 <<< 48 ||| b7 <<< 56
    = b0 + b1 * 2^8 + b2 * 2^16 + b3 * 2^24 + b4 * 2^32 + b5 * 2^40 + b6 * 2^48 + b7 * 2^56 := by
  rw [lor_shl b0 b1 8 (by omega)]
  rw [lor_shl _ b2 16 (by omega)]
  rw [lor_shl _ b3 24 (by omega)]
  rw [lor_shl _ b4 32 (by omega)]
  rw [lor_shl _ b5 40 (by omega)]
  rw [lor_shl _ b6 48 (by omega)]
  rw [lor_shl _ b7 56 (by omega)]

theorem byte_split_eight (n : Nat) (h : n < 2 ^ 64) :
    n % 256 + (n / 2^8 % 256) * 2^8 + (n / 2^16 % 256) * 2^16 + (n / 2^24 % 256) * 2^24
     + (n / 2^32 % 256) * 2^32 + (n / 2^40 % 256) * 2^40 + (n / 2^48 % 256) * 2^48
     + (n / 2^56 % 256) * 2^56 = n := by
  omega

theorem getLengthEncodedInt_nine (b1 b2 b3 b4 b5 b6 b7 b8 : Nat) :
    getLengthEncodedInt [0xfe, b1, b2, b3, b4, b5, b6, b7, b8] =
      .ok (b1 ||| b2 <<< 8 ||| b3 <<< 16 ||| b4 <<< 24 ||| b5 <<< 32 ||| b6 <<< 40 |||
      b7 <<< 48 ||| b8 <<< 56, false, 9) := rfl

theorem getLengthEncodedInt_four (b1 b2 b3 : Nat) :
    getLengthEncodedInt [0xfd, b1, b2, b3] = .ok (b1 ||| b2 <<< 8 ||| b3 <<< 16, false, 4) := rfl

theorem getLengthEncodedInt_three (b1 b2 : Nat) :
    getLengthEncodedInt [0xfc, b1, b2] = .ok (b1 ||| b2 <<< 8, false, 3) := rfl

theorem getLengthEncodedInt_one (b0 : Nat) (h : b0 ≤ 250) :
    getLengthEncodedInt [b0] = .ok (b0, false, 1) := by
  have h1 : b0 ≠ 0xfb := by omega
  have h2 : b0 ≠ 0xfc := by omega
  have h3 : b0 ≠ 0xfd := by omega
  have h4 : b0 ≠ 0xfe := by omega
  simp [getLengthEncodedInt, index, h1, h2, h3, h4, bind, Except.bind, pure, Except.pure]

theorem leUint16_value (b0 b1 : Nat) (h0 : b0 < 256) :
    b0 ||| b1 <<< 8 = littleEndian [b0, b1] := by
  rw [lor_shl b0 b1 8 (by omega)]
  simp only [littleEndian, List.foldr]
  omega

theorem leUint32_value (b0 b1 b2 b3 : Nat) (h0 : b0 < 256) (h1 : b1 < 256) (h2 : b2 < 256) :
    b0 ||| b1 <<< 8 ||| b2 <<< 16 ||| b3 <<< 24 = littleEndian [b0, b1, b2, b3] := by
  rw [lor_shl b0 b1 8 (by omega), lor_shl _ b2 16 (by omega), lor_shl _ b3 24 (by omega)]
  simp only [littleEndian, List.foldr]
  omega

theorem exists_header_bytes (b : List Nat) (h : 19 ≤ b.length) :
    ∃ b0 b1 b2 b3 b4 b5 b6 b7 b8 b9 b10 b11 b12 b13 b14 b15 b16 b17 b18 rest,
      b = b0 :: b1 :: b2 :: b3 :: b4 :: b5 :: b6 :: b7 :: b8 :: b9 :: b10 :: b11 :: b12 ::
        b13 :: b14 :: b15 :: b16 :: b17 :: b18 :: rest := by
  rcases b with _ | ⟨b0, _ | ⟨b1, _ | ⟨b2, _ | ⟨b3, _ | ⟨b4, _ | ⟨b5, _ | ⟨b6, _ | ⟨b7, _ | ⟨b8, _ | ⟨b9, _ | ⟨b10, _ | ⟨b11, _ | ⟨b12, _ | ⟨b13, _ | ⟨b14, _ | ⟨b15, _ | ⟨b16, _ | ⟨b17, _ | ⟨b18, rest⟩⟩⟩⟩⟩⟩⟩⟩⟩⟩⟩⟩⟩⟩⟩⟩⟩⟩⟩
  all_goals first
    | (simp only [List.length_cons, List.length_nil] at h; omega)
    | exact ⟨_, _, _, _, _, _, _, _, _, _, _, _, _, _, _, _, _, _, _, _, rfl⟩

theorem header_eval (b0 b1 b2 b3 b4 b5 b6 b7 b8 b9 b10 b11 b12 b13 b14 b15 b16 b17 b18 : Nat)
    (rest : List Nat) :
    NewEventHeader (b0 :: b1 :: b2 :: b3 :: b4 :: b5 :: b6 :: b7 :: b8 :: b9 :: b10 :: b11 ::
        b12 :: b13 :: b14 :: b15 :: b16 :: b17 :: b18 :: rest) =
      if b9 ||| b10 <<< 8 ||| b11 <<< 16 ||| b12 <<< 24 < EventHeaderSize then
        .error (.error "error parsing event header: stated event size too short")
      else .ok { Timestamp := b0 ||| b1 <<< 8 ||| b2 <<< 16 ||| b3 <<< 24, EventType := b4,
                 ServerId := b5 ||| b6 <<< 8 ||| b7 <<< 16 ||| b8 <<< 24,
                 EventSize := b9 ||| b10 <<< 8 ||| b11 <<< 16 ||| b12 <<< 24,
                 LogPos := b13 ||| b14 <<< 8 ||| b15 <<< 16 ||| b16 <<< 24,
                 Flags := b17 ||| b18 <<< 8 } := by
  simp only [NewEventHeader, EventHeaderSize, slice, sliceFrom, index, leUint32, leUint16, bind,
    Except.bind, pure, Except.pure, List.length_cons]
  rw [if_neg (by omega)]
  simp

theorem NewEventHeader_short (b : List Nat) (h : b.length < 19) :
    NewEventHeader b = .error (.error "error parsing event header: header size too short") := by
  have h' : b.length < EventHeaderSize := h
  rw [NewEventHeader, if_pos h']
  rfl

/-! ## Bitmaps -/

theorem and_shl_ne_zero (b k : Nat) : (b &&& (1 <<< k) ≠ 0) ↔ b.testBit k = true := by
  rw [Nat.one_shiftLeft]
  constructor
  · intro h
    by_contra hb
    apply h
    apply Nat.eq_of_testBit_eq
    intro j
    simp only [Nat.testBit_and, Nat.testBit_two_pow, Nat.zero_testBit]
    by_cases hj : k = j
    · subst hj; simp [hb]
    · simp [hj]
  · intro hb h
    have := congrArg (fun x => x.testBit k) h
    simp [Nat.testBit_and, Nat.testBit_two_pow, hb] at this

set_option maxRecDepth 100000 in
theorem table_popcount : ∀ v, v < 256 → bitCountInByte.getD v 0 = popCount8 v := by
  decide

theorem and_seven (i : Nat) : i &&& 7 = i % 8 := Nat.and_pow_two_sub_one_eq_mod i 3

theorem getBit_cons_lt (b : Nat) (bs : List Nat) (k : Nat) (hk : k < 8) :
    getBit (b :: bs) k = .ok (b &&& (1 <<< k)) := by
  have h1 : k / 8 = 0 := by omega
  have h2 : k % 8 = k := by omega
  simp [getBit, index, h1, and_seven, h2, bind, Except.bind, pure, Except.pure]

theorem getBit_cons_add (b : Nat) (bs : List Nat) (i : Nat) :
    getBit (b :: bs) (8 + i) = getBit bs i := by
  have h1 : (8 + i) / 8 = i / 8 + 1 := by omega
  have h2 : (8 + i) % 8 = i % 8 := by omega
  simp [getBit, index, h1, and_seven, h2]

theorem bitIsSet_cons_lt (b : Nat) (bs : List Nat) (k : Nat) (hk : k < 8) :
    bitIsSet (b :: bs) k = b.testBit k := by
  simp only [bitIsSet, getBit_cons_lt b bs k hk]
  by_cases h : b.testBit k = true
  · have := (and_shl_ne_zero b k).mpr h
    simp [h, this]
  · have h' : b &&& (1 <<< k) = 0 := by
      by_contra hne
      exact h ((and_shl_ne_zero b k).mp hne)
    simp [h, h']

theorem bitIsSet_cons_add (b : Nat) (bs : List Nat) (i : Nat) :
    bitIsSet (b :: bs) (8 + i) = bitIsSet bs i := by
  simp only [bitIsSet, getBit_cons_add]

theorem setBitIndices_cons (b : Nat) (bs : List Nat) :
    setBitIndices (b :: bs) = popCount8 b + setBitIndices bs := by
  have e : 8 * (b :: bs).length = 8 + 8 * bs.length := by
    simp only [List.length_cons]; omega
  unfold setBitIndices popCount8
  rw [e, List.range_add, List.countP_append, List.countP_map]
  congr 1
  · apply List.countP_congr
    intro k hk
    rw [bitIsSet_cons_lt b bs k (List.mem_range.mp hk)]
  · apply List.countP_congr
    intro i _
    simp only [Function.comp, bitIsSet_cons_add]

theorem setBitIndices_eq_sum (bitmap : List Nat) :
    setBitIndices bitmap = (bitmap.map popCount8).sum := by
  induction bitmap with
  | nil => rfl
  | cons b bs ih => rw [setBitIndices_cons, ih, List.map_cons, List.sum_cons]

theorem bitCount_foldl_mod (bs : List Nat) : ∀ acc : Nat, IsBytes bs →
    (bs.foldl (fun n bit => (n + bitCountInByte.getD bit 0) % 2 ^ 32) acc) % 2 ^ 32
      = (acc + (bs.map popCount8).sum) % 2 ^ 32 := by
  induction bs with
  | nil => intro acc _; simp
  | cons b bs ih =>
    intro acc hb
    have hb0 : b < 256 := hb b (List.mem_cons_self _ _)
    have hbs : IsBytes bs := fun x hx => hb x (List.mem_cons_of_mem _ hx)
    rw [List.foldl_cons, ih _ hbs, table_popcount b hb0, List.map_cons, List.sum_cons]
    omega

theorem bitCount_foldl_lt (bs : List Nat) : ∀ acc : Nat, acc < 2 ^ 32 →
    (bs.foldl (fun n bit => (n + bitCountInByte.getD bit 0) % 2 ^ 32) acc) < 2 ^ 32 := by
  induction bs with
  | nil => intro acc h; simpa using h
  | cons b bs ih =>
    intro acc _
    rw [List.foldl_cons]
    exact ih _ (Nat.mod_lt _ (by norm_num))

theorem bitCount_eq_mod (bitmap : List Nat) (hb : IsBytes bitmap) :
    bitCount bitmap = setBitIndices bitmap % 2 ^ 32 := by
  have h1 := bitCount_foldl_mod bitmap 0 hb
  have h2 := bitCount_foldl_lt bitmap 0 (by norm_num)
  rw [setBitIndices_eq_sum]
  unfold bitCount
  rw [Nat.mod_eq_of_lt h2] at h1
  rw [h1, Nat.zero_add]

theorem popCount8_le (v : Nat) : popCount8 v ≤ 8 := by
  unfold popCount8
  exact le_trans (List.countP_le_length _) (by simp)

theorem setBitIndices_le (bitmap : List Nat) : setBitIndices bitmap ≤ 8 * bitmap.length := by
  unfold setBitIndices
  exact le_trans (List.countP_le_length _) (by simp)

theorem bitCount_replicate (n : Nat) : ∀ acc : Nat, acc < 2 ^ 32 →
    (List.replicate n 255).foldl (fun n bit => (n + bitCountInByte.getD bit 0) % 2 ^ 32) acc
      = (acc + 8 * n) % 2 ^ 32 := by
  induction n with
  | zero => intro acc h; simp only [List.replicate_zero, List.foldl_nil]; omega
  | succ n ih =>
    intro acc _
    have e : bitCountInByte.getD 255 0 = 8 := by decide
    rw [List.replicate_succ, List.foldl_cons, ih _ (Nat.mod_lt _ (by norm_num)), e]
    omega

/-! ## Packet framing -/

theorem write_small (c : Conn) (hdr P : List Nat) (hh : hdr.length = 4)
    (hP : P.length < maxPayloadLength) (hroom : P.length + 4 ≤ c.room) :
    Conn.writePacketLoop c (P.length : Int) (hdr ++ P) =
      ({ c with seq := (c.seq + 1) % 256, sent := c.sent ++ (fragmentHeader P.length c.seq ++ P),
                room := c.room - (P.length + 4) }, none) := by
  rw [Conn.writePacketLoop]
  have h1 : ¬ ((P.length : Int) ≥ (maxPayloadLength : Int)) := by
    unfold maxPayloadLength at *; omega
  rw [if_neg h1]
  have hd : List.drop 4 (hdr ++ P) = P := by
    rw [← hh]; simp
  have e0 : ((P.length : Int) % 256).toNat = P.length % 256 := by omega
  have e1 : ((P.length : Int) / 256 % 256).toNat = P.length / 256 % 256 := by omega
  have e2 : ((P.length : Int) / 65536 % 256).toNat = P.length / 65536 % 256 := by omega
  simp only [setHeader, List.length_append, hh, e0, e1, e2, hd]
  have h4 : ¬ (4 + P.length < 4) := by omega
  simp only [h4, if_false, Conn.write, List.length_cons]
  have h5 : P.length + 1 + 1 + 1 + 1 ≤ c.room := by omega
  simp only [h5, if_true, fragmentHeader]
  simp

theorem write_ok (c : Conn) (b : List Nat) (h : b.length ≤ c.room) :
    c.write b = ({ c with sent := c.sent ++ b, room := c.room - b.length }, b.length, false) := by
  simp [Conn.write, h]

theorem write_step (c : Conn) (hdr P : List Nat) (hh : hdr.length = 4)
    (hP : maxPayloadLength ≤ P.length) (hroom : maxPayloadLength + 4 ≤ c.room) :
    ∃ hdr1 : List Nat, hdr1.length = 4 ∧
    Conn.writePacketLoop c (P.length : Int) (hdr ++ P) =
      Conn.writePacketLoop
        { c with seq := (c.seq + 1) % 256,
                 sent := c.sent ++ (fragmentHeader maxPayloadLength c.seq ++ P.take maxPayloadLength),
                 room := c.room - (maxPayloadLength + 4) }
        ((P.drop maxPayloadLength).length : Int) (hdr1 ++ P.drop maxPayloadLength) := by
  refine ⟨List.drop maxPayloadLength ([255, 255, 255, c.seq] ++ P.take maxPayloadLength), ?_, ?_⟩
  · simp only [List.length_drop, List.length_append, List.length_take, List.length_cons,
      List.length_nil]
    omega
  · rw [Conn.writePacketLoop]
    have h1 : ((P.length : Int) ≥ (maxPayloadLength : Int)) := by
      unfold maxPayloadLength at *; omega
    rw [if_pos h1]
    have hd : List.drop 4 (hdr ++ P) = P := by
      rw [← hh]; simp
    have h4 : ¬ ((hdr ++ P).length < 4) := by
      simp only [List.length_append]; omega
    have hs : setHeader (hdr ++ P) 255 255 255 c.seq = .ok ([255, 255, 255, c.seq] ++ P) := by
      simp only [setHeader, h4, if_false, hd]; rfl
    split
    · rename_i f heq; rw [hs] at heq; cases heq
    rename_i data1 heq
    rw [hs] at heq
    cases heq
    have hlen : 4 + maxPayloadLength ≤ ([255, 255, 255, c.seq] ++ P).length := by
      simp only [List.length_append, List.length_cons, List.length_nil]; omega
    rw [dif_pos hlen]
    have ht : List.take (4 + maxPayloadLength) ([255, 255, 255, c.seq] ++ P)
        = [255, 255, 255, c.seq] ++ P.take maxPayloadLength := by
      rw [List.take_append_eq_append_take, List.take_of_length_le (by simp)]
      simp
    have hdrop : List.drop maxPayloadLength ([255, 255, 255, c.seq] ++ P)
        = List.drop maxPayloadLength ([255, 255, 255, c.seq] ++ P.take maxPayloadLength)
          ++ P.drop maxPayloadLength := by
      conv_lhs => rw [← List.take_append_drop maxPayloadLength P, ← List.append_assoc]
      rw [List.drop_append_of_le_length]
      simp only [List.length_append, List.length_take, List.length_cons, List.length_nil]
      omega
    rw [ht, hdrop]
    have hw : ([255, 255, 255, c.seq] ++ P.take maxPayloadLength).length = 4 + maxPayloadLength := by
      simp only [List.length_append, List.length_take, List.length_cons, List.length_nil]
      omega
    have hroom2 : ([255, 255, 255, c.seq] ++ P.take maxPayloadLength).length ≤ c.room := by
      rw [hw]; omega
    rw [write_ok c _ hroom2, hw]
    simp only [ne_eq, not_true_eq_false, if_false, Bool.false_eq_true]
    have hpl : (P.length : Int) - (maxPayloadLength : Int) = ((P.drop maxPayloadLength).length : Int) := by
      simp only [List.length_drop]; omega
    simp only [hpl]
    have hfh : fragmentHeader maxPayloadLength c.seq = [255, 255, 255, c.seq] := by
      simp [fragmentHeader, maxPayloadLength]
    rw [hfh]
    have hr : c.room - (4 + maxPayloadLength) = c.room - (maxPayloadLength + 4) := by omega
    simp [hr]

theorem write_frags (n : Nat) : ∀ (P : List Nat) (c : Conn) (hdr : List Nat), P.length = n →
    hdr.length = 4 → P.length + 4 * (P.length / maxPayloadLength + 1) ≤ c.room →
    ∃ (full : List (List Nat)) (last : List Nat),
      full.flatten ++ last = P ∧ (∀ f ∈ full, f.length = maxPayloadLength) ∧
      last.length = P.length % maxPayloadLength ∧ full.length = P.length / maxPayloadLength ∧
      Conn.writePacketLoop c (P.length : Int) (hdr ++ P) =
        ({ c with seq := (c.seq + full.length + 1) % 256,
                  sent := c.sent ++ encodeFragments c.seq (full ++ [last]),
                  room := c.room - (P.length + 4 * (full.length + 1)) }, none) := by
  induction n using Nat.strong_induction_on with
  | _ n ih =>
    intro P c hdr hn hh hroom
    by_cases hP : P.length < maxPayloadLength
    · refine ⟨[], P, by simp, by simp, ?_, ?_, ?_⟩
      · rw [Nat.mod_eq_of_lt hP]
      · rw [Nat.div_eq_of_lt hP]; rfl
      · have hr : P.length + 4 ≤ c.room := by
          rw [Nat.div_eq_of_lt hP] at hroom; omega
        rw [write_small c hdr P hh hP hr]
        simp [encodeFragments]
    · have hP2 : maxPayloadLength ≤ P.length := by omega
      have hdiv : P.length / maxPayloadLength
          = (P.length - maxPayloadLength) / maxPayloadLength + 1 := by
        unfold maxPayloadLength at *; omega
      have hmod : P.length % maxPayloadLength
          = (P.length - maxPayloadLength) % maxPayloadLength := by
        unfold maxPayloadLength at *; omega
      have hr1 : maxPayloadLength + 4 ≤ c.room := by
        unfold maxPayloadLength at *; omega
      obtain ⟨hdr1, hh1, hstep⟩ := write_step c hdr P hh hP2 hr1
      have hlt : (P.drop maxPayloadLength).length < n := by
        simp only [List.length_drop]; unfold maxPayloadLength at *; omega
      have hdl : (P.drop maxPayloadLength).length = P.length - maxPayloadLength := by
        simp only [List.length_drop]
      obtain ⟨full, last, hj, hfull, hlast, hfl, hw⟩ :=
        ih _ hlt (P.drop maxPayloadLength)
          { c with seq := (c.seq + 1) % 256,
                   sent := c.sent ++ (fragmentHeader maxPayloadLength c.seq ++ P.take maxPayloadLength),
                   room := c.room - (maxPayloadLength + 4) } hdr1 rfl hh1
          (by simp only [hdl]; unfold maxPayloadLength at *; omega)
      refine ⟨P.take maxPayloadLength :: full, last, ?_, ?_, ?_, ?_, ?_⟩
      · simp only [List.flatten_cons, List.append_assoc, hj, List.take_append_drop]
      · intro f hf
        rcases List.mem_cons.mp hf with h | h
        · rw [h, List.length_take]; omega
        · exact hfull f h
      · rw [hlast, hdl, hmod]
      · rw [List.length_cons, hfl, hdl, hdiv]
      · rw [hstep, hw]
        have htl : (P.take maxPayloadLength).length = maxPayloadLength := by
          rw [List.length_take]; omega
        simp only [List.cons_append, encodeFragments, htl, List.length_cons, hdl,
          List.append_assoc]
        have e1 : ((c.seq + 1) % 256 + full.length + 1) % 256
            = (c.seq + (full.length + 1) + 1) % 256 := by omega
        have e2 : c.room - (maxPayloadLength + 4)
              - (P.length - maxPayloadLength + 4 * (full.length + 1))
            = c.room - (P.length + 4 * (full.length + 1 + 1)) := by omega
        rw [e1, e2]
        rfl

theorem uint24_header (l : Nat) (h : l < 2 ^ 24) :
    getBinaryUint24 [l % 256, l / 256 % 256, l / 65536 % 256] = .ok l := by
  have e : getBinaryUint24 [l % 256, l / 256 % 256, l / 65536 % 256]
      = .ok (l % 256 ||| (l / 256 % 256) <<< 8 ||| (l / 65536 % 256) <<< 16) := rfl
  rw [e, lor_shl _ _ 8 (by omega), lor_shl _ _ 16 (by omega)]
  congr 1
  omega

theorem read_cons (seq h0 h1 h2 h3 : Nat) (rest sent : List Nat) (room : Nat) (w : List Nat) :
    Conn.readPacketTo ⟨seq, h0 :: h1 :: h2 :: h3 :: rest, sent, room⟩ w =
    (let c1 : Conn := ⟨seq, rest, sent, room⟩
     match getBinaryUint24 [h0, h1, h2] with
    | .error f => (c1, w, some f)
    | .ok payloadLength =>
      if payloadLength < 1 then
        (c1, w, some (.error ("invalid payload length " ++ toString payloadLength)))
      else
        let sequence := h3
        if sequence ≠ c1.seq then
          (c1, w, some (.error
            ("invalid sequence " ++ toString sequence ++ " != " ++ toString c1.seq)))
        else
          let c2 := { c1 with seq := (c1.seq + 1) % 256 }
          if rest.length < payloadLength then
            ({ c2 with br := [] }, w ++ rest, some (.error "EOF"))
          else
            let c3 := { c2 with br := rest.drop payloadLength }
            let w3 := w ++ rest.take payloadLength
            if payloadLength < maxPayloadLength then
              (c3, w3, none)
            else
              Conn.readPacketTo c3 w3) := by
  rw [Conn.readPacketTo]

theorem read_fragment (seq : Nat) (f tail sent : List Nat) (room : Nat) (w : List Nat)
    (h0 : 0 < f.length) (hmax : f.length ≤ maxPayloadLength) :
    Conn.readPacketTo ⟨seq, fragmentHeader f.length seq ++ f ++ tail, sent, room⟩ w =
      if f.length < maxPayloadLength then (⟨(seq + 1) % 256, tail, sent, room⟩, w ++ f, none)
      else Conn.readPacketTo ⟨(seq + 1) % 256, tail, sent, room⟩ (w ++ f) := by
  have hl : f.length < 2 ^ 24 := by unfold maxPayloadLength at hmax; omega
  simp only [fragmentHeader, List.cons_append, List.nil_append, read_cons, uint24_header _ hl]
  have h1 : ¬ f.length < 1 := by omega
  have h2 : ¬ ((f ++ tail).length < f.length) := by simp
  simp only [h1, if_false, ne_eq, not_true_eq_false, h2, List.drop_left, List.take_left]

theorem encodeFragments_append (full : List (List Nat)) : ∀ (seq : Nat) (more : List (List Nat)),
    seq < 256 →
    encodeFragments seq (full ++ more)
      = encodeFragments seq full ++ encodeFragments ((seq + full.length) % 256) more := by
  induction full with
  | nil => intro seq more h; simp [encodeFragments, Nat.mod_eq_of_lt h]
  | cons f fs ih =>
    intro seq more h
    have e : ((seq + 1) % 256 + fs.length) % 256 = (seq + (fs.length + 1)) % 256 := by omega
    rw [List.cons_append, encodeFragments, ih ((seq + 1) % 256) more (Nat.mod_lt _ (by omega))]
    simp only [encodeFragments, List.length_cons, List.append_assoc, e]

theorem read_full_fragments (full : List (List Nat)) :
    ∀ (seq : Nat) (tail sent : List Nat) (room : Nat) (w : List Nat), seq < 256 →
    (∀ f ∈ full, f.length = maxPayloadLength) →
    Conn.readPacketTo ⟨seq, encodeFragments seq full ++ tail, sent, room⟩ w =
      Conn.readPacketTo ⟨(seq + full.length) % 256, tail, sent, room⟩ (w ++ full.flatten) := by
  induction full with
  | nil => intro seq tail sent room w h _; simp [encodeFragments, Nat.mod_eq_of_lt h]
  | cons f fs ih =>
    intro seq tail sent room w h hall
    have hf : f.length = maxPayloadLength := hall f (List.mem_cons_self _ _)
    have e : ((seq + 1) % 256 + fs.length) % 256 = (seq + (fs.length + 1)) % 256 := by omega
    have h0 : 0 < f.length := by rw [hf]; unfold maxPayloadLength; omega
    have hn : ¬ f.length < maxPayloadLength := by omega
    simp only [encodeFragments, List.append_assoc]
    rw [← List.append_assoc, read_fragment seq f _ sent room w h0 (by omega), if_neg hn,
      ih ((seq + 1) % 256) tail sent room (w ++ f) (Nat.mod_lt _ (by omega))
        (fun g hg => hall g (List.mem_cons_of_mem _ hg))]
    simp only [List.length_cons, List.flatten_cons, List.append_assoc, e]

/-! ## Event decoder -/

theorem rowsPostHeader_tableID (eventType : Nat) (b : List Nat) (ph : RowsPostHeader)
    (h : rowsPostHeader eventType b = .ok ph) :
    ph.TableID = getLittleEndianFixedLengthInt (b.take 6) := by
  unfold rowsPostHeader at h
  simp only [bind, Except.bind, pure, Except.pure] at h
  split at h
  · cases h
  rename_i s hs
  have hs' : s = b.take 6 := by
    unfold sliceInt at hs
    split at hs
    · cases hs; simp
    · cases hs
  subst hs'
  repeat (split at h; · cases h)
  split at h
  · split at h
    · cases h
    · cases h; rfl
  · cases h; rfl

theorem Parse_ok_inv (p p' : BinlogParser) (b : List Nat) (c : EventContainer)
    (h : p.Parse b = (p', .ok c)) :
    NewEventHeader b = .ok c.Header ∧ c.Bytes = b ∧
    (b.length : Int) - 19 = (c.Header.EventSize : Int) - 19 ∧
    p.parseEvent c.Header (b.drop 19) = (p', .ok c.Event) := by
  unfold BinlogParser.Parse at h
  split at h
  · cases h
  rename_i hd hhd
  have hhd' : NewEventHeader b = .ok hd := by
    unfold parseHeader at hhd
    split at hhd
    · cases hhd
    · rename_i h0 hh0; cases hhd; exact hh0
  split at h
  · cases h
  rename_i body hbody
  have hb : body = b.drop 19 ∧ 19 ≤ b.length := by
    unfold sliceFrom EventHeaderSize at hbody
    split at hbody
    · cases hbody; exact ⟨rfl, by assumption⟩
    · cases hbody
  obtain ⟨rfl, hlen⟩ := hb
  simp only at h
  split at h
  · cases h
  rename_i hsz
  split at h
  · cases h
  rename_i p1 e hpe
  cases h
  refine ⟨hhd', rfl, ?_, hpe⟩
  show (b.length : Int) - 19 = (hd.EventSize : Int) - 19
  simp only [List.length_drop, EventHeaderSize, ne_eq, not_not] at hsz
  omega

theorem parseEvent_rotate (p p' : BinlogParser) (h : EventHeader) (data : List Nat) (e : Event)
    (ht : h.EventType = ROTATE_EVENT) (hp : p.parseEvent h data = (p', .ok e)) :
    p'.tables = [] ∧ p'.format = p.format := by
  unfold BinlogParser.parseEvent at hp
  have h1 : ¬ (h.EventType = FORMAT_DESCRIPTION_EVENT) := by rw [ht]; decide
  rw [if_neg h1, if_pos ht] at hp
  split at hp
  · cases hp; exact ⟨rfl, rfl⟩
  · cases hp

theorem readPacket_of_readPacketTo_ok (c c1 : Conn) (w : List Nat)
    (h : c.readPacketTo [] = (c1, w, none)) : c.readPacket = (c1, .ok w) := by
  unfold Conn.readPacket; rw [h]

theorem writePacket_eq_loop (c : Conn) (hdr P : List Nat) (hh : hdr.length = 4) :
    c.writePacket (hdr ++ P) = c.writePacketLoop (P.length : Int) (hdr ++ P) := by
  unfold Conn.writePacket
  have : (((hdr ++ P).length : Nat) : Int) - 4 = (P.length : Int) := by
    rw [List.length_append, hh]; omega
  rw [this]

theorem readPacket_of_readPacketTo_err (c c1 : Conn) (w : List Nat) (f : Fault)
    (h : c.readPacketTo [] = (c1, w, some f)) : c.readPacket = (c1, .error f) := by
  unfold Conn.readPacket; rw [h]

theorem Parse_rows_empty_registry (p : BinlogParser) (b : List Nat) (h : EventHeader)
    (ph : RowsPostHeader) (ht : p.tables = [])
    (hh : NewEventHeader b = .ok h)
    (hty : h.EventType = WRITE_ROWS_EVENT_V1 ∨ h.EventType = DELETE_ROWS_EVENT_V1 ∨
      h.EventType = UPDATE_ROWS_EVENT_V1)
    (hsz : b.length = h.EventSize)
    (hph : rowsPostHeader h.EventType (b.drop 19) = .ok ph) :
    p.Parse b = (p, .error (.eventError
      { Header := h, Err := "invalid table id", Data := b.drop 19 })) := by
  have hlen : 19 ≤ b.length := by
    by_contra hlt
    rw [NewEventHeader_short b (by omega)] at hh
    cases hh
  have hrows : NewRowsEvent p.tables h.EventType (b.drop 19)
      = .error (.error "invalid table id") := by
    simp only [NewRowsEvent, hph, bind, Except.bind, ht, List.lookup]
    rfl
  have h1 : ¬ (h.EventType = FORMAT_DESCRIPTION_EVENT) := by
    rcases hty with e | e | e <;> rw [e] <;> decide
  have h2 : ¬ (h.EventType = ROTATE_EVENT) := by
    rcases hty with e | e | e <;> rw [e] <;> decide
  have h3 : ¬ (h.EventType = TABLE_MAP_EVENT) := by
    rcases hty with e | e | e <;> rw [e] <;> decide
  have hpe : p.parseEvent h (b.drop 19) = (p, .error (.eventError
      { Header := h, Err := "invalid table id", Data := b.drop 19 })) := by
    unfold BinlogParser.parseEvent
    rw [if_neg h1, if_neg h2, if_neg h3, if_pos hty, hrows]
    rfl
  have hsl : sliceFrom b EventHeaderSize = .ok (b.drop 19) := by
    unfold sliceFrom EventHeaderSize
    rw [if_pos hlen]
  unfold BinlogParser.Parse parseHeader
  rw [hh]
  simp only [hsl]
  have hne : ¬ (((b.drop 19).length : Int) ≠ (h.EventSize : Int) - (EventHeaderSize : Int)) := by
    simp only [List.length_drop, EventHeaderSize, ne_eq, not_not]
    omega
  rw [if_neg hne, hpe]

/-- The table map `geometryTable` is what `NewTableMapEvent` returns for a table map
event on the wire that declares a `GEOMETRY` and a `TINY` column. -/
theorem geometryTable_from_wire :
    NewTableMapEvent
        (some { BinlogVersion := 4, ServerVersion := [], CreationTimestamp := 0,
                EventHeaderLength := 19, EventTypeHeaderLengths := List.replicate 27 8 })
        [1, 0, 0, 0, 0, 0, 0, 0, 1, 100, 0, 1, 116, 0, 2, 255, 1, 1, 0, 3] =
      .ok geometryTable := by
  decide

/-! ## Slices, format descriptions and the table registry -/

theorem slice_ok (b : List Nat) (lo hi : Nat) (h : lo ≤ hi ∧ hi ≤ b.length) :
    slice b lo hi = .ok ((b.take hi).drop lo) := by
  unfold slice; rw [if_pos h]

theorem sliceFrom_ok (b : List Nat) (lo : Nat) (h : lo ≤ b.length) :
    sliceFrom b lo = .ok (b.drop lo) := by
  unfold sliceFrom; rw [if_pos h]

theorem index_ok (b : List Nat) (i : Nat) (h : i < b.length) : index b i = .ok b[i] := by
  unfold index; rw [List.getElem?_eq_getElem h]

theorem leUint16_ok (b : List Nat) (h : 2 ≤ b.length) :
    ∃ v, leUint16 b = .ok v ∧ (IsBytes b → v = littleEndian (b.take 2)) := by
  rcases b with _ | ⟨b0, _ | ⟨b1, rest⟩⟩
  · simp at h
  · simp at h
  · exact ⟨b0 ||| b1 <<< 8, by simp [leUint16, index, bind, Except.bind, pure, Except.pure], fun hb => leUint16_value b0 b1 (hb b0 (by simp))⟩

theorem leUint32_ok (b : List Nat) (h : 4 ≤ b.length) :
    ∃ v, leUint32 b = .ok v ∧ (IsBytes b → v = littleEndian (b.take 4)) := by
  rcases b with _ | ⟨b0, _ | ⟨b1, _ | ⟨b2, _ | ⟨b3, rest⟩⟩⟩⟩
  · simp at h
  · simp at h
  · simp at h
  · simp at h
  · exact ⟨b0 ||| b1 <<< 8 ||| b2 <<< 16 ||| b3 <<< 24,
      by simp [leUint32, index, bind, Except.bind, pure, Except.pure],
      fun hb => leUint32_value b0 b1 b2 b3 (hb b0 (by simp)) (hb b1 (by simp)) (hb b2 (by simp))⟩

theorem NewFormatDescriptionEvent_eval (b : List Nat) (h : 57 ≤ b.length) :
    ∃ v t, (IsBytes b → v = littleEndian (b.take 2)) ∧
      NewFormatDescriptionEvent b =
        if b[56]? = some 19 then
          .ok { BinlogVersion := v, ServerVersion := (b.take 52).drop 2,
                CreationTimestamp := t, EventHeaderLength := 19,
                EventTypeHeaderLengths := b.drop 57 }
        else .error (.error "invalid event header length") := by
  obtain ⟨v, hv, hv2⟩ := leUint16_ok ((b.take 2).drop 0) (by simp; omega)
  obtain ⟨t, ht, _⟩ := leUint32_ok ((b.take 56).drop 52) (by simp; omega)
  refine ⟨v, t, ?_, ?_⟩
  · intro hb
    have := hv2 (fun x hx => hb x (List.mem_of_mem_take (List.mem_of_mem_drop hx)))
    simpa [List.take_take] using this
  have h56 : b[56]? = some b[56] := List.getElem?_eq_getElem (by omega)
  unfold NewFormatDescriptionEvent
  simp only [Nat.zero_add, bind, Except.bind, pure, Except.pure,
    slice_ok b 0 2 (by omega), slice_ok b 2 (2 + 50) (by omega),
    slice_ok b (2 + 50) (2 + 50 + 4) (by omega), index_ok b (2 + 50 + 4) (by omega),
    sliceFrom_ok b (2 + 50 + 4 + 1) (by omega), hv, ht, EventHeaderSize, h56]
  by_cases he : b[56] = 19
  · simp [he]
  · simp [he]

theorem Parse_size_mismatch (p : BinlogParser) (b : List Nat) (h : EventHeader)
    (hh : NewEventHeader b = .ok h) (hne : b.length ≠ h.EventSize) :
    p.Parse b = (p, .error (.error "invalid event size")) := by
  have hlen : 19 ≤ b.length := by
    by_contra hlt
    rw [NewEventHeader_short b (by omega)] at hh
    cases hh
  have hsl : sliceFrom b EventHeaderSize = .ok (b.drop 19) := by
    unfold sliceFrom EventHeaderSize
    rw [if_pos hlen]
  unfold BinlogParser.Parse parseHeader
  rw [hh]
  simp only [hsl]
  have hne' : ((b.drop 19).length : Int) ≠ (h.EventSize : Int) - (EventHeaderSize : Int) := by
    simp only [List.length_drop, EventHeaderSize, ne_eq]
    omega
  rw [if_pos hne']

theorem parseEvent_frame (p : BinlogParser) (h : EventHeader) (data : List Nat)
    (ht : h.EventType ∈ frameEventTypes) : (p.parseEvent h data).1 = p := by
  have h15 : ¬ (h.EventType = FORMAT_DESCRIPTION_EVENT) := by
    intro e; rw [e] at ht; revert ht; decide
  have h4 : ¬ (h.EventType = ROTATE_EVENT) := by
    intro e; rw [e] at ht; revert ht; decide
  have h19 : ¬ (h.EventType = TABLE_MAP_EVENT) := by
    intro e; rw [e] at ht; revert ht; decide
  unfold BinlogParser.parseEvent
  rw [if_neg h15, if_neg h4, if_neg h19]
  repeat (first | rfl | split)

theorem lookup_filter_ne (tables : Tables) (id k : Nat) (hk : k ≠ id) :
    List.lookup k (tables.filter (fun kv => kv.1 ≠ id)) = List.lookup k tables := by
  induction tables with
  | nil => rfl
  | cons kv rest ih =>
    obtain ⟨k1, v1⟩ := kv
    by_cases h1 : k1 = id
    · have hk1 : (k == k1) = false := by
        rw [h1]; exact beq_false_of_ne hk
      have hf : ¬ (decide ((k1, v1).1 ≠ id) = true) := by simp [h1]
      rw [List.filter_cons, if_neg hf, List.lookup_cons, hk1]
      exact ih
    · have hf : decide ((k1, v1).1 ≠ id) = true := by simp [h1]
      rw [List.filter_cons, if_pos hf, List.lookup_cons, List.lookup_cons, ih]

theorem Tables_set_lookup (tables : Tables) (id : Nat) (e : TableMapEvent) :
    List.lookup id (tables.set id e) = some e ∧
    ∀ k, k ≠ id → List.lookup k (tables.set id e) = List.lookup k tables := by
  constructor
  · simp [Tables.set, List.lookup_cons]
  · intro k hk
    have hk1 : (k == id) = false := beq_false_of_ne hk
    simp only [Tables.set, List.lookup_cons, hk1]
    exact lookup_filter_ne tables id k hk

theorem leFixedLoop_value (bs : List Nat) : ∀ (i num : Nat), IsBytes bs → i + bs.length ≤ 8 →
    num < 2 ^ (i * 8) → leFixedLoop bs i num = num + littleEndian bs * 2 ^ (i * 8) := by
  induction bs with
  | nil => intro i num _ _ _; simp [leFixedLoop, littleEndian]
  | cons b rest ih =>
    intro i num hb hlen hnum
    have hb0 : b < 256 := hb b (List.mem_cons_self _ _)
    have hrest : IsBytes rest := fun x hx => hb x (List.mem_cons_of_mem _ hx)
    have hi : i < 8 := by simp only [List.length_cons] at hlen; omega
    have hpow : 2 ^ (i * 8) * 256 = 2 ^ ((i + 1) * 8) := by
      rw [show (i + 1) * 8 = i * 8 + 8 by ring, Nat.pow_add]
    have hle : 2 ^ ((i + 1) * 8) ≤ 2 ^ 64 :=
      Nat.pow_le_pow_right (by norm_num) (by omega)
    have hsh : b <<< (i * 8) = b * 2 ^ (i * 8) := Nat.shiftLeft_eq _ _
    have hp : 0 < 2 ^ (i * 8) := Nat.two_pow_pos _
    have hlt : b * 2 ^ (i * 8) < 2 ^ ((i + 1) * 8) := by
      calc b * 2 ^ (i * 8) < 256 * 2 ^ (i * 8) := Nat.mul_lt_mul_of_pos_right hb0 hp
        _ = 2 ^ ((i + 1) * 8) := by rw [Nat.mul_comm, hpow]
    have hmod : (b <<< (i * 8)) % 2 ^ 64 = b * 2 ^ (i * 8) := by
      rw [hsh]; exact Nat.mod_eq_of_lt (lt_of_lt_of_le hlt hle)
    have hor : num ||| b * 2 ^ (i * 8) = num + b * 2 ^ (i * 8) := by
      have := lor_shl num b (i * 8) hnum
      rw [hsh] at this
      exact this
    have hnum' : num + b * 2 ^ (i * 8) < 2 ^ ((i + 1) * 8) := by
      rw [← hpow]
      have : b * 2 ^ (i * 8) ≤ 255 * 2 ^ (i * 8) := Nat.mul_le_mul_right _ (by omega)
      omega
    rw [leFixedLoop, hmod, hor, ih (i + 1) _ hrest (by simp only [List.length_cons] at hlen; omega)
      hnum']
    simp only [littleEndian, List.foldr_cons]
    rw [← hpow]
    ring

theorem getLittleEndianFixedLengthInt_value (bs : List Nat) (hb : IsBytes bs)
    (hlen : bs.length ≤ 8) : getLittleEndianFixedLengthInt bs = littleEndian bs := by
  unfold getLittleEndianFixedLengthInt
  rw [leFixedLoop_value bs 0 0 hb (by omega) (by norm_num)]
  simp

theorem NewTableMapEvent_tableID (format : Option FormatDescriptionEvent) (b : List Nat)
    (e : TableMapEvent) (h : NewTableMapEvent format b = .ok e) :
    ∃ fmt hl, format = some fmt ∧ fmt.EventTypeHeaderLengths[18]? = some hl ∧
      (if hl = 6 then 4 else 6) ≤ b.length ∧
      e.TableID = getLittleEndianFixedLengthInt (b.take (if hl = 6 then 4 else 6)) := by
  unfold NewTableMapEvent at h
  cases format with
  | none => simp only [bind, Except.bind, throw, throwThe, MonadExceptOf.throw] at h; cases h
  | some fmt =>
    simp only [bind, Except.bind, pure, Except.pure] at h
    split at h
    · cases h
    rename_i hl hhl
    have hidx : fmt.EventTypeHeaderLengths[18]? = some hl := by
      unfold index TABLE_MAP_EVENT at hhl
      split at hhl
      · rename_i x hx; cases hhl; exact hx
      · cases hhl
    refine ⟨fmt, hl, rfl, hidx, ?_⟩
    split at h
    · cases h
    rename_i s hs
    have hs' : (if hl = 6 then 4 else 6) ≤ b.length ∧ s = b.take (if hl = 6 then 4 else 6) := by
      unfold sliceInt at hs
      by_cases h6 : hl = 6
      · simp only [h6, if_true] at hs ⊢
        split at hs
        · rename_i hc
          cases hs
          exact ⟨by omega, by simp⟩
        · cases hs
      · simp only [h6, if_false] at hs ⊢
        split at hs
        · rename_i hc
          cases hs
          exact ⟨by omega, by simp⟩
        · cases hs
    obtain ⟨hlen, rfl⟩ := hs'
    refine ⟨hlen, ?_⟩
    repeat (split at h; · cases h)
    cases h
    rfl

/-! ## Fixed-width integers -/

theorem index_cons_zero (x : Nat) (l : List Nat) : index (x :: l) 0 = .ok x := by
  simp [index]

theorem index_cons_succ (x : Nat) (l : List Nat) (i : Nat) : index (x :: l) (i + 1) = index l i := by
  simp [index]

theorem leUint64_eval (b0 b1 b2 b3 b4 b5 b6 b7 : Nat) (rest : List Nat) :
    leUint64 (b0 :: b1 :: b2 :: b3 :: b4 :: b5 :: b6 :: b7 :: rest) =
      .ok (b0 ||| b1 <<< 8 ||| b2 <<< 16 ||| b3 <<< 24 ||| b4 <<< 32 ||| b5 <<< 40 |||
        b6 <<< 48 ||| b7 <<< 56) := by
  have h0 : index (b0 :: b1 :: b2 :: b3 :: b4 :: b5 :: b6 :: b7 :: rest) 0 = .ok b0 := by
    simp [index]
  have h1 : index (b0 :: b1 :: b2 :: b3 :: b4 :: b5 :: b6 :: b7 :: rest) 1 = .ok b1 := by
    simp [index]
  have h2 : index (b0 :: b1 :: b2 :: b3 :: b4 :: b5 :: b6 :: b7 :: rest) 2 = .ok b2 := by
    simp [index]
  have h3 : index (b0 :: b1 :: b2 :: b3 :: b4 :: b5 :: b6 :: b7 :: rest) 3 = .ok b3 := by
    simp [index]
  have h4 : index (b0 :: b1 :: b2 :: b3 :: b4 :: b5 :: b6 :: b7 :: rest) 4 = .ok b4 := by
    simp [index]
  have h5 : index (b0 :: b1 :: b2 :: b3 :: b4 :: b5 :: b6 :: b7 :: rest) 5 = .ok b5 := by
    simp [index]
  have h6 : index (b0 :: b1 :: b2 :: b3 :: b4 :: b5 :: b6 :: b7 :: rest) 6 = .ok b6 := by
    simp [index]
  have h7 : index (b0 :: b1 :: b2 :: b3 :: b4 :: b5 :: b6 :: b7 :: rest) 7 = .ok b7 := by
    simp [index]
  unfold leUint64
  rw [h0, h1, h2, h3, h4, h5, h6, h7]
  rfl

theorem leUint64_value (b0 b1 b2 b3 b4 b5 b6 b7 : Nat) (h0 : b0 < 256) (h1 : b1 < 256)
    (h2 : b2 < 256) (h3 : b3 < 256) (h4 : b4 < 256) (h5 : b5 < 256) (h6 : b6 < 256) :
    b0 ||| b1 <<< 8 ||| b2 <<< 16 ||| b3 <<< 24 ||| b4 <<< 32 ||| b5 <<< 40 ||| b6 <<< 48 |||
      b7 <<< 56 = littleEndian [b0, b1, b2, b3, b4, b5, b6, b7] := by
  rw [lor_shl_eight b0 b1 b2 b3 b4 b5 b6 b7 h0 h1 h2 h3 h4 h5 h6]
  simp only [littleEndian, List.foldr]
  ring

theorem leUint64_ok (b : List Nat) (h : 8 ≤ b.length) :
    ∃ v, leUint64 b = .ok v ∧ (IsBytes b → v = littleEndian (b.take 8)) := by
  rcases b with _ | ⟨b0, _ | ⟨b1, _ | ⟨b2, _ | ⟨b3, _ | ⟨b4, _ | ⟨b5, _ | ⟨b6, _ | ⟨b7, rest⟩⟩⟩⟩⟩⟩⟩⟩
  all_goals first | (simp only [List.length_cons, List.length_nil] at h; omega) | skip
  exact ⟨_, leUint64_eval b0 b1 b2 b3 b4 b5 b6 b7 rest, fun hb =>
    leUint64_value b0 b1 b2 b3 b4 b5 b6 b7 (hb b0 (by simp)) (hb b1 (by simp))
      (hb b2 (by simp)) (hb b3 (by simp)) (hb b4 (by simp)) (hb b5 (by simp)) (hb b6 (by simp))⟩

theorem IsBytes_take (b : List Nat) (n : Nat) (hb : IsBytes b) : IsBytes (b.take n) :=
  fun x hx => hb x (List.mem_of_mem_take hx)

theorem IsBytes_drop (b : List Nat) (n : Nat) (hb : IsBytes b) : IsBytes (b.drop n) :=
  fun x hx => hb x (List.mem_of_mem_drop hx)

theorem bigEndian_foldl (bs : List Nat) : ∀ acc : Nat,
    bs.foldl (fun acc x => acc * 256 + x) acc = acc * 256 ^ bs.length + bigEndian bs := by
  induction bs with
  | nil => intro acc; simp [bigEndian]
  | cons b rest ih =>
    intro acc
    simp only [bigEndian, List.foldl_cons, List.length_cons]
    rw [ih (acc * 256 + b), ih (0 * 256 + b)]
    ring

theorem bigEndian_cons (b : Nat) (rest : List Nat) :
    bigEndian (b :: rest) = b * 256 ^ rest.length + bigEndian rest := by
  have := bigEndian_foldl rest (0 * 256 + b)
  simp only [bigEndian, List.foldl_cons] at this ⊢
  rw [this]; ring

theorem bigEndian_lt (bs : List Nat) (hb : IsBytes bs) : bigEndian bs < 256 ^ bs.length := by
  induction bs with
  | nil => simp [bigEndian]
  | cons b rest ih =>
    have hb0 : b < 256 := hb b (List.mem_cons_self _ _)
    have hrest : IsBytes rest := fun x hx => hb x (List.mem_cons_of_mem _ hx)
    have := ih hrest
    rw [bigEndian_cons, List.length_cons, pow_succ]
    have hp : 0 < 256 ^ rest.length := Nat.pow_pos (by norm_num)
    nlinarith

theorem beFixedLoop_value (bs : List Nat) : ∀ (len i num q : Nat), IsBytes bs →
    len = i + bs.length → len ≤ 8 → num = q * 256 ^ bs.length →
    beFixedLoop len bs i num = num + bigEndian bs := by
  induction bs with
  | nil => intro len i num q _ _ _ _; simp [beFixedLoop, bigEndian]
  | cons b rest ih =>
    intro len i num q hb hlen hle hnum
    have hb0 : b < 256 := hb b (List.mem_cons_self _ _)
    have hrest : IsBytes rest := fun x hx => hb x (List.mem_cons_of_mem _ hx)
    simp only [List.length_cons] at hlen hnum
    have hk : (len - i - 1) * 8 = 8 * rest.length := by omega
    have h256 : (256 : Nat) ^ rest.length = 2 ^ (8 * rest.length) := by
      rw [show (256 : Nat) = 2 ^ 8 by norm_num, ← pow_mul]
    have hp : 0 < 2 ^ (8 * rest.length) := Nat.two_pow_pos _
    have hlt : b * 2 ^ (8 * rest.length) < 2 ^ (8 * rest.length + 8) := by
      rw [pow_add]
      calc b * 2 ^ (8 * rest.length) < 256 * 2 ^ (8 * rest.length) :=
            Nat.mul_lt_mul_of_pos_right hb0 hp
        _ = 2 ^ (8 * rest.length) * 2 ^ 8 := by ring
    have hle64 : 2 ^ (8 * rest.length + 8) ≤ 2 ^ 64 :=
      Nat.pow_le_pow_right (by norm_num) (by omega)
    have hmod : (b <<< ((len - i - 1) * 8)) % 2 ^ 64 = b * 2 ^ (8 * rest.length) := by
      rw [hk, Nat.shiftLeft_eq]
      exact Nat.mod_eq_of_lt (lt_of_lt_of_le hlt hle64)
    have hnum2 : num = q <<< (8 * rest.length + 8) := by
      rw [Nat.shiftLeft_eq, hnum, pow_succ, h256, pow_add]; ring
    have hor : num ||| b * 2 ^ (8 * rest.length) = b * 2 ^ (8 * rest.length) + num := by
      rw [Nat.lor_comm, hnum2, lor_shl _ q _ hlt, Nat.shiftLeft_eq]
    rw [beFixedLoop, hmod, hor,
      ih len (i + 1) _ (q * 256 + b) hrest (by omega) hle (by rw [hnum, pow_succ, h256]; ring),
      bigEndian_cons, h256]
    ring

theorem getBigEndianFixedLengthInt_value (bs : List Nat) (hb : IsBytes bs)
    (hlen : bs.length ≤ 8) : getBigEndianFixedLengthInt bs = bigEndian bs := by
  unfold getBigEndianFixedLengthInt
  rw [beFixedLoop_value bs bs.length 0 0 0 hb (by omega) hlen (by simp)]
  simp

theorem beUint16_ok (b : List Nat) (h : 2 ≤ b.length) :
    ∃ v, beUint16 b = .ok v ∧ (IsBytes b → v = bigEndian (b.take 2)) := by
  rcases b with _ | ⟨b0, _ | ⟨b1, rest⟩⟩
  · simp at h
  · simp at h
  · refine ⟨b1 ||| b0 <<< 8, ?_, fun hb => ?_⟩
    · unfold beUint16
      simp only [index_cons_succ, index_cons_zero]
      rfl
    · rw [lor_shl b1 b0 8 (hb b1 (by simp))]
      simp only [bigEndian, List.take, List.foldl]
      omega

theorem beUint32_ok (b : List Nat) (h : 4 ≤ b.length) :
    ∃ v, beUint32 b = .ok v ∧ (IsBytes b → v = bigEndian (b.take 4)) := by
  rcases b with _ | ⟨b0, _ | ⟨b1, _ | ⟨b2, _ | ⟨b3, rest⟩⟩⟩⟩
  · simp at h
  · simp at h
  · simp at h
  · simp at h
  · refine ⟨b3 ||| b2 <<< 8 ||| b1 <<< 16 ||| b0 <<< 24, ?_, fun hb => ?_⟩
    · unfold beUint32
      simp only [index_cons_succ, index_cons_zero]
      rfl
    · rw [lor_shl b3 b2 8 (hb b3 (by simp)),
        lor_shl _ b1 16 (by have := hb b3 (by simp); have := hb b2 (by simp); omega),
        lor_shl _ b0 24 (by
          have := hb b3 (by simp); have := hb b2 (by simp); have := hb b1 (by simp); omega)]
      simp only [bigEndian, List.take, List.foldl]
      omega

theorem beUint64_ok (b : List Nat) (h : 8 ≤ b.length) :
    ∃ v, beUint64 b = .ok v ∧ (IsBytes b → v = bigEndian (b.take 8)) := by
  rcases b with _ | ⟨b0, _ | ⟨b1, _ | ⟨b2, _ | ⟨b3, _ | ⟨b4, _ | ⟨b5, _ | ⟨b6, _ | ⟨b7, rest⟩⟩⟩⟩⟩⟩⟩⟩
  all_goals first | (simp only [List.length_cons, List.length_nil] at h; omega) | skip
  refine ⟨b7 ||| b6 <<< 8 ||| b5 <<< 16 ||| b4 <<< 24 ||| b3 <<< 32 ||| b2 <<< 40 |||
    b1 <<< 48 ||| b0 <<< 56, ?_, fun hb => ?_⟩
  · unfold beUint64
    simp only [index_cons_succ, index_cons_zero]
    rfl
  · rw [lor_shl_eight b7 b6 b5 b4 b3 b2 b1 b0 (hb b7 (by simp)) (hb b6 (by simp))
      (hb b5 (by simp)) (hb b4 (by simp)) (hb b3 (by simp)) (hb b2 (by simp)) (hb b1 (by simp))]
    simp only [bigEndian, List.take, List.foldl]
    ring

/-! ## Column values -/

theorem littleEndian_lt (bs : List Nat) (hb : IsBytes bs) : littleEndian bs < 256 ^ bs.length := by
  induction bs with
  | nil => simp [littleEndian]
  | cons b rest ih =>
    have hb0 : b < 256 := hb b (List.mem_cons_self _ _)
    have hrest : IsBytes rest := fun x hx => hb x (List.mem_cons_of_mem _ hx)
    have := ih hrest
    simp only [littleEndian, List.foldr_cons, List.length_cons, pow_succ] at this ⊢
    omega

theorem toSigned_eq (w u : Nat) (hu : u < 2 ^ w) : toSigned w u = twosComplement w u := by
  unfold toSigned twosComplement
  rw [Nat.mod_eq_of_lt hu]

theorem toSigned_small (u : Nat) (hu : u < 2 ^ 63) : toSigned 64 u = (u : Int) := by
  unfold toSigned
  rw [Nat.mod_eq_of_lt (by omega), if_pos (by simpa using hu)]

theorem int24_sign_extend (u : Nat) (hu : u < 2 ^ 24) :
    toSigned 32 (if u &&& 0x00800000 ≠ 0 then u ||| 0xFF000000 else u) = twosComplement 24 u := by
  have hand : (u &&& 0x00800000 ≠ 0) ↔ 2 ^ 23 ≤ u := by
    rw [show (0x00800000 : Nat) = 1 <<< 23 by rfl, and_shl_ne_zero, Nat.testBit_to_div_mod,
      decide_eq_true_eq]
    omega
  have hor : u ||| 0xFF000000 = u + 255 * 2 ^ 24 := by
    rw [show (0xFF000000 : Nat) = 255 <<< 24 by rfl]
    exact lor_shl u 255 24 hu
  by_cases h : 2 ^ 23 ≤ u
  · rw [if_pos (hand.2 h), hor]
    unfold toSigned twosComplement
    rw [Nat.mod_eq_of_lt (by omega), if_neg (by omega), if_neg (by omega)]
    push_cast
    omega
  · rw [if_neg (fun hc => h (hand.1 hc))]
    unfold toSigned twosComplement
    rw [Nat.mod_eq_of_lt (by omega), if_pos (by omega), if_pos (by omega)]

theorem getBinaryUint24_ok (b : List Nat) (h : 3 ≤ b.length) :
    ∃ v, getBinaryUint24 b = .ok v ∧ (IsBytes b → v = littleEndian (b.take 3)) := by
  rcases b with _ | ⟨b0, _ | ⟨b1, _ | ⟨b2, rest⟩⟩⟩
  · simp at h
  · simp at h
  · simp at h
  · refine ⟨b0 ||| b1 <<< 8 ||| b2 <<< 16, ?_, fun hb => ?_⟩
    · unfold getBinaryUint24
      simp only [index_cons_succ, index_cons_zero]
      rfl
    · rw [lor_shl b0 b1 8 (hb b0 (by simp)),
        lor_shl _ b2 16 (by have := hb b0 (by simp); have := hb b1 (by simp); omega)]
      simp only [littleEndian, List.take, List.foldr]
      omega

theorem parseValue_not_string (data : List Nat) (tp m : Nat) (h : tp ≠ MYSQL_TYPE_STRING) :
    parseValue data tp m = parseValueSwitch data tp m 0 := by
  unfold parseValue
  rw [if_neg h]

theorem parseBit_value (data : List Nat) (numBits n : Nat) (hb : IsBytes data)
    (hn1 : 1 ≤ n) (hn8 : n ≤ 8) (hlen : n ≤ data.length) (h : 1 < numBits ∨ n = 1) :
    parseBit data numBits n = .ok (twosComplement 64 (bigEndian (data.take n))) := by
  have hlt : bigEndian (data.take n) < 2 ^ (8 * n) := by
    have := bigEndian_lt (data.take n) (IsBytes_take data n hb)
    rw [List.length_take, Nat.min_eq_left hlen] at this
    rwa [show (256 : Nat) = 2 ^ 8 by norm_num, ← pow_mul] at this
  have hle : 2 ^ (8 * n) ≤ 2 ^ 64 := Nat.pow_le_pow_right (by norm_num) (by omega)
  have hsmall : n ≤ 7 → twosComplement 64 (bigEndian (data.take n)) =
      ((bigEndian (data.take n) : Nat) : Int) := by
    intro h7
    have : 2 ^ (8 * n) ≤ 2 ^ 56 := Nat.pow_le_pow_right (by norm_num) (by omega)
    unfold twosComplement
    rw [if_pos (by omega)]
  have hone : n = 1 → parseBit data numBits n =
      .ok (twosComplement 64 (bigEndian (data.take n))) := by
    intro h1
    subst h1
    rw [hsmall (by omega)]
    obtain ⟨b0, rest, rfl⟩ : ∃ b0 rest, data = b0 :: rest := by
      cases data with
      | nil => simp at hlen
      | cons b0 rest => exact ⟨b0, rest, rfl⟩
    have hv : bigEndian (List.take 1 (b0 :: rest)) = b0 := by simp [bigEndian]
    rw [hv]
    unfold parseBit
    by_cases hnb : ((numBits : Nat) : Int) > 1
    · rw [if_pos hnb, if_pos (by norm_num), index_cons_zero]; rfl
    · rw [if_neg hnb, if_neg (by norm_num), index_cons_zero]; rfl
  by_cases h1 : n = 1
  · exact hone h1
  have hnb : ((numBits : Nat) : Int) > 1 := by
    rcases h with h | h
    · exact_mod_cast h
    · exact absurd h h1
  have hfix : ∀ k : Nat, n = k → (k = 3 ∨ k = 5 ∨ k = 6 ∨ k = 7) →
      parseBit data numBits n = .ok (twosComplement 64 (bigEndian (data.take n))) := by
    intro k hk hk4
    have hs : sliceInt data 0 ((n : Nat) : Int) = .ok (data.take n) := by
      unfold sliceInt
      rw [if_pos ⟨le_refl _, by omega, by exact_mod_cast hlen⟩]
      simp
    have hval : getBigEndianFixedLengthInt (data.take n) = bigEndian (data.take n) :=
      getBigEndianFixedLengthInt_value _ (IsBytes_take data n hb)
        (by rw [List.length_take]; omega)
    unfold parseBit
    rw [if_pos hnb, if_neg (by omega), if_neg (by omega), if_neg (by omega),
      if_pos (by omega), hs]
    simp only [bind, Except.bind, pure, Except.pure, hval]
    rw [toSigned_eq 64 _ (by omega)]
  have hcases : n = 2 ∨ n = 3 ∨ n = 4 ∨ n = 5 ∨ n = 6 ∨ n = 7 ∨ n = 8 := by omega
  rcases hcases with h2 | h3 | h4 | h5 | h6 | h7 | h8
  · subst h2
    obtain ⟨v, hv, hv2⟩ := beUint16_ok data hlen
    have hv3 := hv2 hb
    subst hv3
    rw [hsmall (by omega)]
    unfold parseBit
    rw [if_pos hnb, if_neg (by norm_num), if_pos (by norm_num), hv]
    rfl
  · exact hfix 3 h3 (by omega)
  · subst h4
    obtain ⟨v, hv, hv2⟩ := beUint32_ok data hlen
    have hv3 := hv2 hb
    subst hv3
    rw [hsmall (by omega)]
    unfold parseBit
    rw [if_pos hnb, if_neg (by norm_num), if_neg (by norm_num), if_pos (by norm_num), hv]
    rfl
  · exact hfix 5 h5 (by omega)
  · exact hfix 6 h6 (by omega)
  · exact hfix 7 h7 (by omega)
  · subst h8
    obtain ⟨v, hv, hv2⟩ := beUint64_ok data hlen
    have hv3 := hv2 hb
    subst hv3
    rw [← toSigned_eq 64 _ hlt]
    unfold parseBit
    rw [if_pos hnb, if_neg (by norm_num), if_neg (by norm_num), if_neg (by norm_num),
      if_neg (by norm_num), if_pos (by norm_num), hv]
    rfl

theorem uint16_parts (m : Nat) (hm : m < 65536) : m >>> 8 ≤ 255 ∧ m &&& 0xFF = m % 256 := by
  constructor
  · rw [Nat.shiftRight_eq_div_pow]; omega
  · exact Nat.and_pow_two_sub_one_eq_mod m 8

theorem parseString_short (data : List Nat) (length : Int) (L : Nat) (hl : length < 256)
    (h0 : data[0]? = some L) (hlen : 1 + L ≤ data.length) :
    parseString data length = .ok (.string ((data.drop 1).take L), L + 1) := by
  have hi : index data 0 = .ok L := by
    unfold index; rw [h0]
  unfold parseString
  rw [if_pos hl, hi]
  simp only [bind, Except.bind, pure, Except.pure, slice_ok data 1 (L + 1) (by omega),
    List.drop_take, Nat.add_sub_cancel]

theorem parseString_long (data : List Nat) (length : Int) (hb : IsBytes data)
    (hl : 256 ≤ length) (h2 : 2 ≤ data.length)
    (hlen : 2 + littleEndian (data.take 2) ≤ data.length) :
    parseString data length =
      .ok (.string ((data.drop 2).take (littleEndian (data.take 2))),
        littleEndian (data.take 2) + 2) := by
  obtain ⟨v, hv, hv2⟩ := leUint16_ok data h2
  have hv3 := hv2 hb
  subst hv3
  unfold parseString
  rw [if_neg (by omega), sliceFrom_ok data 0 (by omega)]
  simp only [List.drop_zero, bind, Except.bind, pure, Except.pure, hv,
    slice_ok data 2 (littleEndian (data.take 2) + 2) (by omega), List.drop_take,
    Nat.add_sub_cancel]

set_option maxRecDepth 100000 in
theorem and_thirty_cases : ∀ b0, b0 < 256 →
    b0 &&& 0x30 = 0 ∨ b0 &&& 0x30 = 0x10 ∨ b0 &&& 0x30 = 0x20 ∨ b0 &&& 0x30 = 0x30 := by
  decide

theorem folded_length (b0 b1 : Nat) (h0 : b0 < 256) (h1 : b1 < 256)
    (h : b0 &&& 0x30 ≠ 0x30) :
    256 ≤ b1 ||| ((b0 &&& 0x30) ^^^ 0x30) <<< 4 ∧
    ((b0 &&& 0x30) ^^^ 0x30) <<< 4 < 65536 := by
  rcases and_thirty_cases b0 h0 with hc | hc | hc | hc
  · rw [hc, show ((0 : Nat) ^^^ 0x30) <<< 4 = 3 <<< 8 by rfl, lor_shl b1 3 8 h1]
    exact ⟨by omega, by decide⟩
  · rw [hc, show ((0x10 : Nat) ^^^ 0x30) <<< 4 = 2 <<< 8 by rfl, lor_shl b1 2 8 h1]
    exact ⟨by omega, by decide⟩
  · rw [hc, show ((0x20 : Nat) ^^^ 0x30) <<< 4 = 1 <<< 8 by rfl, lor_shl b1 1 8 h1]
    exact ⟨by omega, by decide⟩
  · exact absurd hc h

theorem parseValueSwitch_string (data : List Nat) (m : Nat) (length : Int) :
    parseValueSwitch data MYSQL_TYPE_STRING m length = parseString data length := by
  unfold parseValueSwitch
  simp only [MYSQL_TYPE_VARCHAR, MYSQL_TYPE_NULL, MYSQL_TYPE_TINY, MYSQL_TYPE_SHORT,
    MYSQL_TYPE_INT24, MYSQL_TYPE_LONG, MYSQL_TYPE_LONGLONG, MYSQL_TYPE_NEWDECIMAL,
    MYSQL_TYPE_FLOAT, MYSQL_TYPE_DOUBLE, MYSQL_TYPE_BIT, MYSQL_TYPE_TIMESTAMP,
    MYSQL_TYPE_TIMESTAMP2, MYSQL_TYPE_DATETIME, MYSQL_TYPE_DATETIME2, MYSQL_TYPE_TIME,
    MYSQL_TYPE_TIME2, MYSQL_TYPE_DATE, MYSQL_TYPE_YEAR, MYSQL_TYPE_ENUM, MYSQL_TYPE_SET,
    MYSQL_TYPE_BLOB, MYSQL_TYPE_VAR_STRING, MYSQL_TYPE_STRING, Nat.reduceEqDiff, if_false,
    or_self, if_true]

theorem parseValueSwitch_length (data : List Nat) (tp m : Nat) (l1 l2 : Int)
    (h : tp ≠ MYSQL_TYPE_STRING) :
    parseValueSwitch data tp m l1 = parseValueSwitch data tp m l2 := by
  unfold parseValueSwitch
  simp only [if_neg h]

theorem lor_mul (q b k : Nat) (hb : b < 2 ^ k) : q * 2 ^ k ||| b = q * 2 ^ k + b := by
  rw [Nat.lor_comm, ← Nat.shiftLeft_eq, lor_shl b q k hb, Nat.shiftLeft_eq, Nat.add_comm]

theorem packDatetime2_eq (year month day hour minute second : Nat) (hd : day ≤ 31)
    (hh : hour ≤ 23) (hmi : minute ≤ 59) (hs : second ≤ 59) :
    packDatetime2 year month day hour minute second =
      ((year * 13 + month) * 32 + day) * 131072 + hour * 4096 + minute * 64 + second := by
  unfold packDatetime2
  simp only [Nat.shiftLeft_eq]
  rw [show (year * 13 + month) * 2 ^ 5 ||| day = (year * 13 + month) * 2 ^ 5 + day from
    lor_mul _ _ 5 (by omega)]
  rw [show ((year * 13 + month) * 2 ^ 5 + day) * 2 ^ 17 ||| hour * 2 ^ 12 =
      ((year * 13 + month) * 2 ^ 5 + day) * 2 ^ 17 + hour * 2 ^ 12 from
    lor_mul _ _ 17 (by omega)]
  rw [show ((year * 13 + month) * 2 ^ 5 + day) * 2 ^ 17 + hour * 2 ^ 12 =
      (((year * 13 + month) * 2 ^ 5 + day) * 2 ^ 5 + hour) * 2 ^ 12 by ring]
  rw [lor_mul _ (minute * 2 ^ 6) 12 (by omega)]
  rw [show (((year * 13 + month) * 2 ^ 5 + day) * 2 ^ 5 + hour) * 2 ^ 12 + minute * 2 ^ 6 =
      ((((year * 13 + month) * 2 ^ 5 + day) * 2 ^ 5 + hour) * 2 ^ 6 + minute) * 2 ^ 6 by ring]
  rw [lor_mul _ second 6 (by omega)]
  ring

theorem wrapInt64_small (x : Int) (h0 : 0 ≤ x) (h1 : x < 2 ^ 63) : wrapInt64 x = x := by
  unfold wrapInt64
  have hx : x % 2 ^ 64 = x := Int.emod_eq_of_lt h0 (by omega)
  rw [hx]
  obtain ⟨n, rfl⟩ := Int.eq_ofNat_of_zero_le h0
  rw [Int.toNat_ofNat, toSigned_small n (by exact_mod_cast h1)]

theorem fmtD_natCast (w n : Nat) : fmtD w (n : Int) = padZero w n := by
  unfold fmtD
  rw [if_neg (by omega), Int.toNat_ofNat]

/-! ## Temporal and decimal values -/

theorem bind_ok_eq {α β : Type} (x : Except Fault α) (a : α) (f : α → Except Fault β)
    (h : x = .ok a) : (x >>= f) = f a := by
  subst h; rfl

theorem datetime2_tail (P y n year month day hour minute second : Nat)
    (hy : year ≤ 9999) (hmo : month ≤ 12) (hd : day ≤ 31) (hh : hour ≤ 23)
    (hmi : minute ≤ 59) (hs : second ≤ 59) (hfl : y < 2 ^ 24)
    (hP : P = ((year * 13 + month) * 32 + day) * 131072 + hour * 4096 + minute * 64 + second) :
    (if (P : Int) = 0 then
      (pure (Value.text "0000-00-00 00:00:00", n) : Except Fault (Value × Nat))
    else
      let tmp := wrapInt64 ((P : Int) * 2 ^ 24 + (y : Int))
      let tmp := if tmp < 0 then wrapInt64 (-tmp) else tmp
      let ymdhms := tmp / 2 ^ 24
      let ymd := ymdhms / 2 ^ 17
      let ym := ymd / 2 ^ 5
      let hms := Int.tmod ymdhms (2 ^ 17)
      let day := Int.tmod ymd (2 ^ 5)
      let month := Int.tmod ym 13
      let year := Int.tdiv ym 13
      let second := Int.tmod hms (2 ^ 6)
      let minute := Int.tmod (hms / 2 ^ 6) (2 ^ 6)
      let hour := hms / 2 ^ 12
      pure (.text (fmtD 4 year ++ "-" ++ fmtD 2 month ++ "-" ++ fmtD 2 day ++ " " ++
        fmtD 2 hour ++ ":" ++ fmtD 2 minute ++ ":" ++ fmtD 2 second), n)) =
    .ok (.text (padZero 4 year ++ "-" ++ padZero 2 month ++ "-" ++ padZero 2 day ++ " " ++
        padZero 2 hour ++ ":" ++ padZero 2 minute ++ ":" ++ padZero 2 second), n) := by
  by_cases hP0 : P = 0
  · have hz : year = 0 ∧ month = 0 ∧ day = 0 ∧ hour = 0 ∧ minute = 0 ∧ second = 0 := by
      omega
    obtain ⟨rfl, rfl, rfl, rfl, rfl, rfl⟩ := hz
    rw [if_pos (by exact_mod_cast hP0)]
    rfl
  · rw [if_neg (by exact_mod_cast hP0)]
    have hPlt : P < 2 ^ 39 := by omega
    have htmp : wrapInt64 ((P : Int) * 2 ^ 24 + (y : Int)) = (P : Int) * 2 ^ 24 + (y : Int) := by
      have h1 : (P : Int) < 2 ^ 39 := by exact_mod_cast hPlt
      have h2 : (y : Int) < 2 ^ 24 := by exact_mod_cast hfl
      exact wrapInt64_small _ (by positivity) (by omega)
    have hnn : ¬ ((P : Int) * 2 ^ 24 + (y : Int) < 0) := by
      have : (0 : Int) ≤ (P : Int) * 2 ^ 24 + (y : Int) := by positivity
      omega
    have hq : ((P : Int) * 2 ^ 24 + (y : Int)) / 2 ^ 24 = (P : Int) := by
      have h2 : (y : Int) < 2 ^ 24 := by exact_mod_cast hfl
      omega
    have hymd : (P : Int) / 2 ^ 17 = (((year * 13 + month) * 32 + day : Nat) : Int) := by
      rw [hP]; push_cast; omega
    have hym : ((((year * 13 + month) * 32 + day : Nat) : Int)) / 2 ^ 5 =
        ((year * 13 + month : Nat) : Int) := by
      push_cast; omega
    have hhms : Int.tmod (P : Int) (2 ^ 17) = ((hour * 4096 + minute * 64 + second : Nat) : Int) := by
      rw [Int.tmod_eq_emod (Int.natCast_nonneg _) (by norm_num), hP]; push_cast; omega
    have hday : Int.tmod ((((year * 13 + month) * 32 + day : Nat) : Int)) (2 ^ 5) = (day : Int) := by
      rw [Int.tmod_eq_emod (Int.natCast_nonneg _) (by norm_num)]; push_cast; omega
    have hmonth : Int.tmod (((year * 13 + month : Nat) : Int)) 13 = (month : Int) := by
      rw [Int.tmod_eq_emod (Int.natCast_nonneg _) (by norm_num)]; push_cast; omega
    have hyear : Int.tdiv (((year * 13 + month : Nat) : Int)) 13 = (year : Int) := by
      rw [Int.tdiv_eq_ediv (Int.natCast_nonneg _) (by norm_num)]; push_cast; omega
    have hsec : Int.tmod (((hour * 4096 + minute * 64 + second : Nat) : Int)) (2 ^ 6) =
        (second : Int) := by
      rw [Int.tmod_eq_emod (Int.natCast_nonneg _) (by norm_num)]; push_cast; omega
    have hmin : Int.tmod ((((hour * 4096 + minute * 64 + second : Nat) : Int)) / 2 ^ 6) (2 ^ 6) =
        (minute : Int) := by
      rw [Int.tmod_eq_emod (Int.ediv_nonneg (Int.natCast_nonneg _) (by norm_num))
        (by norm_num)]
      push_cast; omega
    have hhour : (((hour * 4096 + minute * 64 + second : Nat) : Int)) / 2 ^ 12 = (hour : Int) := by
      push_cast; omega
    simp only [htmp, if_neg hnn, hq, hymd, hym, hhms, hday, hmonth, hyear, hsec, hmin, hhour,
      fmtD_natCast]
    rfl

theorem tdiv_nine (a : Nat) : Int.tdiv (a : Int) digitsPerInteger = ((a / 9 : Nat) : Int) := by
  unfold digitsPerInteger
  rw [Int.ofNat_tdiv]
  rfl

theorem comp_nine (a : Nat) :
    (a : Int) - ((a / 9 : Nat) : Int) * digitsPerInteger = ((a % 9 : Nat) : Int) := by
  unfold digitsPerInteger
  push_cast
  omega

theorem indexInt_compressed (k : Nat) (hk : k < 10) :
    indexInt compressedBytes (k : Int) = .ok (compressedBytes.getD k 0) := by
  interval_cases k <;> rfl

theorem compressed_le (k : Nat) : compressedBytes.getD k 0 ≤ 4 := by
  by_cases hk : k < 10
  · interval_cases k <;> decide
  · rw [List.getD_eq_default _ _ (by simpa [compressedBytes] using hk)]
    omega

theorem compressed_pos (k : Nat) (h1 : 1 ≤ k) (h9 : k < 9) : 1 ≤ compressedBytes.getD k 0 := by
  interval_cases k <;> decide

theorem mapM_index_ok (data : List Nat) (mask : Nat) (is : List Nat)
    (h : ∀ i ∈ is, i < data.length) :
    ∃ l, is.mapM (fun i => (do
      let d ← index data i
      pure (d ^^^ mask) : Except Fault Nat)) = .ok l := by
  induction is with
  | nil => exact ⟨[], rfl⟩
  | cons i rest ih =>
    obtain ⟨l, hl⟩ := ih (fun j hj => h j (List.mem_cons_of_mem _ hj))
    have hlt : i < data.length := h i (List.mem_cons_self _ _)
    have hi := index_ok data i hlt
    refine ⟨(data[i] ^^^ mask) :: l, ?_⟩
    rw [List.mapM_cons, hi, hl]
    rfl

theorem parseDecimalDecompressValue_ok (k : Nat) (data : List Nat) (mask : Nat) (hk : k < 10)
    (hlen : compressedBytes.getD k 0 ≤ data.length) :
    ∃ v, parseDecimalDecompressValue (k : Int) data mask =
      .ok (compressedBytes.getD k 0, v) := by
  obtain ⟨l, hl⟩ := mapM_index_ok data mask (List.range (compressedBytes.getD k 0))
    (fun i hi => lt_of_lt_of_le (List.mem_range.1 hi) hlen)
  refine ⟨getBigEndianFixedLengthInt l % 2 ^ 32, ?_⟩
  unfold parseDecimalDecompressValue
  rw [indexInt_compressed k hk]
  refine (bind_ok_eq _ _ _ rfl).trans ?_
  dsimp only
  refine (bind_ok_eq _ _ _ hl).trans ?_
  rfl

theorem decimalGroups_ok (data : List Nat) (mask : Nat) : ∀ (count pos : Nat) (res : String),
    pos + 4 * count ≤ data.length →
    ∃ r, decimalGroups data mask count pos res = .ok (pos + 4 * count, r) := by
  intro count
  induction count with
  | zero => intro pos res _; exact ⟨res, rfl⟩
  | succ n ih =>
    intro pos res h
    obtain ⟨v, hv, _⟩ := beUint32_ok (data.drop pos) (by rw [List.length_drop]; omega)
    obtain ⟨r, hr⟩ := ih (pos + 4) (res ++ fmtD 9 ((v ^^^ mask : Nat) : Int)) (by omega)
    refine ⟨r, ?_⟩
    unfold decimalGroups
    have hread : (sliceFrom data pos >>= beUint32) = .ok v := by
      rw [sliceFrom_ok data pos (by omega)]; exact hv
    refine (bind_ok_eq _ _ _ hread).trans ?_
    dsimp only
    rw [hr]
    congr 2
    omega

theorem sliceInt_zero_ok (data : List Nat) (n : Nat) (h : n ≤ data.length) :
    sliceInt data 0 (n : Int) = .ok (data.take n) := by
  unfold sliceInt
  rw [if_pos ⟨le_refl _, by omega, by exact_mod_cast h⟩]
  simp

theorem parseDecimalType_size (data : List Nat) (m : Nat) (hp : 1 ≤ m >>> 8)
    (hs : m &&& 0xFF ≤ m >>> 8)
    (hlen : decimalBinarySize (m >>> 8) (m &&& 0xFF) ≤ data.length) :
    ∃ v, parseDecimalType data m = .ok (v, decimalBinarySize (m >>> 8) (m &&& 0xFF)) := by
  have hI : ((m >>> 8 : Nat) : Int) - ((m &&& 255 : Nat) : Int) =
      (((m >>> 8) - (m &&& 255) : Nat) : Int) := by
    have : m &&& 255 ≤ m >>> 8 := hs
    omega
  unfold decimalBinarySize at hlen ⊢
  unfold parseDecimalType
  dsimp only
  rw [hI]
  generalize hA : (m >>> 8) - (m &&& 255) = a at hlen ⊢
  generalize hS : m &&& 255 = s at hlen hA hs ⊢
  simp only [tdiv_nine, comp_nine, Int.toNat_ofNat]
  rw [indexInt_compressed (a % 9) (by omega), indexInt_compressed (s % 9) (by omega)]
  have hcI4 := compressed_le (a % 9)
  have hcF4 := compressed_le (s % 9)
  have hpos : 1 ≤ a / 9 * 4 + compressedBytes.getD (a % 9) 0 + s / 9 * 4 +
      compressedBytes.getD (s % 9) 0 := by
    by_cases ha : a % 9 = 0
    · by_cases hs0 : s % 9 = 0
      · omega
      · have := compressed_pos (s % 9) (by omega) (by omega)
        omega
    · have := compressed_pos (a % 9) (by omega) (by omega)
      omega
  generalize hcI : compressedBytes.getD (a % 9) 0 = cI at hlen hcI4 hpos ⊢
  generalize hcF : compressedBytes.getD (s % 9) 0 = cF at hlen hcF4 hpos ⊢
  rw [bind_ok_eq _ _ _ rfl]
  rw [bind_ok_eq _ _ _ rfl]
  have hE : ((a / 9 : Nat) : Int) * 4 + (cI : Int) + ((s / 9 : Nat) : Int) * 4 + (cF : Int) =
      ((a / 9 * 4 + cI + s / 9 * 4 + cF : Nat) : Int) := by
    push_cast; ring
  rw [hE]
  generalize hN : a / 9 * 4 + cI + s / 9 * 4 + cF = N at hlen hpos ⊢
  rw [if_neg (by omega)]
  rw [bind_ok_eq (pure PUnit.unit) PUnit.unit _ rfl]
  rw [bind_ok_eq _ _ _ (sliceInt_zero_ok data N hlen)]
  have hbl : (data.take N).length = N := by rw [List.length_take]; omega
  have h0 : 0 < (data.take N).length := by omega
  rw [bind_ok_eq _ _ _ (index_ok (data.take N) 0 h0)]
  generalize (data.take N)[0] = value
  generalize (if value &&& 128 = 0 then ((2 : Nat) ^ 32 - 1, "-") else (0, "")) = mr
  generalize hd' : (data.take N).set 0 (value ^^^ 128) = buf
  have hbl2 : buf.length = N := by rw [← hd', List.length_set, hbl]
  obtain ⟨v1, h1⟩ := parseDecimalDecompressValue_ok (a % 9) buf (mr.1 % 256) (by omega)
    (by rw [hcI]; omega)
  rw [hcI] at h1
  rw [bind_ok_eq _ _ _ h1]
  dsimp only
  obtain ⟨r2, h2⟩ := decimalGroups_ok buf mr.1 (a / 9) cI (mr.2 ++ fmtD 0 ↑v1) (by omega)
  rw [bind_ok_eq _ _ _ h2]
  dsimp only
  obtain ⟨r3, h3⟩ := decimalGroups_ok buf mr.1 (s / 9) (cI + 4 * (a / 9)) (r2 ++ ".")
    (by omega)
  rw [bind_ok_eq _ _ _ h3]
  dsimp only
  obtain ⟨v4, h4⟩ := parseDecimalDecompressValue_ok (s % 9)
    (buf.drop (cI + 4 * (a / 9) + 4 * (s / 9))) (mr.1 % 256) (by omega)
    (by rw [hcF, List.length_drop]; omega)
  rw [hcF] at h4
  have h4' : (sliceFrom buf (cI + 4 * (a / 9) + 4 * (s / 9)) >>= fun d =>
      parseDecimalDecompressValue (↑(s % 9)) d (mr.1 % 256)) = .ok (cF, v4) := by
    rw [sliceFrom_ok buf _ (by omega)]; exact h4
  rw [bind_ok_eq _ _ _ h4']
  dsimp only
  have hfin : (if cF > 0 then (cI + 4 * (a / 9) + 4 * (s / 9) + cF, r3 ++ fmtD (s % 9) ↑v4)
      else (cI + 4 * (a / 9) + 4 * (s / 9), r3)).1 = N := by
    split
    · show cI + 4 * (a / 9) + 4 * (s / 9) + cF = N
      omega
    · show cI + 4 * (a / 9) + 4 * (s / 9) = N
      omega
  rw [hfin]
  exact ⟨_, rfl⟩

theorem parseDecimalType_take (data : List Nat) (m : Nat) (hs : m &&& 0xFF ≤ m >>> 8)
    (hlen : decimalBinarySize (m >>> 8) (m &&& 0xFF) ≤ data.length) :
    parseDecimalType data m =
      parseDecimalType (data.take (decimalBinarySize (m >>> 8) (m &&& 0xFF))) m := by
  have hI : ((m >>> 8 : Nat) : Int) - ((m &&& 255 : Nat) : Int) =
      (((m >>> 8) - (m &&& 255) : Nat) : Int) := by
    have : m &&& 255 ≤ m >>> 8 := hs
    omega
  unfold decimalBinarySize at hlen ⊢
  unfold parseDecimalType
  dsimp only
  rw [hI]
  generalize hA : (m >>> 8) - (m &&& 255) = a at hlen ⊢
  generalize hS : m &&& 255 = s at hlen hA hs ⊢
  simp only [tdiv_nine, comp_nine, Int.toNat_ofNat]
  rw [indexInt_compressed (a % 9) (by omega), indexInt_compressed (s % 9) (by omega)]
  generalize compressedBytes.getD (a % 9) 0 = cI at hlen ⊢
  generalize compressedBytes.getD (s % 9) 0 = cF at hlen ⊢
  rw [bind_ok_eq _ _ _ rfl, bind_ok_eq _ _ _ rfl, bind_ok_eq _ _ _ rfl, bind_ok_eq _ _ _ rfl]
  have hE : ((a / 9 : Nat) : Int) * 4 + (cI : Int) + ((s / 9 : Nat) : Int) * 4 + (cF : Int) =
      ((a / 9 * 4 + cI + s / 9 * 4 + cF : Nat) : Int) := by
    push_cast; ring
  rw [hE]
  generalize hN : a / 9 * 4 + cI + s / 9 * 4 + cF = N at hlen ⊢
  rw [if_neg (by omega), if_neg (by omega)]
  rw [sliceInt_zero_ok data N hlen,
    sliceInt_zero_ok (data.take N) N (by rw [List.length_take]; omega), List.take_take,
    Nat.min_self]

theorem parseValue_newdecimal (data : List Nat) (m : Nat) :
    parseValue data MYSQL_TYPE_NEWDECIMAL m = parseDecimalType data m := by
  rw [parseValue_not_string _ _ _ (by decide)]
  unfold parseValueSwitch
  rw [if_neg (by decide), if_neg (by decide), if_neg (by decide), if_neg (by decide),
    if_neg (by decide), if_neg (by decide), if_pos rfl]

/-! ## scramble41 -/

theorem beBytes_length (k v : Nat) : (beBytes k v).length = k := by
  induction k with
  | zero => rfl
  | succ k ih => rw [beBytes, List.length_cons, ih]

theorem beBytes_IsBytes (k v : Nat) : IsBytes (beBytes k v) := by
  induction k with
  | zero => intro x hx; cases hx
  | succ k ih =>
    intro x hx
    rw [beBytes, List.mem_cons] at hx
    rcases hx with hx | hx
    · rw [hx]; exact Nat.mod_lt _ (by norm_num)
    · exact ih x hx

theorem sha1_length (msg : List Nat) : (sha1 msg).length = 20 := by
  unfold sha1
  simp only [List.length_append, beBytes_length]

theorem sha1_IsBytes (msg : List Nat) : IsBytes (sha1 msg) := by
  unfold sha1
  intro x hx
  simp only [List.mem_append] at hx
  rcases hx with (((hx | hx) | hx) | hx) | hx <;> exact beBytes_IsBytes _ _ x hx

theorem xorLoop_eq (stage1 : List Nat) : ∀ (k i : Nat) (result : List Nat),
    i + k = result.length → result.length ≤ stage1.length →
    xorLoop stage1 k i result
      = .ok (result.take i ++ List.zipWith (fun x y => x ^^^ y) (result.drop i) (stage1.drop i)) := by
  intro k
  induction k with
  | zero =>
    intro i result hi _
    rw [xorLoop, List.drop_of_length_le (by omega), List.zipWith_nil_left, List.append_nil,
      List.take_of_length_le (by omega)]
    rfl
  | succ k ih =>
    intro i result hi hs
    have hir : i < result.length := by omega
    have his : i < stage1.length := by omega
    rw [xorLoop, bind_ok_eq _ _ _ (index_ok result i hir),
      bind_ok_eq _ _ _ (index_ok stage1 i his)]
    have hset : setAt result i (result[i] ^^^ stage1[i]) = .ok (result.set i (result[i] ^^^ stage1[i])) := by
      unfold setAt; rw [if_pos hir]
    rw [bind_ok_eq _ _ _ hset, ih (i + 1) _ (by rw [List.length_set]; omega)
      (by rw [List.length_set]; exact hs)]
    congr 1
    rw [List.drop_eq_getElem_cons hir, List.drop_eq_getElem_cons his, List.zipWith_cons_cons,
      List.drop_set_of_lt _ _ (Nat.lt_succ_self i), List.take_succ, List.set_take,
      List.set_eq_of_length_le (by rw [List.length_take]; exact Nat.min_le_left _ _),
      List.getElem?_set_self hir, List.append_assoc]
    rfl

theorem scramble41_nonempty (scramble password : List Nat) (h : password ≠ []) :
    scramble41 scramble password
      = .ok (List.zipWith (fun x y => x ^^^ y) (sha1 password)
          (sha1 (scramble ++ sha1 (sha1 password)))) := by
  unfold scramble41
  have hl : password.length ≠ 0 := fun h0 => h (List.length_eq_zero.1 h0)
  rw [if_neg hl]
  simp only [sha1New, Sha1Hash.Write, Sha1Hash.Sum, Sha1Hash.Reset, List.nil_append]
  rw [xorLoop_eq _ _ _ _ (Nat.zero_add _) (by rw [sha1_length, sha1_length])]
  simp only [List.take_zero, List.drop_zero, List.nil_append]
  congr 1
  apply List.ext_getElem?
  intro i
  simp only [List.getElem?_zipWith]
  cases (sha1 password)[i]? <;> cases (sha1 (scramble ++ sha1 (sha1 password)))[i]? <;>
    simp [Nat.xor_comm]

theorem zipWith_xor_IsBytes : ∀ (a b : List Nat), IsBytes a → IsBytes b →
    IsBytes (List.zipWith (fun x y => x ^^^ y) a b)
  | [], _, _, _ => by intro x hx; simp at hx
  | _ :: _, [], _, _ => by intro x hx; simp at hx
  | x :: xs, y :: ys, ha, hb => by
    intro z hz
    rw [List.zipWith_cons_cons, List.mem_cons] at hz
    rcases hz with hz | hz
    · rw [hz]
      exact Nat.xor_lt_two_pow (n := 8) (ha x (List.mem_cons_self _ _)) (hb y (List.mem_cons_self _ _))
    · exact zipWith_xor_IsBytes xs ys (fun w hw => ha w (List.mem_cons_of_mem _ hw))
        (fun w hw => hb w (List.mem_cons_of_mem _ hw)) z hz

set_option maxRecDepth 100000 in
theorem scramble_vector :
    List.zipWith (fun x y => x ^^^ y) (sha1 [105, 109, 97, 112, 119, 100])
      (sha1 ([1, 2, 3, 4] ++ sha1 (sha1 [105, 109, 97, 112, 119, 100])))
    = [0xeb, 0x6a, 0x59, 0xfd, 0x26, 0x17, 0xe3, 0x84, 0x36, 0x8b, 0xd1, 0xb7, 0x6a, 0x0d,
       0x68, 0xdb, 0x27, 0x22, 0x75, 0x03] := by
  decide

/-! ## Length-encoded values -/

theorem putLengthEncodedInt_length (n : Nat) :
    (n ≤ 250 → (putLengthEncodedInt n).length = 1) ∧
    (n ≤ 0xffff → (putLengthEncodedInt n).length ≤ 3) ∧
    (n ≤ 0xffffff → (putLengthEncodedInt n).length ≤ 4) ∧
    (putLengthEncodedInt n).length ≤ 9 := by
  unfold putLengthEncodedInt
  refine ⟨fun h => ?_, fun h => ?_, fun h => ?_, ?_⟩
  all_goals repeat' split
  all_goals simp only [List.length_cons, List.length_nil]
  all_goals omega

/-! ## Parser state on failure -/

theorem parseEvent_error_state (p p' : BinlogParser) (h : EventHeader) (data : List Nat)
    (pf : ParseFault) (hp : p.parseEvent h data = (p', .error pf)) : p' = p := by
  unfold BinlogParser.parseEvent at hp
  repeat' split at hp
  all_goals first
    | exact (Prod.mk.inj hp).1.symm
    | exact absurd (Prod.mk.inj hp).2 (by simp)

theorem Parse_error_state (p p' : BinlogParser) (b : List Nat) (pf : ParseFault)
    (hp : p.Parse b = (p', .error pf)) : p' = p := by
  unfold BinlogParser.Parse at hp
  split at hp
  · exact (Prod.mk.inj hp).1.symm
  · split at hp
    · exact (Prod.mk.inj hp).1.symm
    · dsimp only at hp
      split at hp
      · exact (Prod.mk.inj hp).1.symm
      · split at hp
        · rename_i p1 f heq
          have := parseEvent_error_state p p1 _ _ f heq
          rw [← this]
          exact (Prod.mk.inj hp).1.symm
        · exact absurd (Prod.mk.inj hp).2 (by simp)

theorem NewTableMapEvent_no_format (format : Option FormatDescriptionEvent) (data : List Nat)
    (hf : format = none ∨
      ∃ fmt, format = some fmt ∧ fmt.EventTypeHeaderLengths.length < 19) :
    NewTableMapEvent format data = .error .panic := by
  rcases hf with hf | ⟨fmt, hf, hlen⟩
  · subst hf; rfl
  · subst hf
    have hidx : index fmt.EventTypeHeaderLengths (TABLE_MAP_EVENT - 1) = .error .panic := by
      unfold index
      rw [List.getElem?_eq_none (by unfold TABLE_MAP_EVENT; omega)]
    unfold NewTableMapEvent
    simp only [bind, Except.bind, pure, Except.pure, hidx]

/-! ## Streamer -/

theorem GetEvent_err_set (s : Streamer) (pick : Bool) (e : String) (h : s.err = some e) :
    s.GetEvent pick = (s, some (none, some "last sync failed")) := by
  unfold Streamer.GetEvent
  rw [h]

theorem closeWithError_err (s : Streamer) (err : Option String) :
    (s.closeWithError err).err = s.err := by
  unfold Streamer.closeWithError
  dsimp only
  split <;> rfl

theorem run_after_error (ops : List StreamOp) : ∀ (s : Streamer) (e : String), s.err = some e →
    ∀ r ∈ (s.run ops).2, r = some (none, some "last sync failed") := by
  induction ops with
  | nil => intro s e _ r hr; simp [Streamer.run] at hr
  | cons op ops ih =>
    intro s e he r hr
    cases op with
    | getEvent pick =>
      simp only [Streamer.run, GetEvent_err_set s pick e he, List.mem_cons] at hr
      rcases hr with hr | hr
      · exact hr
      · exact ih s e he r hr
    | send c =>
      simp only [Streamer.run] at hr
      exact ih { s with ch := s.ch ++ [c] } e he r hr
    | closeWithError err =>
      simp only [Streamer.run] at hr
      exact ih _ e (by rw [closeWithError_err]; exact he) r hr
    | close =>
      simp only [Streamer.run, Streamer.Close] at hr
      exact ih _ e (by rw [closeWithError_err]; exact he) r hr

theorem GetEvent_error_sets_err (s s1 : Streamer) (pick : Bool) (msg : String)
    (h : s.GetEvent pick = (s1, some (none, some msg))) : ∃ e, s1.err = some e := by
  unfold Streamer.GetEvent at h
  split at h
  · rename_i e he
    exact ⟨e, by rw [← (Prod.mk.inj h).1]; exact he⟩
  · split at h
    · exact absurd (Prod.mk.inj h).2 (by simp)
    · exact absurd (Prod.mk.inj h).2 (by simp)
    · obtain ⟨h1, h2⟩ := Prod.mk.inj h
      simp only [Option.some.injEq, Prod.mk.injEq, true_and] at h2
      exact ⟨msg, by rw [← h1, h2]⟩
    · split at h
      · obtain ⟨h1, h2⟩ := Prod.mk.inj h
        simp only [Option.some.injEq, Prod.mk.injEq, true_and] at h2
        exact ⟨msg, by rw [← h1, h2]⟩
      · exact absurd (Prod.mk.inj h).2 (by simp)

/-! ## Binlog dump command -/

theorem littleEndianBytes_four (v : Nat) :
    [v % 256, (v >>> 8) % 256, (v >>> 16) % 256, (v >>> 24) % 256] = littleEndianBytes 4 v := by
  simp only [littleEndianBytes, Nat.shiftRight_eq_div_pow]
  have h1 : v / 256 % 256 = v / 2 ^ 8 % 256 := by norm_num
  have h2 : v / 256 / 256 % 256 = v / 2 ^ 16 % 256 := by
    rw [Nat.div_div_eq_div_mul]; norm_num
  have h3 : v / 256 / 256 / 256 % 256 = v / 2 ^ 24 % 256 := by
    rw [Nat.div_div_eq_div_mul, Nat.div_div_eq_div_mul]; norm_num
  rw [h1, h2, h3]

theorem littleEndian_littleEndianBytes (k : Nat) : ∀ v, v < 256 ^ k →
    littleEndian (littleEndianBytes k v) = v := by
  induction k with
  | zero => intro v hv; simp [littleEndianBytes, littleEndian] at hv ⊢; omega
  | succ k ih =>
    intro v hv
    have hlt : v / 256 < 256 ^ k := by
      rw [pow_succ] at hv
      exact Nat.div_lt_of_lt_mul (by rw [Nat.mul_comm]; exact hv)
    have := ih (v / 256) hlt
    simp only [littleEndianBytes, littleEndian, List.foldr_cons] at this ⊢
    rw [this]
    omega

theorem sliceFrom_append (pre rest : List Nat) (i : Nat) (hi : pre.length = i) :
    sliceFrom (pre ++ rest) i = .ok rest := by
  unfold sliceFrom
  rw [if_pos (by rw [List.length_append]; omega), ← hi, List.drop_left]

theorem setAt_append (pre rest : List Nat) (x v i : Nat) (hi : pre.length = i) :
    setAt (pre ++ x :: rest) i v = .ok (pre ++ v :: rest) := by
  unfold setAt
  rw [if_pos (by rw [List.length_append, List.length_cons]; omega), ← hi,
    List.set_append_right _ _ (le_refl _), Nat.sub_self]
  rfl

theorem lePutUint16_append (pre rest : List Nat) (x0 x1 v i : Nat) (hi : pre.length = i) :
    lePutUint16 (pre ++ x0 :: x1 :: rest) i v =
      .ok (pre ++ [v % 256, (v >>> 8) % 256] ++ rest) := by
  unfold lePutUint16
  rw [bind_ok_eq _ _ _ (sliceFrom_append pre _ i hi)]
  rw [if_neg (by simp), ← hi, List.take_left]
  rfl

theorem lePutUint32_append (pre rest : List Nat) (x0 x1 x2 x3 v i : Nat) (hi : pre.length = i) :
    lePutUint32 (pre ++ x0 :: x1 :: x2 :: x3 :: rest) i v =
      .ok (pre ++ [v % 256, (v >>> 8) % 256, (v >>> 16) % 256, (v >>> 24) % 256] ++ rest) := by
  unfold lePutUint32
  rw [bind_ok_eq _ _ _ (sliceFrom_append pre _ i hi)]
  rw [if_neg (by simp), ← hi, List.take_left]
  rfl

theorem copyBytes_replicate (name : List Nat) :
    copyBytes (List.replicate name.length 0) name = name := by
  unfold copyBytes
  rw [List.length_replicate, List.take_length, List.drop_eq_nil_of_le (by simp),
    List.append_nil]

theorem makeBinlogDumpCommand_eval (name : List Nat) (pos fid : Nat) :
    makeBinlogDumpCommand { Name := name, Pos := pos } fid =
      .ok ([0, 0, 0, 0, 0x12] ++ littleEndianBytes 4 pos ++ [0, 0] ++ littleEndianBytes 4 fid ++
        name) := by
  rw [← littleEndianBytes_four pos, ← littleEndianBytes_four fid]
  unfold makeBinlogDumpCommand
  dsimp only
  rw [show 4 + 1 + 4 + 2 + 4 + name.length = name.length + 15 by omega]
  have hrep : List.replicate (name.length + 15) 0 =
      0 :: 0 :: 0 :: 0 :: 0 :: 0 :: 0 :: 0 :: 0 :: 0 :: 0 :: 0 :: 0 :: 0 :: 0 ::
        List.replicate name.length 0 := by
    simp [List.replicate_succ]
  have h1 := setAt_append [0, 0, 0, 0]
    (0 :: 0 :: 0 :: 0 :: 0 :: 0 :: 0 :: 0 :: 0 :: 0 :: List.replicate name.length 0) 0
    COM_BINLOG_DUMP 4 rfl
  have h2 := lePutUint32_append [0, 0, 0, 0, COM_BINLOG_DUMP]
    (0 :: 0 :: 0 :: 0 :: 0 :: 0 :: List.replicate name.length 0) 0 0 0 0 pos (4 + 1) (by rfl)
  have h3 := lePutUint16_append
    [0, 0, 0, 0, COM_BINLOG_DUMP, pos % 256, (pos >>> 8) % 256, (pos >>> 16) % 256,
      (pos >>> 24) % 256]
    (0 :: 0 :: 0 :: 0 :: List.replicate name.length 0) 0 0 BINLOG_DUMP_NEVER_STOP (4 + 1 + 4)
    (by rfl)
  have h4 := lePutUint32_append
    [0, 0, 0, 0, COM_BINLOG_DUMP, pos % 256, (pos >>> 8) % 256, (pos >>> 16) % 256,
      (pos >>> 24) % 256, BINLOG_DUMP_NEVER_STOP % 256, (BINLOG_DUMP_NEVER_STOP >>> 8) % 256]
    (List.replicate name.length 0) 0 0 0 0 fid (4 + 1 + 4 + 2) (by rfl)
  have h5 := sliceFrom_append
    [0, 0, 0, 0, COM_BINLOG_DUMP, pos % 256, (pos >>> 8) % 256, (pos >>> 16) % 256,
      (pos >>> 24) % 256, BINLOG_DUMP_NEVER_STOP % 256, (BINLOG_DUMP_NEVER_STOP >>> 8) % 256,
      fid % 256, (fid >>> 8) % 256, (fid >>> 16) % 256, (fid >>> 24) % 256]
    (List.replicate name.length 0) (4 + 1 + 4 + 2 + 4) (by rfl)
  have h6 : List.take (4 + 1 + 4 + 2 + 4)
      ([0, 0, 0, 0, COM_BINLOG_DUMP, pos % 256, (pos >>> 8) % 256, (pos >>> 16) % 256,
        (pos >>> 24) % 256, BINLOG_DUMP_NEVER_STOP % 256, (BINLOG_DUMP_NEVER_STOP >>> 8) % 256,
        fid % 256, (fid >>> 8) % 256, (fid >>> 16) % 256, (fid >>> 24) % 256] ++
        List.replicate name.length 0) =
      [0, 0, 0, 0, COM_BINLOG_DUMP, pos % 256, (pos >>> 8) % 256, (pos >>> 16) % 256,
        (pos >>> 24) % 256, BINLOG_DUMP_NEVER_STOP % 256, (BINLOG_DUMP_NEVER_STOP >>> 8) % 256,
        fid % 256, (fid >>> 8) % 256, (fid >>> 16) % 256, (fid >>> 24) % 256] :=
    List.take_left' (by rfl)
  simp only [List.cons_append, List.nil_append, List.append_assoc] at h1 h2 h3 h4 h5 h6
  rw [hrep, bind_ok_eq _ _ _ h1, bind_ok_eq _ _ _ h2, bind_ok_eq _ _ _ h3,
    bind_ok_eq _ _ _ h4, bind_ok_eq _ _ _ h5, h6, copyBytes_replicate]
  rfl

/-! ## Follower position -/

theorem parseEvent_event_kind (p p' : BinlogParser) (h : EventHeader) (data : List Nat)
    (e : Event) (hp : p.parseEvent h data = (p', .ok e)) :
    (h.EventType = ROTATE_EVENT → ∃ re, e = .rotate re ∧ NewRotateEvent data = .ok re) ∧
    (h.EventType ≠ ROTATE_EVENT → ∀ re, e ≠ .rotate re) := by
  unfold BinlogParser.parseEvent at hp
  constructor
  · intro ht
    have h1 : ¬ (h.EventType = FORMAT_DESCRIPTION_EVENT) := by rw [ht]; decide
    rw [if_neg h1, if_pos ht] at hp
    split at hp
    · rename_i re hre
      exact ⟨re, (Except.ok.inj (Prod.mk.inj hp).2).symm, hre⟩
    · exact absurd (Prod.mk.inj hp).2 (by simp)
  · intro ht re hre
    subst hre
    rw [if_neg ht] at hp
    repeat' split at hp
    all_goals exact absurd (Prod.mk.inj hp).2 (by simp)

theorem replySemiSyncAck_position (f : Follower) (p : Position) :
    (f.replySemiSyncAck p).1.NextPosition = f.NextPosition := by
  unfold Follower.replySemiSyncAck
  dsimp only
  repeat' split
  all_goals rfl

theorem ack_tail_position (g : Follower) (str1 : Streamer) (needACK needStop : Bool) :
    (match (if needACK = true then g.replySemiSyncAck g.NextPosition else (g, none)) with
      | (f4, some err) => ((f4, str1, some (plainError err)) :
          Follower × Streamer × Option ParseFault)
      | (f4, none) =>
        if needStop = true then (f4, str1, some (.error "sync stopping"))
        else (f4, str1, none)).1.NextPosition = g.NextPosition := by
  cases needACK with
  | false =>
    simp only [Bool.false_eq_true, if_false]
    split <;> rfl
  | true =>
    simp only [if_true]
    have h := replySemiSyncAck_position g g.NextPosition
    rcases hr : g.replySemiSyncAck g.NextPosition with ⟨f4, e⟩
    rw [hr] at h
    cases e with
    | none =>
      dsimp only
      split <;> exact h
    | some err => exact h

theorem parseEvent_position (f : Follower) (str : Streamer) (b ev : List Nat) (needACK : Bool)
    (fired : SelectCase) (p : BinlogParser) (c : EventContainer)
    (hs : stripStreamHeader f.semiSyncEnabled b = .ok (ev, needACK))
    (hp : f.parser.Parse ev = (p, .ok c)) :
    (f.parseEvent str b fired).1.NextPosition =
      (match c.Event with
       | .rotate re => { Name := re.NextFile, Pos := re.NextPosition % 2 ^ 32 }
       | _ => { Name := f.NextPosition.Name, Pos := c.Header.LogPos }) := by
  obtain ⟨hdr, evt, bytes⟩ := c
  unfold Follower.parseEvent
  rw [hs]
  dsimp only
  rw [hp]
  cases fired <;> cases evt <;> exact ack_tail_position _ _ _ _

/-! ## Row decoding -/

theorem getBit_selected (bitmap : List Nat) (j : Nat) (h : j < 8 * bitmap.length) :
    ∃ v, getBit bitmap j = .ok v ∧ (v = 0 ↔ columnSelected bitmap j = false) := by
  have hj : j / 8 < bitmap.length := by omega
  refine ⟨bitmap[j / 8] &&& (1 <<< (j % 8)), ?_, ?_⟩
  · unfold getBit
    rw [index_ok bitmap (j / 8) hj, and_seven]
    rfl
  · unfold columnSelected
    rw [List.getD_eq_getElem _ _ hj]
    have := and_shl_ne_zero bitmap[j / 8] (j % 8)
    constructor
    · intro h0
      by_contra hc
      have ht : bitmap[j / 8].testBit (j % 8) = true := by
        cases hb : bitmap[j / 8].testBit (j % 8) with
        | true => rfl
        | false => exact absurd hb hc
      exact (this.mpr ht) h0
    · intro hf
      by_contra hne
      have := this.mp hne
      rw [hf] at this
      cases this

theorem nullBit_test (nb k : Nat) : ((nb >>> (k % 8)) &&& 0x01 > 0) ↔ nb.testBit (k % 8) = true := by
  unfold Nat.testBit
  rw [Nat.and_comm]
  simp only [bne_iff_ne, ne_eq]
  omega

theorem selected_le_popcount (bitmap : List Nat) (C : Nat) (hC : C ≤ 8 * bitmap.length) :
    (selectedColumns bitmap C).length ≤ popcount bitmap := by
  unfold selectedColumns popcount
  rw [← setBitIndices_eq_sum, ← List.countP_eq_length_filter]
  unfold setBitIndices
  have hsub : List.Sublist (List.range C) (List.range (8 * bitmap.length)) :=
    List.range_sublist.2 hC
  have h1 := hsub.countP_le (columnSelected bitmap)
  refine le_trans h1 (le_of_eq ?_)
  apply List.countP_congr
  intro i hi
  have hi' : i < 8 * bitmap.length := List.mem_range.1 hi
  obtain ⟨v, hv, hv0⟩ := getBit_selected bitmap i hi'
  unfold bitIsSet
  rw [hv]
  dsimp only
  by_cases h0 : v = 0
  · have := hv0.1 h0
    simp [this, h0]
  · have : columnSelected bitmap i = true := by
      cases hc : columnSelected bitmap i with
      | true => rfl
      | false => exact absurd (hv0.2 hc) h0
    simp [this, h0]

theorem setRow_ok (row : List Value) (j : Nat) (v : Value) (h : j < row.length) :
    setRow row j v = .ok (row.set j v) := by
  unfold setRow
  rw [if_pos h]

theorem parseRowsLoop_spec (b : List Nat) (table : TableMapEvent) (bitmap nullBitmap : List Nat) :
    ∀ (k j i nbi : Nat) (row row' : List Value) (i' : Nat),
    j + k ≤ 8 * bitmap.length → j + k ≤ table.ColumnTypes.length →
    j + k ≤ table.ColumnMetadata.length → j + k ≤ row.length →
    nbi + ((List.range' j k).filter (columnSelected bitmap)).length ≤ 8 * nullBitmap.length →
    decodeSelected b table.ColumnTypes table.ColumnMetadata nullBitmap
      ((List.range' j k).filter (columnSelected bitmap)) nbi i row = some (row', i') →
    parseRowsLoop b table bitmap nullBitmap k j i nbi row = .ok (some (row', i')) := by
  intro k
  induction k with
  | zero =>
    intro j i nbi row row' i' _ _ _ _ _ hd
    simp only [List.range', List.filter_nil, decodeSelected] at hd
    cases hd
    rfl
  | succ k ih =>
    intro j i nbi row row' i' hbm hty hme hrow hnb hd
    obtain ⟨bit, hbit, hbit0⟩ := getBit_selected bitmap j (by omega)
    rw [parseRowsLoop, bind_ok_eq _ _ _ hbit]
    rw [List.range'_succ, List.filter_cons] at hd hnb
    by_cases hsel : columnSelected bitmap j = true
    · rw [if_pos hsel] at hd hnb
      have hne : bit ≠ 0 := by
        intro h0
        rw [hbit0.1 h0] at hsel
        cases hsel
      rw [if_neg hne]
      simp only [List.length_cons] at hnb
      have hidx : nbi / 8 < nullBitmap.length := by omega
      rw [bind_ok_eq _ _ _ (index_ok nullBitmap (nbi / 8) hidx)]
      dsimp only
      unfold decodeSelected at hd
      have hnull : columnSelected nullBitmap nbi = nullBitmap[nbi / 8].testBit (nbi % 8) := by
        unfold columnSelected
        rw [List.getD_eq_getElem _ _ hidx]
      by_cases hn : columnSelected nullBitmap nbi = true
      · rw [if_pos hn] at hd
        rw [if_pos ((nullBit_test _ _).2 (by rw [← hnull]; exact hn)),
          bind_ok_eq _ _ _ (setRow_ok row j .null (by omega))]
        exact ih (j + 1) i (nbi + 1) _ row' i' (by omega) (by omega) (by omega)
          (by rw [List.length_set]; omega) (by omega) hd
      · rw [if_neg hn] at hd
        rw [if_neg (fun h => hn (by rw [hnull]; exact (nullBit_test _ _).1 h))]
        by_cases hi : i ≤ b.length
        · rw [if_pos hi] at hd
          rw [bind_ok_eq _ _ _ (sliceFrom_ok b i hi),
            bind_ok_eq _ _ _ (index_ok table.ColumnTypes j (by omega)),
            bind_ok_eq _ _ _ (index_ok table.ColumnMetadata j (by omega))]
          rw [List.getD_eq_getElem _ _ (by omega : j < table.ColumnTypes.length),
            List.getD_eq_getElem _ _ (by omega : j < table.ColumnMetadata.length)] at hd
          split at hd
          · rename_i v n hpv
            rw [hpv]
            dsimp only
            rw [bind_ok_eq _ _ _ (setRow_ok row j v (by omega))]
            exact ih (j + 1) (i + n) (nbi + 1) _ row' i' (by omega) (by omega) (by omega)
              (by rw [List.length_set]; omega) (by omega) hd
          · cases hd
        · rw [if_neg hi] at hd
          cases hd
    · rw [if_neg hsel] at hd hnb
      have hf : columnSelected bitmap j = false := by
        cases hc : columnSelected bitmap j with
        | true => exact absurd hc hsel
        | false => rfl
      rw [if_pos (hbit0.2 hf)]
      exact ih (j + 1) i nbi row row' i' (by omega) (by omega) (by omega) (by omega) hnb hd

theorem bitCount_popcount (bitmap : List Nat) (hb : IsBytes bitmap) (hl : bitmap.length < 2 ^ 29) :
    bitCount bitmap = popcount bitmap := by
  rw [bitCount_eq_mod bitmap hb]
  have h1 := setBitIndices_le bitmap
  have h2 := setBitIndices_eq_sum bitmap
  unfold popcount
  rw [← h2]
  apply Nat.mod_eq_of_lt
  have : (2 : Nat) ^ 32 = 8 * 2 ^ 29 := by norm_num
  omega

theorem decodeSelected_length (b types metas nullBitmap : List Nat) :
    ∀ (js : List Nat) (k i : Nat) (row row' : List Value) (i' : Nat),
    decodeSelected b types metas nullBitmap js k i row = some (row', i') →
    row'.length = row.length := by
  intro js
  induction js with
  | nil =>
    intro k i row row' i' h
    simp only [decodeSelected, Option.some.injEq, Prod.mk.injEq] at h
    rw [h.1]
  | cons j js ih =>
    intro k i row row' i' h
    unfold decodeSelected at h
    repeat' split at h
    · rw [ih _ _ _ _ _ h, List.length_set]
    · rw [ih _ _ _ _ _ h, List.length_set]
    · cases h
    · cases h

theorem decodeSelected_untouched (b types metas nullBitmap : List Nat) :
    ∀ (js : List Nat) (k i : Nat) (row row' : List Value) (i' : Nat),
    decodeSelected b types metas nullBitmap js k i row = some (row', i') →
    ∀ j, j ∉ js → row'[j]? = row[j]? := by
  intro js
  induction js with
  | nil =>
    intro k i row row' i' h j _
    simp only [decodeSelected, Option.some.injEq, Prod.mk.injEq] at h
    rw [h.1]
  | cons c js ih =>
    intro k i row row' i' h j hj
    have hne : c ≠ j := fun hc => hj (by rw [hc]; exact List.mem_cons_self _ _)
    have hjs : j ∉ js := fun hm => hj (List.mem_cons_of_mem _ hm)
    unfold decodeSelected at h
    repeat' split at h
    · rw [ih _ _ _ _ _ h j hjs, List.getElem?_set_ne hne]
    · rw [ih _ _ _ _ _ h j hjs, List.getElem?_set_ne hne]
    · cases h
    · cases h

/-! ## The claims -/

/-- C1: for every `n < 2 ^ 64`, decoding the length-encoded form of `n` returns `n`,
not null, and consumes exactly the encoded bytes. -/
theorem getLengthEncodedInt_putLengthEncodedInt (n : Nat) (h : n < 2 ^ 64) :
    getLengthEncodedInt (putLengthEncodedInt n) =
      .ok (n, false, (putLengthEncodedInt n).length) := by
  unfold putLengthEncodedInt
  split
  · have h0 : n % 256 = n := by omega
    rw [h0, getLengthEncodedInt_one n (by omega)]; rfl
  · split
    · rw [getLengthEncodedInt_three, lor_shl _ _ 8 (by omega)]
      simp only [Nat.shiftRight_eq_div_pow, List.length_cons, List.length_nil]
      congr 2; omega
    · split
      · rw [getLengthEncodedInt_four, lor_shl _ _ 8 (by omega), lor_shl _ _ 16 (by omega)]
        simp only [Nat.shiftRight_eq_div_pow, List.length_cons, List.length_nil]
        congr 2; omega
      · have h9 : n ≤ 0xffffffffffffffff := by omega
        rw [if_pos h9, getLengthEncodedInt_nine,
          lor_shl_eight _ _ _ _ _ _ _ _ (by omega) (by omega) (by omega) (by omega)
            (by omega) (by omega) (by omega)]
        simp only [Nat.shiftRight_eq_div_pow, List.length_cons, List.length_nil]
        congr 2
        exact byte_split_eight n h

/-- Witness for C1 at `n = 70000`, a four-byte encoding. -/
theorem getLengthEncodedInt_putLengthEncodedInt_witness :
    70000 < 2 ^ 64 ∧
      getLengthEncodedInt (putLengthEncodedInt 70000) =
        .ok (70000, false, (putLengthEncodedInt 70000).length) :=
  ⟨by norm_num, getLengthEncodedInt_putLengthEncodedInt 70000 (by norm_num)⟩

/-- C2 (counterexample): the empty payload.  `writePacket` emits the header
`00 00 00 seq`, and `readPacket` rejects it with "invalid payload length 0". -/
theorem framing_roundtrip_empty_payload :
    Conn.writePacket ⟨0, [], [], 4⟩ ([0, 0, 0, 0] ++ []) = (⟨1, [], [0, 0, 0, 0], 0⟩, none) ∧
    Conn.readPacket ⟨0, [0, 0, 0, 0], [], 0⟩ =
      (⟨0, [], [], 0⟩, .error (.error "invalid payload length 0")) := by
  constructor
  · rw [writePacket_eq_loop ⟨0, [], [], 4⟩ [0, 0, 0, 0] [] rfl,
      write_small ⟨0, [], [], 4⟩ [0, 0, 0, 0] [] rfl (by decide) (by decide)]
    rfl
  · unfold Conn.readPacket
    rw [read_cons]
    rfl

/-- C2 (amended): for every payload `P` with `1 ≤ |P| ≤ 16 777 216` and
`|P| ≠ 16 777 215` and every sequence value `seq`, `writePacket` with counter `seq` on a
buffer holding `P` behind four reserved bytes succeeds, and `readPacket` with counter
`seq` on exactly the bytes written succeeds, returns `P`, consumes all the bytes and
leaves its counter at `seq + 1` (mod 256) when `|P| < 16 777 215` and at `seq + 2`
(mod 256) when `|P| = 16 777 216`. -/
theorem framing_roundtrip (P hdr : List Nat) (seq room : Nat) (br0 sent1 : List Nat)
    (room1 : Nat) (hh : hdr.length = 4) (h1 : 1 ≤ P.length) (h2 : P.length ≤ 16777216)
    (h3 : P.length ≠ 16777215) (hseq : seq < 256) (hroom : P.length + 8 ≤ room) :
    (Conn.writePacket ⟨seq, br0, [], room⟩ (hdr ++ P)).2 = none ∧
    Conn.readPacket ⟨seq, (Conn.writePacket ⟨seq, br0, [], room⟩ (hdr ++ P)).1.sent, sent1, room1⟩ =
      (⟨(seq + (if P.length < 16777215 then 1 else 2)) % 256, [], sent1, room1⟩, .ok P) := by
  have hr : P.length + 4 * (P.length / maxPayloadLength + 1) ≤ room := by
    unfold maxPayloadLength; omega
  obtain ⟨full, last, hj, hfull, hlast, hfl, hw⟩ :=
    write_frags P.length P ⟨seq, br0, [], room⟩ hdr rfl hh hr
  rw [writePacket_eq_loop _ _ _ hh, hw]
  refine ⟨rfl, ?_⟩
  simp only [List.nil_append]
  apply readPacket_of_readPacketTo_ok
  have hl0 : 0 < last.length := by rw [hlast]; unfold maxPayloadLength; omega
  have hl1 : last.length < maxPayloadLength := by
    rw [hlast]; exact Nat.mod_lt _ (by unfold maxPayloadLength; omega)
  have hread := read_full_fragments full seq
    (encodeFragments ((seq + full.length) % 256) [last]) sent1 room1 [] hseq hfull
  rw [encodeFragments_append full seq [last] hseq, hread]
  have he : encodeFragments ((seq + full.length) % 256) [last]
      = fragmentHeader last.length ((seq + full.length) % 256) ++ last ++ [] := by
    simp [encodeFragments]
  rw [he, read_fragment _ last [] sent1 room1 _ hl0 (by omega), if_pos hl1]
  have hseq' : ((seq + full.length) % 256 + 1) % 256
      = (seq + (if P.length < 16777215 then 1 else 2)) % 256 := by
    rw [hfl]; unfold maxPayloadLength
    split <;> omega
  rw [hseq', List.nil_append, hj]

/-- Witness for C2 (amended) at a three-byte payload and sequence value 255. -/
theorem framing_roundtrip_witness :
    Conn.readPacket
        ⟨255, (Conn.writePacket ⟨255, [], [], 11⟩ ([0, 0, 0, 0] ++ [7, 8, 9])).1.sent, [], 0⟩ =
      (⟨(255 + (if [7, 8, 9].length < 16777215 then 1 else 2)) % 256, [], [], 0⟩,
        .ok [7, 8, 9]) :=
  (framing_roundtrip [7, 8, 9] [0, 0, 0, 0] 255 11 [] [] 0 (by decide) (by decide) (by decide)
    (by decide) (by decide) (by decide)).2

/-- C3 (counterexample): a payload of `2 * 16 777 215` bytes.  `writePacket` advances the
counter by 3 (two full fragments and a final empty one), while
`ceil(|P| / 16 777 215) = 2`. -/
theorem writePacket_seq_on_multiple :
    (Conn.writePacket ⟨0, [], [], 33554442⟩
      (List.replicate 4 0 ++ List.replicate 33554430 0)).1.seq = 3 ∧
    (0 + (33554430 + 16777214) / 16777215) % 256 = 2 := by
  constructor
  · have hlen : (List.replicate 33554430 0).length = 33554430 := List.length_replicate _ _
    obtain ⟨full, last, _, _, _, hfl, hw⟩ :=
      write_frags _ (List.replicate 33554430 0) ⟨0, [], [], 33554442⟩ (List.replicate 4 0) rfl
        (List.length_replicate _ _) (by rw [hlen]; decide)
    rw [writePacket_eq_loop _ _ _ (List.length_replicate _ _), hw]
    show (0 + full.length + 1) % 256 = 3
    rw [hfl, hlen]
    decide
  · decide

/-- C3 (amended): for every payload `P` (in particular every payload longer than
16 MiB) `writePacket` emits a sequence of fragments, each with its own 4-byte header and
at most 16 777 215 payload bytes, whose payloads concatenated in order equal `P`, and it
advances the sequence counter by exactly `floor(|P| / 16 777 215) + 1` (mod 256), the
number of fragments; when `|P|` is a multiple of 16 777 215 the last fragment is empty. -/
theorem writePacket_fragments (P hdr : List Nat) (c : Conn) (hh : hdr.length = 4)
    (hroom : P.length + 4 * (P.length / 16777215 + 1) ≤ c.room) :
    ∃ frags : List (List Nat),
      c.writePacket (hdr ++ P) =
        ({ c with seq := (c.seq + (P.length / 16777215 + 1)) % 256,
                  sent := c.sent ++ encodeFragments c.seq frags,
                  room := c.room - (P.length + 4 * (P.length / 16777215 + 1)) }, none) ∧
      frags.flatten = P ∧ frags.length = P.length / 16777215 + 1 ∧
      (∀ f ∈ frags, f.length ≤ 16777215) ∧
      (P.length % 16777215 = 0 → frags.getLast? = some []) := by
  obtain ⟨full, last, hj, hfull, hlast, hfl, hw⟩ :=
    write_frags P.length P c hdr rfl hh hroom
  refine ⟨full ++ [last], ?_, ?_, ?_, ?_, ?_⟩
  · rw [writePacket_eq_loop _ _ _ hh, hw, hfl]
    rfl
  · rw [List.flatten_append, List.flatten_singleton, hj]
  · rw [List.length_append, List.length_singleton, hfl]; rfl
  · intro f hf
    rcases List.mem_append.mp hf with h | h
    · rw [hfull f h]; rfl
    · rw [List.mem_singleton.mp h, hlast]
      exact Nat.le_of_lt (Nat.mod_lt _ (by unfold maxPayloadLength; omega))
  · intro hm
    have h0 : last.length = 0 := by rw [hlast]; exact hm
    rw [List.getLast?_append, List.getLast?_singleton, List.length_eq_zero.1 h0]
    rfl

/-- Witness for C3 (amended) at a payload of `2 * 16 777 215` bytes: three fragments, the
last of them empty. -/
theorem writePacket_fragments_witness :
    ∃ frags : List (List Nat),
      frags.flatten = List.replicate 33554430 0 ∧ frags.length = 3 ∧
      frags.getLast? = some [] := by
  obtain ⟨frags, _, hj, hl, _, he⟩ :=
    writePacket_fragments (List.replicate 33554430 0) (List.replicate 4 0)
      ⟨0, [], [], 33554442⟩ (List.length_replicate _ _)
      (by rw [List.length_replicate])
  exact ⟨frags, hj, by rw [hl, List.length_replicate], he (by rw [List.length_replicate])⟩

/-- C4: when the next fragment header, first or continuation, carries a non-zero
payload length and a sequence byte different from the current counter, `readPacket`
fails with the "invalid sequence" error and returns no payload. -/
theorem readPacket_sequence_mismatch (full : List (List Nat)) (seq h0 h1 h2 h3 n : Nat)
    (rest sent : List Nat) (room : Nat) (hseq : seq < 256)
    (hfull : ∀ f ∈ full, f.length = maxPayloadLength)
    (hn : getBinaryUint24 [h0, h1, h2] = .ok n) (hpos : 1 ≤ n)
    (hne : h3 ≠ (seq + full.length) % 256) :
    Conn.readPacket ⟨seq, encodeFragments seq full ++ h0 :: h1 :: h2 :: h3 :: rest, sent, room⟩ =
      (⟨(seq + full.length) % 256, rest, sent, room⟩,
        .error (.error ("invalid sequence " ++ toString h3 ++ " != " ++
          toString ((seq + full.length) % 256)))) := by
  apply readPacket_of_readPacketTo_err _ _ ([] ++ full.flatten)
  rw [read_full_fragments full seq _ sent room [] hseq hfull, read_cons]
  simp only [hn]
  rw [if_neg (by omega), if_pos hne]

/-- Witness for C4: after one full fragment with sequence byte 7, a header announcing
one byte with sequence byte 9 instead of 8. -/
theorem readPacket_sequence_mismatch_witness :
    (7 < 256 ∧ (∀ f ∈ [List.replicate 16777215 0], f.length = maxPayloadLength) ∧
      getBinaryUint24 [1, 0, 0] = .ok 1 ∧ 1 ≤ 1 ∧
      9 ≠ (7 + [List.replicate 16777215 0].length) % 256) ∧
    Conn.readPacket ⟨7, encodeFragments 7 [List.replicate 16777215 0] ++ [1, 0, 0, 9, 42], [], 0⟩ =
      (⟨(7 + [List.replicate 16777215 0].length) % 256, [42], [], 0⟩,
        .error (.error ("invalid sequence " ++ toString 9 ++ " != " ++
          toString ((7 + [List.replicate 16777215 0].length) % 256)))) :=
  ⟨⟨by decide, fun f hf => by rw [List.mem_singleton.mp hf, List.length_replicate]; rfl,
      by decide, by decide, by rw [List.length_singleton]; decide⟩,
    readPacket_sequence_mismatch [List.replicate 16777215 0] 7 1 0 0 9 1 [42] [] 0
      (by decide) (fun f hf => by rw [List.mem_singleton.mp hf, List.length_replicate]; rfl)
      (by decide) (by decide) (by rw [List.length_singleton]; decide)⟩

/-- C5: when the next fragment header, first or continuation, has payload length 0,
`readPacket` fails with "invalid payload length 0" whatever the sequence byte is, and
the counter is left where it stood before that fragment. -/
theorem readPacket_zero_length (full : List (List Nat)) (seq h0 h1 h2 h3 : Nat)
    (rest sent : List Nat) (room : Nat) (hseq : seq < 256)
    (hfull : ∀ f ∈ full, f.length = maxPayloadLength)
    (hn : getBinaryUint24 [h0, h1, h2] = .ok 0) :
    Conn.readPacket ⟨seq, encodeFragments seq full ++ h0 :: h1 :: h2 :: h3 :: rest, sent, room⟩ =
      (⟨(seq + full.length) % 256, rest, sent, room⟩,
        .error (.error "invalid payload length 0")) := by
  apply readPacket_of_readPacketTo_err _ _ ([] ++ full.flatten)
  rw [read_full_fragments full seq _ sent room [] hseq hfull, read_cons]
  simp only [hn]
  rw [if_pos (by omega)]
  rfl

/-- Witness for C5: a first fragment header with payload length 0 and a wrong sequence
byte. -/
theorem readPacket_zero_length_witness :
    (3 < 256 ∧ (∀ f ∈ ([] : List (List Nat)), f.length = maxPayloadLength) ∧
      getBinaryUint24 [0, 0, 0] = .ok 0) ∧
    Conn.readPacket ⟨3, encodeFragments 3 [] ++ [0, 0, 0, 200, 42], [], 0⟩ =
      (⟨(3 + ([] : List (List Nat)).length) % 256, [42], [], 0⟩,
        .error (.error "invalid payload length 0")) :=
  ⟨⟨by decide, by simp, by decide⟩,
    readPacket_zero_length [] 3 0 0 0 200 [42] [] 0 (by decide) (by simp) (by decide)⟩

/-- C6: whenever `Parse` accepts a `ROTATE_EVENT`, the table registry is empty
afterwards, and a rows event with a complete post-header that is parsed next fails with
the error "invalid table id", whatever table id it references. -/
theorem rotate_clears_registry (p p' : BinlogParser) (b : List Nat) (c : EventContainer)
    (h : p.Parse b = (p', .ok c)) (ht : c.Header.EventType = ROTATE_EVENT) :
    p'.tables = [] ∧
    ∀ (b2 : List Nat) (h2 : EventHeader) (ph : RowsPostHeader),
      NewEventHeader b2 = .ok h2 →
      (h2.EventType = WRITE_ROWS_EVENT_V1 ∨ h2.EventType = DELETE_ROWS_EVENT_V1 ∨
        h2.EventType = UPDATE_ROWS_EVENT_V1) →
      b2.length = h2.EventSize →
      rowsPostHeader h2.EventType (b2.drop 19) = .ok ph →
      p'.Parse b2 = (p', .error (.eventError
        { Header := h2, Err := "invalid table id", Data := b2.drop 19 })) := by
  obtain ⟨_, _, _, hpe⟩ := Parse_ok_inv p p' b c h
  have ht' := (parseEvent_rotate p p' c.Header (b.drop 19) c.Event ht hpe).1
  refine ⟨ht', ?_⟩
  intro b2 h2 ph hh hty hsz hph
  exact Parse_rows_empty_registry p' b2 h2 ph ht' hh hty hsz hph

/-- Witness for C6: a parser that knows table id 1 accepts a rotate event; its registry
is then empty, and the update event for table id 1 parsed next fails. -/
theorem rotate_clears_registry_witness :
    BinlogParser.Parse { format := none, tables := [(1, geometryTable)] } rotateEventBytes =
      ({ format := none, tables := [] },
        .ok { Header := { Timestamp := 0, EventType := 4, ServerId := 1, EventSize := 28,
                          LogPos := 0, Flags := 0 },
              Event := .rotate { NextPosition := 4, NextFile := [97] },
              Bytes := rotateEventBytes }) ∧
    (4 : Nat) = ROTATE_EVENT ∧
    ({ format := none, tables := [] } : BinlogParser).tables = [] ∧
    BinlogParser.Parse { format := none, tables := [] } updateEventBytes =
      ({ format := none, tables := [] },
        .error (.eventError
          { Header := { Timestamp := 0, EventType := 24, ServerId := 1, EventSize := 34,
                        LogPos := 0, Flags := 0 },
            Err := "invalid table id", Data := updateEventBytes.drop 19 })) := by
  have H := rotate_clears_registry { format := none, tables := [(1, geometryTable)] }
    { format := none, tables := [] } rotateEventBytes
    { Header := { Timestamp := 0, EventType := 4, ServerId := 1, EventSize := 28,
                  LogPos := 0, Flags := 0 },
      Event := .rotate { NextPosition := 4, NextFile := [97] },
      Bytes := rotateEventBytes } (by decide) (by decide)
  exact ⟨by decide, by decide, H.1,
    H.2 updateEventBytes
      { Timestamp := 0, EventType := 24, ServerId := 1, EventSize := 34, LogPos := 0,
        Flags := 0 }
      { TableID := 1, Flags := 0, ColumnCount := 2, ColumnBitmap1 := [2],
        ColumnBitmap2 := [2], i := 11 }
      (by decide) (by decide) (by decide) (by decide)⟩

/-- C7: when the body of a rows event holds a complete post-header and the table id in
its first six bytes is not a key of the registry, `NewRowsEvent` returns the error
"invalid table id" and no event. -/
theorem NewRowsEvent_unknown_table (tables : Tables) (eventType : Nat) (b : List Nat)
    (ph : RowsPostHeader) (hph : rowsPostHeader eventType b = .ok ph)
    (hid : tables.lookup (getLittleEndianFixedLengthInt (b.take 6)) = none) :
    NewRowsEvent tables eventType b = .error (.error "invalid table id") := by
  rw [← rowsPostHeader_tableID eventType b ph hph] at hid
  simp only [NewRowsEvent, hph, bind, Except.bind, hid]
  rfl

/-- Witness for C7: an update event for table id 1 against a registry that only knows
table id 2. -/
theorem NewRowsEvent_unknown_table_witness :
    rowsPostHeader UPDATE_ROWS_EVENT_V1 [1, 0, 0, 0, 0, 0, 0, 0, 2, 2, 2, 0, 5, 0, 7] =
      .ok { TableID := 1, Flags := 0, ColumnCount := 2, ColumnBitmap1 := [2],
            ColumnBitmap2 := [2], i := 11 } ∧
    List.lookup (getLittleEndianFixedLengthInt
      (List.take 6 [1, 0, 0, 0, 0, 0, 0, 0, 2, 2, 2, 0, 5, 0, 7])) [(2, geometryTable)] = none ∧
    NewRowsEvent [(2, geometryTable)] UPDATE_ROWS_EVENT_V1
      [1, 0, 0, 0, 0, 0, 0, 0, 2, 2, 2, 0, 5, 0, 7] = .error (.error "invalid table id") :=
  ⟨by decide, by decide,
    NewRowsEvent_unknown_table [(2, geometryTable)] UPDATE_ROWS_EVENT_V1
      [1, 0, 0, 0, 0, 0, 0, 0, 2, 2, 2, 0, 5, 0, 7]
      { TableID := 1, Flags := 0, ColumnCount := 2, ColumnBitmap1 := [2],
        ColumnBitmap2 := [2], i := 11 } (by decide) (by decide)⟩

/-- C8 (failing input): an `UPDATE_ROWS_V1` body whose before-image selects a `GEOMETRY`
column and whose after-image selects a `TINY` column.  `parseValue` rejects the first,
`parseRows` returns `0, nil` without appending a row, the after-image is appended, and
`NewRowsEvent` succeeds with one row. -/
theorem NewRowsEvent_update_odd_rows :
    NewRowsEvent [(1, geometryTable)] UPDATE_ROWS_EVENT_V1
        [1, 0, 0, 0, 0, 0, 0, 0, 2, 1, 2, 0, 5] =
      .ok { Table := geometryTable, TableID := 1, Flags := 0, ColumnCount := 2,
            ColumnBitmap1 := [1], ColumnBitmap2 := [2],
            Rows := [[Value.null, Value.int8 5]] } := by
  decide

/-- C9 (counterexample): on a bitmap of `2 ^ 29` bytes `0xFF` the `uint32` accumulator
of `bitCount` wraps to `0`, although bits are set. -/
theorem bitCount_wraps :
    bitCount (List.replicate 536870912 255) = 0 ∧
      0 < setBitIndices (List.replicate 536870912 255) := by
  constructor
  · unfold bitCount
    rw [bitCount_replicate _ 0 (by norm_num)]
    norm_num
  · unfold setBitIndices
    apply List.countP_pos_iff.mpr
    refine ⟨0, ?_, ?_⟩
    · rw [List.mem_range, List.length_replicate]; norm_num
    · have : List.replicate 536870912 255 = 255 :: List.replicate 536870911 255 := rfl
      rw [this, bitIsSet_cons_lt 255 _ 0 (by norm_num)]
      decide

/-- C9 (amended): for every byte sequence `bitmap`, `bitCount bitmap` is the number of
indices `i < 8 * len(bitmap)` with `getBit bitmap i` non-zero, reduced modulo `2 ^ 32`,
hence that number itself when the bitmap has fewer than `2 ^ 29` bytes; `getBit bitmap i`
is non-zero exactly when bit `i mod 8` of byte `bitmap[i / 8]` is set; and the table
`bitCountInByte` holds the population count of every byte value. -/
theorem bitCount_getBit_spec (bitmap : List Nat) (hb : IsBytes bitmap) :
    bitCount bitmap = setBitIndices bitmap % 2 ^ 32 ∧
    (bitmap.length < 2 ^ 29 → bitCount bitmap = setBitIndices bitmap) ∧
    (∀ i, i < 8 * bitmap.length →
      ∃ v byte, bitmap[i / 8]? = some byte ∧ getBit bitmap i = .ok v ∧
        (v ≠ 0 ↔ byte.testBit (i % 8) = true)) ∧
    (∀ v, v < 256 → bitCountInByte.getD v 0 = popCount8 v) := by
  refine ⟨bitCount_eq_mod bitmap hb, ?_, ?_, table_popcount⟩
  · intro hlen
    rw [bitCount_eq_mod bitmap hb]
    apply Nat.mod_eq_of_lt
    have := setBitIndices_le bitmap
    omega
  · intro i hi
    have hlt : i / 8 < bitmap.length := by omega
    refine ⟨bitmap[i / 8] &&& (1 <<< (i % 8)), bitmap[i / 8], ?_, ?_, ?_⟩
    · exact List.getElem?_eq_getElem hlt
    · simp [getBit, index, List.getElem?_eq_getElem hlt, and_seven, bind, Except.bind, pure,
        Except.pure]
    · exact and_shl_ne_zero _ _

/-- Witness for C9 (amended) at the bitmap `[5, 255]`. -/
theorem bitCount_getBit_spec_witness :
    IsBytes [5, 255] ∧ bitCount [5, 255] = setBitIndices [5, 255] % 2 ^ 32 :=
  ⟨by decide, (bitCount_getBit_spec [5, 255] (by decide)).1⟩

/-- C10: when `NewEventHeader` succeeds on a byte sequence `b`, the header fields are
the little-endian integers at offsets 0, 5, 9, 13 (four bytes each) and 17 (two bytes),
the event type is `b[4]`, and the bytes from offset 19 on do not affect the result. -/
theorem NewEventHeader_fields (b : List Nat) (h : EventHeader) (hb : IsBytes b)
    (hok : NewEventHeader b = .ok h) :
    h.Timestamp = littleEndian (b.take 4) ∧
    b[4]? = some h.EventType ∧
    h.ServerId = littleEndian ((b.drop 5).take 4) ∧
    h.EventSize = littleEndian ((b.drop 9).take 4) ∧
    h.LogPos = littleEndian ((b.drop 13).take 4) ∧
    h.Flags = littleEndian ((b.drop 17).take 2) ∧
    ∀ tail : List Nat, NewEventHeader (b.take 19 ++ tail) = .ok h := by
  have hlen : 19 ≤ b.length := by
    by_contra hlt
    rw [NewEventHeader_short b (by omega)] at hok
    cases hok
  obtain ⟨b0, b1, b2, b3, b4, b5, b6, b7, b8, b9, b10, b11, b12, b13, b14, b15, b16, b17,
    b18, rest, rfl⟩ := exists_header_bytes b hlen
  have h0 : b0 < 256 := hb b0 (by simp)
  have h1 : b1 < 256 := hb b1 (by simp)
  have h2 : b2 < 256 := hb b2 (by simp)
  have h5 : b5 < 256 := hb b5 (by simp)
  have h6 : b6 < 256 := hb b6 (by simp)
  have h7 : b7 < 256 := hb b7 (by simp)
  have h9 : b9 < 256 := hb b9 (by simp)
  have h10 : b10 < 256 := hb b10 (by simp)
  have h11 : b11 < 256 := hb b11 (by simp)
  have h13 : b13 < 256 := hb b13 (by simp)
  have h14 : b14 < 256 := hb b14 (by simp)
  have h15 : b15 < 256 := hb b15 (by simp)
  have h17 : b17 < 256 := hb b17 (by simp)
  rw [header_eval] at hok
  split at hok
  · cases hok
  · rename_i hsz
    cases hok
    refine ⟨leUint32_value _ _ _ _ h0 h1 h2, rfl, leUint32_value _ _ _ _ h5 h6 h7, leUint32_value _ _ _ _ h9 h10 h11,
      leUint32_value _ _ _ _ h13 h14 h15, leUint16_value _ _ h17, ?_⟩
    intro tail
    show NewEventHeader (b0 :: b1 :: b2 :: b3 :: b4 :: b5 :: b6 :: b7 :: b8 :: b9 :: b10 ::
      b11 :: b12 :: b13 :: b14 :: b15 :: b16 :: b17 :: b18 :: tail) = _
    rw [header_eval, if_neg hsz]

/-- Witness for C10 at the 19-byte format description header of the specification,
followed by one more byte. -/
theorem NewEventHeader_fields_witness :
    IsBytes [0x52, 0x52, 0xE9, 0x53, 0x0F, 0x88, 0xF3, 0, 0, 0x67, 0, 0, 0, 0, 0, 0, 0, 0, 0, 7] ∧
    NewEventHeader [0x52, 0x52, 0xE9, 0x53, 0x0F, 0x88, 0xF3, 0, 0, 0x67, 0, 0, 0, 0, 0, 0, 0, 0, 0, 7]
      = .ok { Timestamp := 0x53E95252, EventType := 15, ServerId := 0xF388, EventSize := 103,
              LogPos := 0, Flags := 0 } ∧
    (0x53E95252 : Nat) =
      littleEndian (List.take 4
        [0x52, 0x52, 0xE9, 0x53, 0x0F, 0x88, 0xF3, 0, 0, 0x67, 0, 0, 0, 0, 0, 0, 0, 0, 0, 7]) :=
  ⟨by decide, by decide,
    (NewEventHeader_fields
      [0x52, 0x52, 0xE9, 0x53, 0x0F, 0x88, 0xF3, 0, 0, 0x67, 0, 0, 0, 0, 0, 0, 0, 0, 0, 7]
      { Timestamp := 0x53E95252, EventType := 15, ServerId := 0xF388, EventSize := 103,
        LogPos := 0, Flags := 0 } (by decide) (by decide)).1⟩

/-- C11: on a byte sequence `b`, `NewEventHeader` returns an error exactly when
`len(b) < 19` or the little-endian `uint32` at `b[9..13)` is below 19; otherwise it
returns a header, and every header it returns has `EventSize ≥ 19`. -/
theorem NewEventHeader_error_iff (b : List Nat) (hb : IsBytes b) :
    ((∃ msg, NewEventHeader b = .error (.error msg)) ↔
      (b.length < 19 ∨ littleEndian ((b.drop 9).take 4) < 19)) ∧
    ((∃ h, NewEventHeader b = .ok h) ∨ (∃ msg, NewEventHeader b = .error (.error msg))) ∧
    (∀ h, NewEventHeader b = .ok h → 19 ≤ h.EventSize) := by
  by_cases hlen : b.length < 19
  · rw [NewEventHeader_short b hlen]
    refine ⟨⟨fun _ => Or.inl hlen, fun _ => ⟨_, rfl⟩⟩, Or.inr ⟨_, rfl⟩, ?_⟩
    intro h hh; cases hh
  · obtain ⟨b0, b1, b2, b3, b4, b5, b6, b7, b8, b9, b10, b11, b12, b13, b14, b15, b16, b17,
      b18, rest, rfl⟩ := exists_header_bytes b (by omega)
    have h9 : b9 < 256 := hb b9 (by simp)
    have h10 : b10 < 256 := hb b10 (by simp)
    have h11 : b11 < 256 := hb b11 (by simp)
    have hsz : littleEndian (List.take 4 (List.drop 9 (b0 :: b1 :: b2 :: b3 :: b4 :: b5 :: b6 ::
        b7 :: b8 :: b9 :: b10 :: b11 :: b12 :: b13 :: b14 :: b15 :: b16 :: b17 :: b18 :: rest)))
        = b9 ||| b10 <<< 8 ||| b11 <<< 16 ||| b12 <<< 24 :=
      (leUint32_value b9 b10 b11 b12 h9 h10 h11).symm
    rw [header_eval, hsz]
    by_cases hs : b9 ||| b10 <<< 8 ||| b11 <<< 16 ||| b12 <<< 24 < EventHeaderSize
    · rw [if_pos hs]
      refine ⟨⟨fun _ => Or.inr hs, fun _ => ⟨_, rfl⟩⟩, Or.inr ⟨_, rfl⟩, ?_⟩
      intro h hh; cases hh
    · rw [if_neg hs]
      refine ⟨⟨?_, ?_⟩, Or.inl ⟨_, rfl⟩, ?_⟩
      · rintro ⟨msg, hm⟩; cases hm
      · rintro (h | h)
        · exact absurd h hlen
        · exact absurd h hs
      · intro h hh
        cases hh
        exact Nat.le_of_not_lt hs

/-- Witness for C11 at the seven bytes of `imshort`. -/
theorem NewEventHeader_error_iff_witness :
    IsBytes [105, 109, 115, 104, 111, 114, 116] ∧
    ((∃ msg, NewEventHeader [105, 109, 115, 104, 111, 114, 116] = .error (.error msg)) ↔
      ([105, 109, 115, 104, 111, 114, 116].length < 19 ∨
        littleEndian (([105, 109, 115, 104, 111, 114, 116].drop 9).take 4) < 19)) :=
  ⟨by decide, (NewEventHeader_error_iff [105, 109, 115, 104, 111, 114, 116] (by decide)).1⟩

/-- C12: when `b` has a valid header and `len(b)` differs from the header's
`EventSize`, `Parse` returns the error "invalid event size", no container, and leaves
the parser as it was; and `Parse` succeeds only when
`len(b) - 19 = EventSize - 19`. -/
theorem Parse_checks_event_size (p : BinlogParser) (b : List Nat) :
    (∀ h, NewEventHeader b = .ok h → b.length ≠ h.EventSize →
      p.Parse b = (p, .error (.error "invalid event size"))) ∧
    (∀ p' c, p.Parse b = (p', .ok c) →
      (b.length : Int) - 19 = (c.Header.EventSize : Int) - 19) :=
  ⟨fun h hh hne => Parse_size_mismatch p b h hh hne,
   fun p' c hp => (Parse_ok_inv p p' b c hp).2.2.1⟩

/-- Witness for C12: the rotate event `rotateEventBytes` followed by one more byte has
29 bytes and a header that declares 28. -/
theorem Parse_checks_event_size_witness :
    NewEventHeader (rotateEventBytes ++ [0]) =
      .ok { Timestamp := 0, EventType := 4, ServerId := 1, EventSize := 28, LogPos := 0,
            Flags := 0 } ∧
    (rotateEventBytes ++ [0]).length ≠ 28 ∧
    BinlogParser.Parse { format := none, tables := [(1, geometryTable)] }
        (rotateEventBytes ++ [0]) =
      ({ format := none, tables := [(1, geometryTable)] },
        .error (.error "invalid event size")) :=
  ⟨by decide, by decide,
    (Parse_checks_event_size { format := none, tables := [(1, geometryTable)] }
      (rotateEventBytes ++ [0])).1
      { Timestamp := 0, EventType := 4, ServerId := 1, EventSize := 28, LogPos := 0,
        Flags := 0 } (by decide) (by decide)⟩

/-- C13: when `Parse` succeeds on `b`, the container's `Bytes` is the whole input `b`
and its `Header` is what `NewEventHeader b` returns. -/
theorem Parse_container (p p' : BinlogParser) (b : List Nat) (c : EventContainer)
    (h : p.Parse b = (p', .ok c)) :
    c.Bytes = b ∧ NewEventHeader b = .ok c.Header :=
  ⟨(Parse_ok_inv p p' b c h).2.1, (Parse_ok_inv p p' b c h).1⟩

/-- Witness for C13 at the rotate event `rotateEventBytes`. -/
theorem Parse_container_witness :
    BinlogParser.Parse { format := none, tables := [] } rotateEventBytes =
      ({ format := none, tables := [] },
        .ok { Header := { Timestamp := 0, EventType := 4, ServerId := 1, EventSize := 28,
                          LogPos := 0, Flags := 0 },
              Event := .rotate { NextPosition := 4, NextFile := [97] },
              Bytes := rotateEventBytes }) ∧
    rotateEventBytes = rotateEventBytes ∧
    NewEventHeader rotateEventBytes =
      .ok { Timestamp := 0, EventType := 4, ServerId := 1, EventSize := 28,
            LogPos := 0, Flags := 0 } := by
  have H := Parse_container { format := none, tables := [] } { format := none, tables := [] }
    rotateEventBytes
    { Header := { Timestamp := 0, EventType := 4, ServerId := 1, EventSize := 28,
                  LogPos := 0, Flags := 0 },
      Event := .rotate { NextPosition := 4, NextFile := [97] },
      Bytes := rotateEventBytes } (by decide)
  exact ⟨by decide, H.1, H.2⟩

/-- C14 (failing input): a format description body of 57 bytes whose binlog version
field is 3 and whose header length byte is 19.  `NewFormatDescriptionEvent` returns no
error: it stores the version 3 in the event, as it stores the version 4 of the same body
with the first byte changed to 4, although its comment says the version should always be
4.  The field documented in the same words next to it, the header length, is guarded:
the same body with the byte at offset 56 changed to 18 is rejected with "invalid event
header length". -/
theorem NewFormatDescriptionEvent_accepts_version_three :
    versionThreeFormatBody.length = 57 ∧
    leUint16 (versionThreeFormatBody.take 2) = .ok 3 ∧
    NewFormatDescriptionEvent versionThreeFormatBody =
      .ok { BinlogVersion := 3, ServerVersion := List.replicate 50 0, CreationTimestamp := 0,
            EventHeaderLength := 19, EventTypeHeaderLengths := [] } ∧
    NewFormatDescriptionEvent (versionThreeFormatBody.set 0 4) =
      .ok { BinlogVersion := 4, ServerVersion := List.replicate 50 0, CreationTimestamp := 0,
            EventHeaderLength := 19, EventTypeHeaderLengths := [] } ∧
    NewFormatDescriptionEvent (versionThreeFormatBody.set 56 18) =
      .error (.error "invalid event header length") := by
  decide

/-- The header length guard of `NewFormatDescriptionEvent`, the only guard the function
has: on a body of at least 57 bytes it returns the error "invalid event header length"
when the byte at offset 56 is not 19, and succeeds when it is 19; the event then holds
header length 19, the little-endian `uint16` at offset 0 as binlog version, the 50 bytes
from offset 2 as server version and the bytes from offset 57 as per-type header
lengths. -/
theorem NewFormatDescriptionEvent_checks_header_length (b : List Nat) (hb : IsBytes b)
    (h : 57 ≤ b.length) :
    (b[56]? ≠ some 19 →
      NewFormatDescriptionEvent b = .error (.error "invalid event header length")) ∧
    (b[56]? = some 19 →
      ∃ e, NewFormatDescriptionEvent b = .ok e ∧ e.EventHeaderLength = 19 ∧
        e.BinlogVersion = littleEndian (b.take 2) ∧ e.ServerVersion = (b.take 52).drop 2 ∧
        e.EventTypeHeaderLengths = b.drop 57) := by
  obtain ⟨v, t, hv, he⟩ := NewFormatDescriptionEvent_eval b h
  constructor
  · intro hne
    rw [he, if_neg hne]
  · intro heq
    rw [he, if_pos heq]
    exact ⟨_, rfl, rfl, hv hb, rfl, rfl⟩

/-- The header length guard at the body `versionThreeFormatBody`: header length 19,
binlog version 3, accepted. -/
theorem NewFormatDescriptionEvent_checks_header_length_witness :
    IsBytes versionThreeFormatBody ∧ 57 ≤ versionThreeFormatBody.length ∧
    versionThreeFormatBody[56]? = some 19 ∧
    ∃ e, NewFormatDescriptionEvent versionThreeFormatBody = .ok e ∧
      e.EventHeaderLength = 19 ∧
      e.BinlogVersion = littleEndian (versionThreeFormatBody.take 2) ∧
      e.ServerVersion = (versionThreeFormatBody.take 52).drop 2 ∧
      e.EventTypeHeaderLengths = versionThreeFormatBody.drop 57 :=
  ⟨by decide, by decide, by decide,
    (NewFormatDescriptionEvent_checks_header_length versionThreeFormatBody (by decide)
      (by decide)).2 (by decide)⟩

/-- C15: when `Parse` accepts a `TABLE_MAP_EVENT`, the parser holds a format
description, the event is the table map `NewTableMapEvent` parses from the body, its
table id is the little-endian value of the first 4 body bytes when the format's header
length entry for `TABLE_MAP_EVENT` is 6 and of the first 6 body bytes otherwise, and
afterwards the registry maps that id to the new table map, every other id is mapped as
before, and the format is unchanged. -/
theorem Parse_table_map_registers (p p' : BinlogParser) (b : List Nat) (c : EventContainer)
    (hp : p.Parse b = (p', .ok c)) (ht : c.Header.EventType = TABLE_MAP_EVENT) :
    ∃ e fmt hl, c.Event = .tableMap e ∧ p.format = some fmt ∧
      NewTableMapEvent (some fmt) (b.drop 19) = .ok e ∧
      fmt.EventTypeHeaderLengths[TABLE_MAP_EVENT - 1]? = some hl ∧
      (if hl = 6 then 4 else 6) ≤ (b.drop 19).length ∧
      e.TableID =
        getLittleEndianFixedLengthInt ((b.drop 19).take (if hl = 6 then 4 else 6)) ∧
      (IsBytes b → e.TableID = littleEndian ((b.drop 19).take (if hl = 6 then 4 else 6))) ∧
      List.lookup e.TableID p'.tables = some e ∧
      (∀ id, id ≠ e.TableID → List.lookup id p'.tables = List.lookup id p.tables) ∧
      p'.format = p.format := by
  obtain ⟨_, _, _, hpe⟩ := Parse_ok_inv p p' b c hp
  have h15 : ¬ (c.Header.EventType = FORMAT_DESCRIPTION_EVENT) := by rw [ht]; decide
  have h4 : ¬ (c.Header.EventType = ROTATE_EVENT) := by rw [ht]; decide
  unfold BinlogParser.parseEvent at hpe
  rw [if_neg h15, if_neg h4, if_pos ht] at hpe
  split at hpe
  · rename_i e he
    obtain ⟨fmt, hl, hf, hidx, hlen, hid⟩ := NewTableMapEvent_tableID p.format _ e he
    have hp' : p' = { p with tables := p.tables.set e.TableID e } :=
      (Prod.mk.inj hpe).1.symm
    have hev : c.Event = .tableMap e := (Except.ok.inj (Prod.mk.inj hpe).2).symm
    have hset := Tables_set_lookup p.tables e.TableID e
    refine ⟨e, fmt, hl, hev, hf, ?_, hidx, hlen, hid, ?_, ?_, ?_, ?_⟩
    · rw [← hf]; exact he
    · intro hb
      rw [hid]
      apply getLittleEndianFixedLengthInt_value
      · intro x hx
        exact hb x (List.mem_of_mem_drop (List.mem_of_mem_take hx))
      · rw [List.length_take]
        split <;> omega
    · rw [hp']; exact hset.1
    · intro id hne
      rw [hp']; exact hset.2 id hne
    · rw [hp']
  · cases hpe

/-- Witness for C15: a parser that holds `sixByteFormat` and an older entry for table
id 1 accepts `tableMapEventBytes`. -/
theorem Parse_table_map_registers_witness :
    BinlogParser.Parse
        { format := some sixByteFormat,
          tables := [(1, { geometryTable with Flags := 9 }), (2, geometryTable)] }
        tableMapEventBytes =
      ({ format := some sixByteFormat, tables := [(1, geometryTable), (2, geometryTable)] },
        .ok { Header := { Timestamp := 0, EventType := 19, ServerId := 1, EventSize := 39,
                          LogPos := 0, Flags := 0 },
              Event := .tableMap geometryTable,
              Bytes := tableMapEventBytes }) ∧
    (19 : Nat) = TABLE_MAP_EVENT ∧
    ∃ e fmt hl, Event.tableMap geometryTable = .tableMap e ∧
      some sixByteFormat = some fmt ∧
      NewTableMapEvent (some fmt) (tableMapEventBytes.drop 19) = .ok e ∧
      fmt.EventTypeHeaderLengths[TABLE_MAP_EVENT - 1]? = some hl ∧
      (if hl = 6 then 4 else 6) ≤ (tableMapEventBytes.drop 19).length ∧
      e.TableID =
        getLittleEndianFixedLengthInt
          ((tableMapEventBytes.drop 19).take (if hl = 6 then 4 else 6)) ∧
      (IsBytes tableMapEventBytes →
        e.TableID = littleEndian ((tableMapEventBytes.drop 19).take (if hl = 6 then 4 else 6))) ∧
      List.lookup e.TableID [(1, geometryTable), (2, geometryTable)] = some e ∧
      (∀ id, id ≠ e.TableID →
        List.lookup id [(1, geometryTable), (2, geometryTable)] =
          List.lookup id [(1, { geometryTable with Flags := 9 }), (2, geometryTable)]) ∧
      some sixByteFormat = some sixByteFormat :=
  ⟨by decide, by decide,
    Parse_table_map_registers
      { format := some sixByteFormat,
        tables := [(1, { geometryTable with Flags := 9 }), (2, geometryTable)] }
      { format := some sixByteFormat, tables := [(1, geometryTable), (2, geometryTable)] }
      tableMapEventBytes
      { Header := { Timestamp := 0, EventType := 19, ServerId := 1, EventSize := 39,
                    LogPos := 0, Flags := 0 },
        Event := .tableMap geometryTable,
        Bytes := tableMapEventBytes } (by decide) (by decide)⟩

/-- C16: for an event type that is none of 2, 4, 15, 16, 17, 18, 19, 23, 24, 25,
`parseEvent` succeeds with `GenericEvent{Data: body}` and leaves the parser, format and
table registry, unchanged. -/
theorem parseEvent_generic (p : BinlogParser) (h : EventHeader) (data : List Nat)
    (ht : h.EventType ∉ namedEventTypes) :
    p.parseEvent h data = (p, .ok (.generic { Data := data })) := by
  simp only [namedEventTypes, List.mem_cons, List.mem_singleton, List.not_mem_nil, or_false,
    not_or] at ht
  obtain ⟨h2, h4, h15, h16, h17, h18, h19, h23, h24, h25⟩ := ht
  unfold BinlogParser.parseEvent
  rw [if_neg h15, if_neg h4, if_neg h19, if_neg (by tauto), if_neg h2, if_neg h16, if_neg h17,
    if_neg h18]
  rfl

/-- Witness for C16 at event type 30 (`WRITE_ROWS_EVENT_V2`). -/
theorem parseEvent_generic_witness :
    ({ Timestamp := 0, EventType := 30, ServerId := 1, EventSize := 21, LogPos := 0,
       Flags := 0 } : EventHeader).EventType ∉ namedEventTypes ∧
    BinlogParser.parseEvent { format := none, tables := [(1, geometryTable)] }
      { Timestamp := 0, EventType := 30, ServerId := 1, EventSize := 21, LogPos := 0,
        Flags := 0 } [7, 8] =
      ({ format := none, tables := [(1, geometryTable)] }, .ok (.generic { Data := [7, 8] })) :=
  ⟨by decide, parseEvent_generic _ _ _ (by decide)⟩

/-- C17: whenever `parseEvent(h, data)` returns an error, the error is an `EventError`
whose `Header` is `h`, whose `Data` is the body `data`, and whose `Err` is the message of
the error that the body parser selected by the event type returned. -/
theorem parseEvent_error_shape (p p' : BinlogParser) (h : EventHeader) (data : List Nat)
    (pf : ParseFault) (hp : p.parseEvent h data = (p', .error pf))
    (hpanic : pf ≠ .panic) (hdiv : pf ≠ .diverge) :
    ∃ msg, pf = .eventError { Header := h, Err := msg, Data := data } ∧
      ((h.EventType = FORMAT_DESCRIPTION_EVENT ∧
          NewFormatDescriptionEvent data = .error (.error msg)) ∨
       (h.EventType = ROTATE_EVENT ∧ NewRotateEvent data = .error (.error msg)) ∨
       (h.EventType = TABLE_MAP_EVENT ∧ NewTableMapEvent p.format data = .error (.error msg)) ∨
       ((h.EventType = WRITE_ROWS_EVENT_V1 ∨ h.EventType = DELETE_ROWS_EVENT_V1 ∨
           h.EventType = UPDATE_ROWS_EVENT_V1) ∧
          NewRowsEvent p.tables h.EventType data = .error (.error msg)) ∨
       (h.EventType = QUERY_EVENT ∧ NewQueryEvent data = .error (.error msg)) ∨
       (h.EventType = XID_EVENT ∧ NewXidEvent data = .error (.error msg)) ∨
       (h.EventType = BEGIN_LOAD_QUERY_EVENT ∧
          NewBeginLoadQueryEvent data = .error (.error msg)) ∨
       (h.EventType = EXECUTE_LOAD_QUERY_EVENT ∧
          NewExecuteLoadQueryEvent data = .error (.error msg)) ∨
       (h.EventType ∉ namedEventTypes ∧ NewGenericEvent data = .error (.error msg))) := by
  have key : ∀ {α : Type} (r : Except Fault α) (f : Fault), r = .error f →
      pf = wrapEventError h data f →
      ∃ msg, pf = .eventError { Header := h, Err := msg, Data := data } ∧
        r = .error (.error msg) := by
    intro α r f hr hw
    cases f with
    | error msg => exact ⟨msg, hw, hr⟩
    | panic => exact absurd hw hpanic
    | diverge => exact absurd hw hdiv
  unfold BinlogParser.parseEvent at hp
  split at hp
  · rename_i ht
    split at hp
    · cases hp
    · rename_i f hr
      cases hp
      obtain ⟨msg, h1, h2⟩ := key _ f hr rfl
      exact ⟨msg, h1, Or.inl ⟨ht, h2⟩⟩
  rename_i n15
  split at hp
  · rename_i ht
    split at hp
    · cases hp
    · rename_i f hr
      cases hp
      obtain ⟨msg, h1, h2⟩ := key _ f hr rfl
      exact ⟨msg, h1, Or.inr (Or.inl ⟨ht, h2⟩)⟩
  rename_i n4
  split at hp
  · rename_i ht
    split at hp
    · cases hp
    · rename_i f hr
      cases hp
      obtain ⟨msg, h1, h2⟩ := key _ f hr rfl
      exact ⟨msg, h1, Or.inr (Or.inr (Or.inl ⟨ht, h2⟩))⟩
  rename_i n19
  split at hp
  · rename_i ht
    split at hp
    · cases hp
    · rename_i f hr
      cases hp
      obtain ⟨msg, h1, h2⟩ := key _ f hr rfl
      exact ⟨msg, h1, Or.inr (Or.inr (Or.inr (Or.inl ⟨ht, h2⟩)))⟩
  rename_i nrows
  split at hp
  · rename_i ht
    split at hp
    · cases hp
    · rename_i f hr
      cases hp
      obtain ⟨msg, h1, h2⟩ := key _ f hr rfl
      exact ⟨msg, h1, Or.inr (Or.inr (Or.inr (Or.inr (Or.inl ⟨ht, h2⟩))))⟩
  rename_i n2
  split at hp
  · rename_i ht
    split at hp
    · cases hp
    · rename_i f hr
      cases hp
      obtain ⟨msg, h1, h2⟩ := key _ f hr rfl
      exact ⟨msg, h1, Or.inr (Or.inr (Or.inr (Or.inr (Or.inr (Or.inl ⟨ht, h2⟩)))))⟩
  rename_i n16
  split at hp
  · rename_i ht
    split at hp
    · cases hp
    · rename_i f hr
      cases hp
      obtain ⟨msg, h1, h2⟩ := key _ f hr rfl
      exact ⟨msg, h1, Or.inr (Or.inr (Or.inr (Or.inr (Or.inr (Or.inr (Or.inl ⟨ht, h2⟩))))))⟩
  rename_i n17
  split at hp
  · rename_i ht
    split at hp
    · cases hp
    · rename_i f hr
      cases hp
      obtain ⟨msg, h1, h2⟩ := key _ f hr rfl
      exact ⟨msg, h1,
        Or.inr (Or.inr (Or.inr (Or.inr (Or.inr (Or.inr (Or.inr (Or.inl ⟨ht, h2⟩)))))))⟩
  rename_i n18
  split at hp
  · cases hp
  · rename_i f hr
    cases hp
    obtain ⟨msg, h1, h2⟩ := key _ f hr rfl
    refine ⟨msg, h1,
      Or.inr (Or.inr (Or.inr (Or.inr (Or.inr (Or.inr (Or.inr (Or.inr ⟨?_, h2⟩)))))))⟩
    simp only [namedEventTypes, List.mem_cons, List.mem_singleton, List.not_mem_nil, or_false,
      not_or]
    exact ⟨n2, n4, n15, n16, n17, n18, n19, fun e => nrows (Or.inl e),
      fun e => nrows (Or.inr (Or.inr e)), fun e => nrows (Or.inr (Or.inl e))⟩

/-- Witness for C17: an update event for table id 1 against an empty registry. -/
theorem parseEvent_error_shape_witness :
    BinlogParser.parseEvent NewBinlogParser
        { Timestamp := 0, EventType := 24, ServerId := 1, EventSize := 34, LogPos := 0,
          Flags := 0 } (updateEventBytes.drop 19) =
      (NewBinlogParser, .error (.eventError
        { Header := { Timestamp := 0, EventType := 24, ServerId := 1, EventSize := 34,
                      LogPos := 0, Flags := 0 },
          Err := "invalid table id", Data := updateEventBytes.drop 19 })) ∧
    ∃ msg, ParseFault.eventError
        { Header := { Timestamp := 0, EventType := 24, ServerId := 1, EventSize := 34,
                      LogPos := 0, Flags := 0 },
          Err := "invalid table id", Data := updateEventBytes.drop 19 } =
      .eventError
        { Header := { Timestamp := 0, EventType := 24, ServerId := 1, EventSize := 34,
                      LogPos := 0, Flags := 0 },
          Err := msg, Data := updateEventBytes.drop 19 } :=
  ⟨by decide,
    (parseEvent_error_shape NewBinlogParser NewBinlogParser
      { Timestamp := 0, EventType := 24, ServerId := 1, EventSize := 34, LogPos := 0,
        Flags := 0 } (updateEventBytes.drop 19)
      (.eventError
        { Header := { Timestamp := 0, EventType := 24, ServerId := 1, EventSize := 34,
                      LogPos := 0, Flags := 0 },
          Err := "invalid table id", Data := updateEventBytes.drop 19 })
      (by decide) (by decide) (by decide)).imp (fun _ h => h.1)⟩

/-- C18: a `Parse` call on an event whose header names a QUERY, XID, BEGIN_LOAD_QUERY,
EXECUTE_LOAD_QUERY, WRITE_ROWS_V1, UPDATE_ROWS_V1 or DELETE_ROWS_V1 event leaves the
parser, stored format description and table registry, exactly as it was, whether the
call succeeds or fails. -/
theorem Parse_frame_of_header (p : BinlogParser) (b : List Nat) (h : EventHeader)
    (hh : NewEventHeader b = .ok h) (ht : h.EventType ∈ frameEventTypes) :
    (p.Parse b).1 = p := by
  have hpe := parseEvent_frame p h
  unfold BinlogParser.Parse parseHeader
  rw [hh]
  simp only
  split
  · rfl
  · split
    · rfl
    · rename_i body _ _
      have := hpe body ht
      split
      · rename_i p1 f heq
        rw [heq] at this
        exact this
      · rename_i p1 e heq
        rw [heq] at this
        exact this

/-- Witness for C18: the update event `updateEventBytes` parsed by a parser that holds a
format description and table id 1. -/
theorem Parse_frame_of_header_witness :
    NewEventHeader updateEventBytes =
      .ok { Timestamp := 0, EventType := 24, ServerId := 1, EventSize := 34, LogPos := 0,
            Flags := 0 } ∧
    (24 : Nat) ∈ frameEventTypes ∧
    (BinlogParser.Parse { format := some sixByteFormat, tables := [(1, geometryTable)] }
        updateEventBytes).1 =
      { format := some sixByteFormat, tables := [(1, geometryTable)] } :=
  ⟨by decide, by decide,
    Parse_frame_of_header { format := some sixByteFormat, tables := [(1, geometryTable)] }
      updateEventBytes
      { Timestamp := 0, EventType := 24, ServerId := 1, EventSize := 34, LogPos := 0,
        Flags := 0 } (by decide) (by decide)⟩

/-- C19 (failing input): table id 1 is registered with a `GEOMETRY` and a `TINY`
column.  In an `UPDATE_ROWS_V1` body whose before-image selects the `GEOMETRY` column,
not marked null, `parseValue` returns an error for that column, yet `NewRowsEvent`
returns an event, holding the two after-image rows only; on the `WRITE_ROWS_V1` body
that selects the same column the call never returns. -/
theorem NewRowsEvent_drops_value_error :
    List.lookup 1 [(1, geometryTable)] = some geometryTable ∧
    parseValue [5, 0, 7] MYSQL_TYPE_GEOMETRY 0 =
      .error (.error ("unsupported type " ++ toString MYSQL_TYPE_GEOMETRY ++ " in binlog")) ∧
    NewRowsEvent [(1, geometryTable)] UPDATE_ROWS_EVENT_V1
        [1, 0, 0, 0, 0, 0, 0, 0, 2, 1, 2, 0, 5, 0, 7] =
      .ok { Table := geometryTable, TableID := 1, Flags := 0, ColumnCount := 2,
            ColumnBitmap1 := [1], ColumnBitmap2 := [2],
            Rows := [[.null, .int8 5], [.null, .int8 7]] } ∧
    NewRowsEvent [(1, geometryTable)] WRITE_ROWS_EVENT_V1
        [1, 0, 0, 0, 0, 0, 0, 0, 2, 1, 0, 5] = .error .diverge := by
  decide

/-- C20: for every data and every meta, `parseValue` returns the error
"unsupported type <tp> in binlog" when the type code `tp` has no case in the dispatch
switch; this covers `NEWDATE` (14), `TINY_BLOB` (249), `MEDIUM_BLOB` (250), `LONG_BLOB`
(251), `GEOMETRY` (255) and the old `DECIMAL` (0). -/
theorem parseValue_unsupported (data : List Nat) (tp m : Nat)
    (ht : tp ∉ supportedColumnTypes) :
    parseValue data tp m =
      .error (.error ("unsupported type " ++ toString tp ++ " in binlog")) := by
  simp only [supportedColumnTypes, List.mem_cons, List.mem_singleton, List.not_mem_nil,
    or_false, not_or] at ht
  obtain ⟨h1, h2, h3, h4, h5, h6, h7, h8, h9, h10, h11, h12, h13, h14, h15, h16, h17, h18, h19,
    h20, h21, h22, h23, h24⟩ := ht
  unfold parseValue
  rw [if_neg h24]
  unfold parseValueSwitch
  rw [if_neg h1, if_neg h2, if_neg h3, if_neg h4, if_neg h5, if_neg h6, if_neg h7, if_neg h8,
    if_neg h9, if_neg h10, if_neg h11, if_neg h12, if_neg h13, if_neg h14, if_neg h15,
    if_neg h16, if_neg h17, if_neg h18, if_neg h19, if_neg h20, if_neg h21,
    if_neg (by tauto), if_neg h24]
  rfl

/-- Witness for C20: the six type codes the claim names are outside the switch, and
`GEOMETRY` is rejected. -/
theorem parseValue_unsupported_witness :
    (∀ tp ∈ [MYSQL_TYPE_NEWDATE, MYSQL_TYPE_TINY_BLOB, MYSQL_TYPE_MEDIUM_BLOB,
        MYSQL_TYPE_LONG_BLOB, MYSQL_TYPE_GEOMETRY, MYSQL_TYPE_DECIMAL],
      tp ∉ supportedColumnTypes) ∧
    parseValue [1, 2, 3] MYSQL_TYPE_GEOMETRY 7 =
      .error (.error ("unsupported type " ++ toString MYSQL_TYPE_GEOMETRY ++ " in binlog")) :=
  ⟨by decide, parseValue_unsupported [1, 2, 3] MYSQL_TYPE_GEOMETRY 7 (by decide)⟩

/-- C21: on byte data that is long enough, `parseValue` returns for `TINY`, `SHORT`,
`INT24`, `LONG` and `LONGLONG` the two's-complement signed reading of the first 1, 2,
3, 4 and 8 bytes taken little-endian, with that many bytes consumed and no error (the
`INT24` value is the 24-bit reading, sign-extended from bit 23); for `NULL` it returns
`(nil, 0)` and no error on any data. -/
theorem parseValue_integers (data : List Nat) (m : Nat) (hb : IsBytes data) :
    parseValue data MYSQL_TYPE_NULL m = .ok (.null, 0) ∧
    (1 ≤ data.length → parseValue data MYSQL_TYPE_TINY m =
      .ok (.int8 (twosComplement 8 (littleEndian (data.take 1))), 1)) ∧
    (2 ≤ data.length → parseValue data MYSQL_TYPE_SHORT m =
      .ok (.int16 (twosComplement 16 (littleEndian (data.take 2))), 2)) ∧
    (3 ≤ data.length → parseValue data MYSQL_TYPE_INT24 m =
      .ok (.int32 (twosComplement 24 (littleEndian (data.take 3))), 3)) ∧
    (4 ≤ data.length → parseValue data MYSQL_TYPE_LONG m =
      .ok (.int32 (twosComplement 32 (littleEndian (data.take 4))), 4)) ∧
    (8 ≤ data.length → parseValue data MYSQL_TYPE_LONGLONG m =
      .ok (.int64 (twosComplement 64 (littleEndian (data.take 8))), 8)) := by
  have hlt : ∀ k, k ≤ data.length → littleEndian (data.take k) < 2 ^ (8 * k) := by
    intro k hk
    have := littleEndian_lt (data.take k) (IsBytes_take data k hb)
    rw [List.length_take, Nat.min_eq_left hk] at this
    rwa [show (256 : Nat) = 2 ^ 8 by norm_num, ← pow_mul] at this
  refine ⟨?_, ?_, ?_, ?_, ?_, ?_⟩
  · rw [parseValue_not_string _ _ _ (by decide)]
    rfl
  · intro h
    rw [parseValue_not_string _ _ _ (by decide)]
    obtain ⟨b0, rest, rfl⟩ : ∃ b0 rest, data = b0 :: rest := by
      cases data with
      | nil => simp at h
      | cons b0 rest => exact ⟨b0, rest, rfl⟩
    have h0 : b0 < 2 ^ 8 := hb b0 (by simp)
    have hv : littleEndian (List.take 1 (b0 :: rest)) = b0 := by
      simp [littleEndian]
    rw [hv, ← toSigned_eq 8 b0 h0]
    unfold parseValueSwitch getBinaryInt8
    rw [if_neg (by decide), if_pos rfl, index_cons_zero]
    rfl
  · intro h
    rw [parseValue_not_string _ _ _ (by decide)]
    obtain ⟨v, hv, hv2⟩ := leUint16_ok data h
    have hv3 := hv2 hb
    rw [← hv3, ← toSigned_eq 16 v (by rw [hv3]; exact hlt 2 h)]
    unfold parseValueSwitch getBinaryInt16
    rw [if_neg (by decide), if_neg (by decide), if_pos rfl, hv]
    rfl
  · intro h
    rw [parseValue_not_string _ _ _ (by decide)]
    obtain ⟨v, hv, hv2⟩ := getBinaryUint24_ok ((data.take 3).drop 0) (by simp; omega)
    have hv3 : v = littleEndian (data.take 3) := by
      have := hv2 (IsBytes_drop _ 0 (IsBytes_take data 3 hb))
      simpa [List.take_take] using this
    rw [← hv3, ← int24_sign_extend v (by rw [hv3]; exact hlt 3 h)]
    unfold parseValueSwitch getBinaryInt24
    rw [if_neg (by decide), if_neg (by decide), if_neg (by decide), if_pos rfl,
      slice_ok data 0 3 (by omega)]
    simp only [bind, Except.bind, hv]
    rfl
  · intro h
    rw [parseValue_not_string _ _ _ (by decide)]
    obtain ⟨v, hv, hv2⟩ := leUint32_ok data h
    have hv3 := hv2 hb
    rw [← hv3, ← toSigned_eq 32 v (by rw [hv3]; exact hlt 4 h)]
    unfold parseValueSwitch getBinaryInt32
    rw [if_neg (by decide), if_neg (by decide), if_neg (by decide), if_neg (by decide),
      if_pos rfl, hv]
    rfl
  · intro h
    rw [parseValue_not_string _ _ _ (by decide)]
    obtain ⟨v, hv, hv2⟩ := leUint64_ok data h
    have hv3 := hv2 hb
    rw [← hv3, ← toSigned_eq 64 v (by rw [hv3]; exact hlt 8 h)]
    unfold parseValueSwitch getBinaryInt64
    rw [if_neg (by decide), if_neg (by decide), if_neg (by decide), if_neg (by decide),
      if_neg (by decide), if_pos rfl, hv]
    rfl

/-- Witness for C21: the first three bytes `FE FF FF` read as `INT24` give -2. -/
theorem parseValue_integers_witness :
    IsBytes [254, 255, 255, 255, 255, 255, 255, 255] ∧
    parseValue [254, 255, 255, 255, 255, 255, 255, 255] MYSQL_TYPE_INT24 0 =
      .ok (.int32 (twosComplement 24
        (littleEndian ([254, 255, 255, 255, 255, 255, 255, 255].take 3))), 3) ∧
    twosComplement 24 (littleEndian ([254, 255, 255, 255, 255, 255, 255, 255].take 3)) = -2 :=
  ⟨by decide,
    (parseValue_integers [254, 255, 255, 255, 255, 255, 255, 255] 0 (by decide)).2.2.2.1
      (by decide),
    by decide⟩

/-- C22: for a `NEWDECIMAL` column whose metadata gives precision `p = meta >> 8` and
scale `s = meta & 0xFF` with `1 ≤ p` and `s ≤ p`, on data of at least the binary size
`(p-s)/9*4 + compressedBytes[(p-s) mod 9] + s/9*4 + compressedBytes[s mod 9]`, where
`compressedBytes = [0,1,1,2,2,3,3,4,4,4]`, `parseValue` returns no error and consumes
exactly that many bytes, and the bytes of the data beyond that size do not affect the
result. -/
theorem parseValue_newdecimal_size (data : List Nat) (m : Nat) (hp : 1 ≤ m >>> 8)
    (hs : m &&& 0xFF ≤ m >>> 8)
    (hlen : decimalBinarySize (m >>> 8) (m &&& 0xFF) ≤ data.length) :
    compressedBytes = [0, 1, 1, 2, 2, 3, 3, 4, 4, 4] ∧
    (∃ v, parseValue data MYSQL_TYPE_NEWDECIMAL m =
      .ok (v, decimalBinarySize (m >>> 8) (m &&& 0xFF))) ∧
    (∀ other : List Nat,
      other.take (decimalBinarySize (m >>> 8) (m &&& 0xFF)) =
        data.take (decimalBinarySize (m >>> 8) (m &&& 0xFF)) →
      parseValue other MYSQL_TYPE_NEWDECIMAL m = parseValue data MYSQL_TYPE_NEWDECIMAL m) := by
  refine ⟨rfl, ?_, ?_⟩
  · rw [parseValue_newdecimal]
    exact parseDecimalType_size data m hp hs hlen
  · intro other ho
    have hol : decimalBinarySize (m >>> 8) (m &&& 0xFF) ≤ other.length := by
      have h1 := congrArg List.length ho
      rw [List.length_take, List.length_take, Nat.min_eq_left hlen] at h1
      omega
    rw [parseValue_newdecimal, parseValue_newdecimal, parseDecimalType_take other m hs hol,
      parseDecimalType_take data m hs hlen, ho]

/-- Witness for C22: a `DECIMAL(10,2)` column (metadata `0x0A02`, binary size 5) holding
`80 00 00 05 0A`, followed by two bytes that belong to the next column. -/
theorem parseValue_newdecimal_size_witness :
    1 ≤ 0x0A02 >>> 8 ∧ 0x0A02 &&& 0xFF ≤ 0x0A02 >>> 8 ∧
    decimalBinarySize (0x0A02 >>> 8) (0x0A02 &&& 0xFF) = 5 ∧
    decimalBinarySize (0x0A02 >>> 8) (0x0A02 &&& 0xFF) ≤ [0x80, 0, 0, 5, 10, 7, 7].length ∧
    parseValue [0x80, 0, 0, 5, 10, 7, 7] MYSQL_TYPE_NEWDECIMAL 0x0A02 =
      .ok (.decimal "5.10", 5) ∧
    ∃ v, parseValue [0x80, 0, 0, 5, 10, 7, 7] MYSQL_TYPE_NEWDECIMAL 0x0A02 =
      .ok (v, decimalBinarySize (0x0A02 >>> 8) (0x0A02 &&& 0xFF)) :=
  ⟨by decide, by decide, by decide, by decide, by decide,
    (parseValue_newdecimal_size [0x80, 0, 0, 5, 10, 7, 7] 0x0A02 (by decide) (by decide)
      (by decide)).2.1⟩

/-- C23: for a `BIT` column whose metadata `m` gives `bits = (m >> 8) * 8 + (m & 0xFF)`,
on byte data of at least `ceil(bits / 8)` bytes: when `1 ≤ bits ≤ 64`, `parseValue`
returns no error, consumes `ceil(bits / 8)` bytes and yields the big-endian unsigned
value of those bytes converted to `int64`; when `bits = 0` or `bits > 64` it returns an
error. -/
theorem parseValue_bit (data : List Nat) (m : Nat) (hb : IsBytes data) (hm : m < 65536)
    (hlen : ((m >>> 8) * 8 + (m &&& 0xFF) + 7) / 8 ≤ data.length) :
    (1 ≤ (m >>> 8) * 8 + (m &&& 0xFF) ∧ (m >>> 8) * 8 + (m &&& 0xFF) ≤ 64 →
      parseValue data MYSQL_TYPE_BIT m =
        .ok (.int64 (twosComplement 64
          (bigEndian (data.take (((m >>> 8) * 8 + (m &&& 0xFF) + 7) / 8)))),
          ((m >>> 8) * 8 + (m &&& 0xFF) + 7) / 8)) ∧
    ((m >>> 8) * 8 + (m &&& 0xFF) = 0 ∨ 64 < (m >>> 8) * 8 + (m &&& 0xFF) →
      ∃ msg, parseValue data MYSQL_TYPE_BIT m = .error (.error msg)) := by
  obtain ⟨hhi, hlo⟩ := uint16_parts m hm
  have hlo2 : m &&& 0xFF ≤ 255 := by rw [hlo]; omega
  generalize hbits : (m >>> 8) * 8 + (m &&& 0xFF) = bits at hlen ⊢
  have hbits2 : bits ≤ 2295 := by omega
  have hpv : parseValue data MYSQL_TYPE_BIT m = parseBitType data m := by
    rw [parseValue_not_string _ _ _ (by decide)]
    unfold parseValueSwitch
    rw [if_neg (by decide), if_neg (by decide), if_neg (by decide), if_neg (by decide),
      if_neg (by decide), if_neg (by decide), if_neg (by decide), if_neg (by decide),
      if_neg (by decide), if_pos rfl]
  have hbt : parseBitType data m =
      (parseBit data (bits : Nat) (((bits + 7) / 8 : Nat)) >>= fun v =>
        pure (.int64 v, (bits + 7) / 8)) := by
    unfold parseBitType byteCountFromBitCount
    rw [hbits, Nat.mod_eq_of_lt (by omega)]
  rw [hpv, hbt]
  constructor
  · rintro ⟨h1, h64⟩
    rw [parseBit_value data bits ((bits + 7) / 8) hb (by omega) (by omega) hlen (by omega)]
    rfl
  · intro h
    unfold parseBit
    rcases h with h0 | h64
    · subst h0
      exact ⟨_, rfl⟩
    · have hn : 9 ≤ (bits + 7) / 8 := by omega
      rw [if_pos (by exact_mod_cast (by omega : 1 < bits)), if_neg (by omega),
        if_neg (by omega), if_neg (by omega), if_neg (by omega), if_neg (by omega)]
      exact ⟨_, rfl⟩

/-- Witness for C23: a `BIT(10)` column (metadata `0x0102`) holding `01 FF`. -/
theorem parseValue_bit_witness :
    IsBytes [1, 255] ∧ (0x0102 : Nat) < 65536 ∧
    ((0x0102 >>> 8) * 8 + (0x0102 &&& 0xFF) + 7) / 8 ≤ [1, 255].length ∧
    (1 ≤ (0x0102 >>> 8) * 8 + (0x0102 &&& 0xFF) ∧ (0x0102 >>> 8) * 8 + (0x0102 &&& 0xFF) ≤ 64) ∧
    parseValue [1, 255] MYSQL_TYPE_BIT 0x0102 =
      .ok (.int64 (twosComplement 64
        (bigEndian ([1, 255].take (((0x0102 >>> 8) * 8 + (0x0102 &&& 0xFF) + 7) / 8)))),
        ((0x0102 >>> 8) * 8 + (0x0102 &&& 0xFF) + 7) / 8) :=
  ⟨by decide, by decide, by decide, by decide,
    (parseValue_bit [1, 255] 0x0102 (by decide) (by decide) (by decide)).1 (by decide)⟩

/-- C24: on a body of at least 8 bytes `NewRotateEvent` returns no error, `NextPosition`
is the little-endian `uint64` of `b[0..8)` and `NextFile` is `b[8..]`, all the remaining
bytes. -/
theorem NewRotateEvent_fields (b : List Nat) (hb : IsBytes b) (h : 8 ≤ b.length) :
    NewRotateEvent b =
      .ok { NextPosition := littleEndian (b.take 8), NextFile := b.drop 8 } := by
  obtain ⟨v, hv, hv2⟩ := leUint64_ok ((b.take 8).drop 0) (by simp; omega)
  have hval : v = littleEndian (b.take 8) := by
    have := hv2 (IsBytes_drop _ 0 (IsBytes_take b 8 hb))
    simpa [List.take_take] using this
  unfold NewRotateEvent
  simp only [Nat.zero_add, bind, Except.bind, pure, Except.pure, slice_ok b 0 8 (by omega),
    sliceFrom_ok b 8 h, hv, hval]

/-- Witness for C24: position 4 and file name `a`. -/
theorem NewRotateEvent_fields_witness :
    IsBytes [4, 0, 0, 0, 0, 0, 0, 0, 97] ∧ 8 ≤ [4, 0, 0, 0, 0, 0, 0, 0, 97].length ∧
    NewRotateEvent [4, 0, 0, 0, 0, 0, 0, 0, 97] =
      .ok { NextPosition := littleEndian ([4, 0, 0, 0, 0, 0, 0, 0, 97].take 8),
            NextFile := [4, 0, 0, 0, 0, 0, 0, 0, 97].drop 8 } :=
  ⟨by decide, by decide, NewRotateEvent_fields [4, 0, 0, 0, 0, 0, 0, 0, 97] (by decide) (by decide)⟩

/-- C25: for `VARCHAR` and `VAR_STRING` with any metadata, and for `STRING` with
metadata below 256, on byte data that is long enough: when the metadata is below 256 the
length `L` is `data[0]`, the value is `data[1 .. 1+L)` and `L + 1` bytes are consumed;
when the metadata is 256 or more the length `L` is the little-endian `uint16` of
`data[0..2)`, the value is `data[2 .. 2+L)` and `L + 2` bytes are consumed. -/
theorem parseValue_varchar (data : List Nat) (tp m : Nat) (hb : IsBytes data)
    (ht : tp = MYSQL_TYPE_VARCHAR ∨ tp = MYSQL_TYPE_VAR_STRING ∨
      (tp = MYSQL_TYPE_STRING ∧ m < 256)) :
    (m < 256 → ∀ L, data[0]? = some L → 1 + L ≤ data.length →
      parseValue data tp m = .ok (.string ((data.drop 1).take L), L + 1)) ∧
    (256 ≤ m → 2 ≤ data.length → 2 + littleEndian (data.take 2) ≤ data.length →
      parseValue data tp m =
        .ok (.string ((data.drop 2).take (littleEndian (data.take 2))),
          littleEndian (data.take 2) + 2)) := by
  have hps : parseValue data tp m = parseString data (m : Int) := by
    rcases ht with h | h | ⟨h, hm⟩
    · subst h
      rw [parseValue_not_string _ _ _ (by decide)]
      unfold parseValueSwitch
      simp only [MYSQL_TYPE_VARCHAR, MYSQL_TYPE_NULL, MYSQL_TYPE_TINY, MYSQL_TYPE_SHORT,
        MYSQL_TYPE_INT24, MYSQL_TYPE_LONG, MYSQL_TYPE_LONGLONG, MYSQL_TYPE_NEWDECIMAL,
        MYSQL_TYPE_FLOAT, MYSQL_TYPE_DOUBLE, MYSQL_TYPE_BIT, MYSQL_TYPE_TIMESTAMP,
        MYSQL_TYPE_TIMESTAMP2, MYSQL_TYPE_DATETIME, MYSQL_TYPE_DATETIME2, MYSQL_TYPE_TIME,
        MYSQL_TYPE_TIME2, MYSQL_TYPE_DATE, MYSQL_TYPE_YEAR, MYSQL_TYPE_ENUM, MYSQL_TYPE_SET,
        MYSQL_TYPE_BLOB, MYSQL_TYPE_VAR_STRING, Nat.reduceEqDiff, if_false, true_or, if_true]
    · subst h
      rw [parseValue_not_string _ _ _ (by decide)]
      unfold parseValueSwitch
      simp only [MYSQL_TYPE_VARCHAR, MYSQL_TYPE_NULL, MYSQL_TYPE_TINY, MYSQL_TYPE_SHORT,
        MYSQL_TYPE_INT24, MYSQL_TYPE_LONG, MYSQL_TYPE_LONGLONG, MYSQL_TYPE_NEWDECIMAL,
        MYSQL_TYPE_FLOAT, MYSQL_TYPE_DOUBLE, MYSQL_TYPE_BIT, MYSQL_TYPE_TIMESTAMP,
        MYSQL_TYPE_TIMESTAMP2, MYSQL_TYPE_DATETIME, MYSQL_TYPE_DATETIME2, MYSQL_TYPE_TIME,
        MYSQL_TYPE_TIME2, MYSQL_TYPE_DATE, MYSQL_TYPE_YEAR, MYSQL_TYPE_ENUM, MYSQL_TYPE_SET,
        MYSQL_TYPE_BLOB, MYSQL_TYPE_VAR_STRING, Nat.reduceEqDiff, if_false, or_true, if_true]
    · subst h
      unfold parseValue
      rw [if_pos rfl, if_neg (by omega)]
      unfold parseValueSwitch
      simp only [MYSQL_TYPE_VARCHAR, MYSQL_TYPE_NULL, MYSQL_TYPE_TINY, MYSQL_TYPE_SHORT,
        MYSQL_TYPE_INT24, MYSQL_TYPE_LONG, MYSQL_TYPE_LONGLONG, MYSQL_TYPE_NEWDECIMAL,
        MYSQL_TYPE_FLOAT, MYSQL_TYPE_DOUBLE, MYSQL_TYPE_BIT, MYSQL_TYPE_TIMESTAMP,
        MYSQL_TYPE_TIMESTAMP2, MYSQL_TYPE_DATETIME, MYSQL_TYPE_DATETIME2, MYSQL_TYPE_TIME,
        MYSQL_TYPE_TIME2, MYSQL_TYPE_DATE, MYSQL_TYPE_YEAR, MYSQL_TYPE_ENUM, MYSQL_TYPE_SET,
        MYSQL_TYPE_BLOB, MYSQL_TYPE_VAR_STRING, MYSQL_TYPE_STRING, Nat.reduceEqDiff, if_false,
        or_self, if_true]
  rw [hps]
  constructor
  · intro hm L h0 hlen
    exact parseString_short data m L (by exact_mod_cast hm) h0 hlen
  · intro hm h2 hlen
    exact parseString_long data m hb (by exact_mod_cast hm) h2 hlen

/-- Witness for C25: the test's `VARCHAR(255)` column, length byte 3 then `abc`. -/
theorem parseValue_varchar_witness :
    IsBytes [3, 97, 98, 99, 7] ∧ (255 : Nat) < 256 ∧
    ([3, 97, 98, 99, 7] : List Nat)[0]? = some 3 ∧ 1 + 3 ≤ [3, 97, 98, 99, 7].length ∧
    parseValue [3, 97, 98, 99, 7] MYSQL_TYPE_VARCHAR 255 =
      .ok (.string (([3, 97, 98, 99, 7].drop 1).take 3), 3 + 1) :=
  ⟨by decide, by decide, by decide, by decide,
    (parseValue_varchar [3, 97, 98, 99, 7] MYSQL_TYPE_VARCHAR 255 (by decide)
      (Or.inl rfl)).1 (by decide) 3 (by decide) (by decide)⟩

/-- C26: for a `STRING` column whose metadata `m` is 256 or more, with `b0 = m >> 8` and
`b1 = m & 0xFF`.  When `b0 & 0x30 ≠ 0x30`, `parseValue` decodes the value as type
`b0 | 0x30` with declared length `b1 | (((b0 & 0x30) ^ 0x30) << 4)`, which is at least
256, so that a real type `STRING` is read with a two-byte little-endian length prefix.
Otherwise it decodes the value as type `b0` with declared length `b1`: a high byte
`ENUM` or `SET` gives what an `ENUM` or `SET` column with the same metadata gives, and a
high byte `STRING` is read with a one-byte length prefix. -/
theorem parseValue_string_folded (data : List Nat) (m : Nat) (hm : m < 65536)
    (h256 : 256 ≤ m) :
    (((m >>> 8) &&& 0x30) ≠ 0x30 →
      256 ≤ ((m &&& 0xFF) ||| ((((m >>> 8) &&& 0x30) ^^^ 0x30) <<< 4)) ∧
      parseValue data MYSQL_TYPE_STRING m =
        parseValueSwitch data ((m >>> 8) ||| 0x30) m
          ((((m &&& 0xFF) ||| ((((m >>> 8) &&& 0x30) ^^^ 0x30) <<< 4)) : Nat) : Int) ∧
      (((m >>> 8) ||| 0x30) = MYSQL_TYPE_STRING → IsBytes data → 2 ≤ data.length →
        2 + littleEndian (data.take 2) ≤ data.length →
        parseValue data MYSQL_TYPE_STRING m =
          .ok (.string ((data.drop 2).take (littleEndian (data.take 2))),
            littleEndian (data.take 2) + 2))) ∧
    (((m >>> 8) &&& 0x30) = 0x30 →
      parseValue data MYSQL_TYPE_STRING m =
        parseValueSwitch data (m >>> 8) m (((m &&& 0xFF) : Nat) : Int) ∧
      (m >>> 8 = MYSQL_TYPE_ENUM →
        parseValue data MYSQL_TYPE_STRING m = parseValue data MYSQL_TYPE_ENUM m) ∧
      (m >>> 8 = MYSQL_TYPE_SET →
        parseValue data MYSQL_TYPE_STRING m = parseValue data MYSQL_TYPE_SET m) ∧
      (m >>> 8 = MYSQL_TYPE_STRING → ∀ L, data[0]? = some L → 1 + L ≤ data.length →
        parseValue data MYSQL_TYPE_STRING m =
          .ok (.string ((data.drop 1).take L), L + 1))) := by
  obtain ⟨hhi, hlo⟩ := uint16_parts m hm
  have hlo2 : m &&& 0xFF < 256 := by rw [hlo]; omega
  have hb0 : (m >>> 8) % 256 = m >>> 8 := Nat.mod_eq_of_lt (by omega)
  have hb1 : (m &&& 0xFF) % 256 = m &&& 0xFF := Nat.mod_eq_of_lt hlo2
  constructor
  · intro hne
    obtain ⟨hge, hsh⟩ := folded_length (m >>> 8) (m &&& 0xFF) (by omega) hlo2 hne
    have htp : ((m >>> 8) ||| 0x30) % 256 = (m >>> 8) ||| 0x30 :=
      Nat.mod_eq_of_lt (Nat.or_lt_two_pow (n := 8) (by omega) (by decide))
    have hpv : parseValue data MYSQL_TYPE_STRING m =
        parseValueSwitch data ((m >>> 8) ||| 0x30) m
          ((((m &&& 0xFF) ||| ((((m >>> 8) &&& 0x30) ^^^ 0x30) <<< 4)) : Nat) : Int) := by
      unfold parseValue
      rw [if_pos rfl, if_pos h256]
      simp only [hb0, hb1, htp, Nat.mod_eq_of_lt hsh]
      rw [if_pos hne]
    refine ⟨hge, hpv, ?_⟩
    intro hs hb h2 hlen
    rw [hpv, hs, parseValueSwitch_string]
    exact parseString_long data _ hb (by exact_mod_cast hge) h2 hlen
  · intro heq
    have hpv : parseValue data MYSQL_TYPE_STRING m =
        parseValueSwitch data (m >>> 8) m (((m &&& 0xFF) : Nat) : Int) := by
      unfold parseValue
      rw [if_pos rfl, if_pos h256]
      simp only [hb0]
      rw [if_neg (by rw [heq]; exact fun h => h rfl)]
    refine ⟨hpv, ?_, ?_, ?_⟩
    · intro he
      rw [hpv, he, parseValue_not_string _ _ _ (by decide)]
      exact parseValueSwitch_length _ _ _ _ _ (by decide)
    · intro he
      rw [hpv, he, parseValue_not_string _ _ _ (by decide)]
      exact parseValueSwitch_length _ _ _ _ _ (by decide)
    · intro he L h0 hlen
      rw [hpv, he, parseValueSwitch_string]
      exact parseString_short data _ L (by exact_mod_cast hlo2) h0 hlen

/-- Witness for C26: metadata `0xFE03` (high byte `STRING`, length 3) reads `abc` with a
one-byte length prefix. -/
theorem parseValue_string_folded_witness :
    (0xFE03 : Nat) < 65536 ∧ 256 ≤ (0xFE03 : Nat) ∧ ((0xFE03 >>> 8) &&& 0x30) = 0x30 ∧
    (0xFE03 >>> 8 = MYSQL_TYPE_STRING) ∧
    parseValue [3, 97, 98, 99, 7] MYSQL_TYPE_STRING 0xFE03 =
      .ok (.string (([3, 97, 98, 99, 7].drop 1).take 3), 3 + 1) :=
  ⟨by decide, by decide, by decide, by decide,
    ((parseValue_string_folded [3, 97, 98, 99, 7] 0xFE03 (by decide) (by decide)).2
      (by decide)).2.2.2 (by decide) 3 (by decide) (by decide)⟩

/-- C27: `decodeDatetime2` decodes what MySQL packs.  For a year in 0..9999, a month in
0..12, a day in 0..31, an hour in 0..23, a minute and a second in 0..59 and a metadata
in 0..6, when the first five bytes of the data are the big-endian encoding of
`0x8000000000 + packDatetime2 year month day hour minute second` and the fractional
bytes that follow are present, whatever they hold, `decodeDatetime2` returns the text
`YYYY-MM-DD hh:mm:ss` of those six numbers, zero-padded to four and two digits, consumes
`5 + (meta + 1) / 2` bytes and returns no error. -/
theorem decodeDatetime2_unpacks (data : List Nat) (m year month day hour minute second : Nat)
    (hb : IsBytes data) (hm : m ≤ 6) (hlen : 5 + (m + 1) / 2 ≤ data.length)
    (hy : year ≤ 9999) (hmo : month ≤ 12) (hd : day ≤ 31) (hh : hour ≤ 23)
    (hmi : minute ≤ 59) (hs : second ≤ 59)
    (hpack : bigEndian (data.take 5) =
      0x8000000000 + packDatetime2 year month day hour minute second) :
    decodeDatetime2 data m =
      .ok (.text (padZero 4 year ++ "-" ++ padZero 2 month ++ "-" ++ padZero 2 day ++ " " ++
        padZero 2 hour ++ ":" ++ padZero 2 minute ++ ":" ++ padZero 2 second),
        5 + (m + 1) / 2) := by
  have hP := packDatetime2_eq year month day hour minute second hd hh hmi hs
  generalize packDatetime2 year month day hour minute second = P at hpack hP
  have hbs : IsBytes ((data.take 5).drop 0) := IsBytes_drop _ 0 (IsBytes_take data 5 hb)
  have hval : getBigEndianFixedLengthInt ((data.take 5).drop 0) = 0x8000000000 + P := by
    rw [getBigEndianFixedLengthInt_value _ hbs (by simp)]
    simpa using hpack
  have hPlt : P < 2 ^ 39 := by omega
  have hint : toSigned 64 (0x8000000000 + P) - DATETIMEF_INT_OFS = (P : Int) := by
    rw [toSigned_small _ (by omega)]
    unfold DATETIMEF_INT_OFS
    push_cast
    omega
  have hn : 5 + (m + 1) % 65536 / 2 = 5 + (m + 1) / 2 := by
    rw [Nat.mod_eq_of_lt (by omega)]
  have key := fun y hy' => datetime2_tail P y (5 + (m + 1) / 2) year month day hour minute
    second hy hmo hd hh hmi hs hy' hP
  unfold decodeDatetime2
  refine (bind_ok_eq _ _ _ (slice_ok data 0 5 (by omega))).trans ?_
  dsimp only
  rw [hval, hint, hn]
  by_cases h12 : m = 1 ∨ m = 2
  · have h5 : 5 < data.length := by omega
    have hd5 := hb data[5] (List.getElem_mem _)
    rw [if_pos h12]
    refine (bind_ok_eq _ _ _ (index_ok data 5 h5)).trans ?_
    exact key (data[5] * 10000) (by omega)
  rw [if_neg h12]
  by_cases h34 : m = 3 ∨ m = 4
  · obtain ⟨v, hv, hv2⟩ := beUint16_ok ((data.take 7).drop 5) (by simp; omega)
    have hbs2 : IsBytes ((data.take 7).drop 5) := IsBytes_drop _ 5 (IsBytes_take data 7 hb)
    have hlt := bigEndian_lt _ (IsBytes_take _ 2 hbs2)
    rw [← hv2 hbs2] at hlt
    have hl2 : (List.take 2 (List.drop 5 (List.take 7 data))).length ≤ 2 := by
      rw [List.length_take]; omega
    have hlt2 : v < 256 ^ 2 := lt_of_lt_of_le hlt (Nat.pow_le_pow_right (by norm_num) hl2)
    have hread : (slice data 5 7 >>= beUint16) = .ok v := by
      rw [slice_ok data 5 7 (by omega)]; exact hv
    rw [if_pos h34]
    refine (bind_ok_eq _ _ _ hread).trans ?_
    exact key (v * 100) (by omega)
  rw [if_neg h34]
  by_cases h56 : m = 5 ∨ m = 6
  · have hbs2 : IsBytes ((data.take 8).drop 5) := IsBytes_drop _ 5 (IsBytes_take data 8 hb)
    have hl3 : ((data.take 8).drop 5).length ≤ 3 := by
      rw [List.length_drop, List.length_take]; omega
    have hval2 := getBigEndianFixedLengthInt_value _ hbs2 (by omega)
    have hlt := bigEndian_lt _ hbs2
    have hlt2 : bigEndian ((data.take 8).drop 5) < 256 ^ 3 :=
      lt_of_lt_of_le hlt (Nat.pow_le_pow_right (by norm_num) hl3)
    rw [if_pos h56]
    refine (bind_ok_eq _ _ _ (slice_ok data 5 8 (by omega))).trans ?_
    exact key (getBigEndianFixedLengthInt ((data.take 8).drop 5)) (by rw [hval2]; omega)
  · rw [if_neg h56]
    exact key 0 (by norm_num)

/-- Witness for C27: the five bytes that pack 2014-08-12 03:15:42, followed by one
fractional byte, with metadata 2. -/
theorem decodeDatetime2_unpacks_witness :
    IsBytes [153, 147, 152, 51, 234, 99] ∧
    bigEndian ([153, 147, 152, 51, 234, 99].take 5) =
      0x8000000000 + packDatetime2 2014 8 12 3 15 42 ∧
    decodeDatetime2 [153, 147, 152, 51, 234, 99] 2 =
      .ok (.text (padZero 4 2014 ++ "-" ++ padZero 2 8 ++ "-" ++ padZero 2 12 ++ " " ++
        padZero 2 3 ++ ":" ++ padZero 2 15 ++ ":" ++ padZero 2 42), 5 + (2 + 1) / 2) ∧
    padZero 4 2014 ++ "-" ++ padZero 2 8 ++ "-" ++ padZero 2 12 ++ " " ++
        padZero 2 3 ++ ":" ++ padZero 2 15 ++ ":" ++ padZero 2 42 = "2014-08-12 03:15:42" :=
  ⟨by decide, by decide,
    decodeDatetime2_unpacks [153, 147, 152, 51, 234, 99] 2 2014 8 12 3 15 42 (by decide)
      (by decide) (by decide) (by decide) (by decide) (by decide) (by decide) (by decide)
      (by decide) (by decide),
    by decide⟩

/-- C28 (failing input): the three bytes `80 10 41` hold the integer part
`v = 0x1041 > 0`, that is 01:01:01.  With metadata 0, 2 and 4 `parseTime2Type` returns
that time, but with metadata 1, 3 and 5, whose `case` bodies are empty, it returns
`00:00:00` whatever the data holds, and with metadata 6, whose case never sets
`intPart`, it returns `00:00:00` as well. -/
theorem parseTime2Type_odd_meta_zero :
    parseTime2Type [0x80, 0x10, 0x41] 0 = .ok (.text "01:01:01", 3) ∧
    parseTime2Type [0x80, 0x10, 0x41, 0] 2 = .ok (.text "01:01:01", 4) ∧
    parseTime2Type [0x80, 0x10, 0x41, 0, 0] 4 = .ok (.text "01:01:01", 5) ∧
    (∀ data, parseTime2Type data 1 = .ok (.text "00:00:00", 4)) ∧
    (∀ data, parseTime2Type data 3 = .ok (.text "00:00:00", 5)) ∧
    (∀ data, parseTime2Type data 5 = .ok (.text "00:00:00", 6)) ∧
    parseTime2Type [0x80, 0x10, 0x41, 0, 0, 0] 6 = .ok (.text "00:00:00", 6) :=
  ⟨by decide, by decide, by decide, fun _ => rfl, fun _ => rfl, fun _ => rfl, by decide⟩

/-- C29: for every command byte `c` and every string `s`, `makeCommandWithArg(c, s)`
returns the `len(s) + 5` bytes made of four zero bytes, then `c`, then the bytes of
`s`. -/
theorem makeCommandWithArg_layout (c : Nat) (s : List Nat) :
    makeCommandWithArg c s = .ok ([0, 0, 0, 0, c] ++ s) ∧
    ([0, 0, 0, 0, c] ++ s).length = s.length + 5 := by
  constructor
  · unfold makeCommandWithArg setAt sliceFrom copyBytes
    simp [List.replicate_succ, bind, Except.bind, pure, Except.pure]
  · simp

/-- C30: for every non-empty payload `b`, `isEOFPacket(b)` returns true exactly when
`b[0] = 0xFE` and `len(b) ≤ 5`. -/
theorem isEOFPacket_iff (b : List Nat) (h : b ≠ []) :
    ∃ r, isEOFPacket b = .ok r ∧ (r = true ↔ (b[0]? = some 0xFE ∧ b.length ≤ 5)) := by
  cases b with
  | nil => exact absurd rfl h
  | cons b0 rest =>
    refine ⟨decide (b0 = EOF_HEADER) && decide ((b0 :: rest).length ≤ 5), ?_, ?_⟩
    · simp [isEOFPacket, index, bind, Except.bind, pure, Except.pure]
    · simp [EOF_HEADER]

/-- Witness for C30: the two-byte packet `[0xFE, 0]` is an EOF packet. -/
theorem isEOFPacket_iff_witness :
    [0xfe, 0] ≠ ([] : List Nat) ∧
    ∃ r, isEOFPacket [0xfe, 0] = .ok r ∧
      (r = true ↔ (([0xfe, 0] : List Nat)[0]? = some 0xFE ∧ [0xfe, 0].length ≤ 5)) :=
  ⟨by decide, isEOFPacket_iff [0xfe, 0] (by decide)⟩

/-- C31: `scramble41` returns the empty sequence for the empty password; for every salt
and every non-empty password it returns `SHA1(password) XOR SHA1(salt || SHA1(SHA1(password)))`,
which is 20 bytes long; and for the salt `[1, 2, 3, 4]` and the password `imapwd` it
returns `EB6A59FD 2617E384 368BD1B7 6A0D68DB 27227503`. -/
theorem scramble41_spec (salt : List Nat) (p : Nat) (ps : List Nat) :
    scramble41 salt [] = .ok [] ∧
    (∃ token, scramble41 salt (p :: ps) = .ok token ∧
      token = List.zipWith (fun x y => x ^^^ y) (sha1 (p :: ps))
        (sha1 (salt ++ sha1 (sha1 (p :: ps)))) ∧
      token.length = 20 ∧ IsBytes token) ∧
    scramble41 [1, 2, 3, 4] [105, 109, 97, 112, 119, 100]
      = .ok [0xeb, 0x6a, 0x59, 0xfd, 0x26, 0x17, 0xe3, 0x84, 0x36, 0x8b, 0xd1, 0xb7, 0x6a,
          0x0d, 0x68, 0xdb, 0x27, 0x22, 0x75, 0x03] := by
  refine ⟨rfl, ⟨_, scramble41_nonempty salt (p :: ps) (List.cons_ne_nil _ _), rfl, ?_, ?_⟩, ?_⟩
  · rw [List.length_zipWith, sha1_length, sha1_length]
    rfl
  · exact zipWith_xor_IsBytes _ _ (sha1_IsBytes _) (sha1_IsBytes _)
  · rw [scramble41_nonempty _ _ (List.cons_ne_nil _ _), scramble_vector]

/-- C32: for a follower that is registered (its connection is `cc`) and not running,
`StartSync(file, pos)` resets the sequence number and hands to `writePacket` the buffer
made of four reserved bytes, 0x12, the little-endian `uint32` of `max(pos, 4)`, the
flag bytes `00 00`, the little-endian `uint32` of the follower id and the bytes of
`file`; when that write succeeds the follower is running and a new streamer is
returned, otherwise the write error is returned. -/
theorem StartSync_dump_packet (f : Follower) (cc : ClientConn) (file : List Nat) (pos : Nat)
    (hc : f.c = some cc) (hr : f.running = false) :
    makeBinlogDumpCommand { Name := file, Pos := max pos 4 } f.followerID =
      .ok (binlogDumpPacket file pos f.followerID) ∧
    f.StartSync file pos =
      (match (cc.framing.resetSequence.writePacket
          (binlogDumpPacket file pos f.followerID)).2 with
       | none =>
         ({ f with
              c := some { cc with framing := (cc.framing.resetSequence.writePacket
                (binlogDumpPacket file pos f.followerID)).1 },
              running := true, stopChan := 0 }, .ok newStreamer)
       | some err =>
         ({ f with
              c := some { cc with framing := (cc.framing.resetSequence.writePacket
                (binlogDumpPacket file pos f.followerID)).1 } }, .error err)) ∧
    (pos < 2 ^ 32 → littleEndian (littleEndianBytes 4 (max pos 4)) = max pos 4) ∧
    (f.followerID < 2 ^ 32 →
      littleEndian (littleEndianBytes 4 f.followerID) = f.followerID) := by
  have hmk : makeBinlogDumpCommand { Name := file, Pos := max pos 4 } f.followerID =
      .ok (binlogDumpPacket file pos f.followerID) := by
    rw [makeBinlogDumpCommand_eval]
    rfl
  refine ⟨hmk, ?_, ?_, ?_⟩
  · have hclamp : (if pos < 4 then ({ Name := file, Pos := 4 } : Position)
        else { Name := file, Pos := pos }) = { Name := file, Pos := max pos 4 } := by
      split
      · rw [Nat.max_eq_right (by omega)]
      · rw [Nat.max_eq_left (by omega)]
    unfold Follower.StartSync Follower.checkExec
    rw [hr, hc]
    simp only [Bool.false_eq_true, if_false, Option.isNone_some]
    rw [hclamp]
    unfold Follower.writeBinlogDumpCommand
    rw [hc]
    dsimp only
    rw [hmk]
    dsimp only
    rcases hw : (cc.framing.resetSequence.writePacket
      (binlogDumpPacket file pos f.followerID)) with ⟨fr, e⟩
    cases e with
    | none => rfl
    | some err => rw [hr]
  · intro hp
    exact littleEndian_littleEndianBytes 4 _ (by
      have : max pos 4 < 2 ^ 32 := by
        rcases Nat.le_total pos 4 with h | h
        · rw [Nat.max_eq_right h]; norm_num
        · rw [Nat.max_eq_left h]; exact hp
      simpa using this)
  · intro hf
    exact littleEndian_littleEndianBytes 4 _ (by simpa using hf)

/-- Witness for C32: follower 7, registered and not running, starts at position 0 of
file `a`; the position sent is 4. -/
theorem StartSync_dump_packet_witness :
    makeBinlogDumpCommand { Name := [97], Pos := max 0 4 } 7 =
      .ok (binlogDumpPacket [97] 0 7) ∧
    binlogDumpPacket [97] 0 7 = [0, 0, 0, 0, 0x12, 4, 0, 0, 0, 0, 0, 7, 0, 0, 0, 97] :=
  ⟨(StartSync_dump_packet
      { c := some { framing := { seq := 3, br := [], sent := [], room := 100 },
                    capability := 0, status := 0 },
        followerID := 7, parser := NewBinlogParser, NextPosition := { Name := [], Pos := 0 },
        running := false, semiSyncEnabled := false, stopChan := 0 }
      { framing := { seq := 3, br := [], sent := [], room := 100 }, capability := 0,
        status := 0 } [97] 0 rfl rfl).1,
    by decide⟩

/-- C33 (counterexample): a rotate event whose next position is `2^32 + 4` is parsed
successfully, and afterwards `NextPosition.Pos` is 4, not the event's next position. -/
theorem parseEvent_rotate_position_wraps :
    idleFollower.parser.Parse farRotateEventBytes =
      ({ format := none, tables := [] },
        .ok { Header := { Timestamp := 0, EventType := 4, ServerId := 1, EventSize := 28,
                          LogPos := 0, Flags := 0 },
              Event := .rotate { NextPosition := 4294967300, NextFile := [97] },
              Bytes := farRotateEventBytes }) ∧
    (idleFollower.parseEvent newStreamer (0 :: farRotateEventBytes) .delivered).1.NextPosition =
      { Name := [97], Pos := 4 } := by
  decide

/-- C33 (amended): when the packet, stripped of the OK byte and of the semi-sync header,
is parsed successfully, then after `Follower.parseEvent`, whatever it returns: for an
event that is not a `ROTATE_EVENT`, `NextPosition.Pos` is the header's `LogPos` and
`NextPosition.Name` is unchanged; for a `ROTATE_EVENT`, `NextPosition.Name` is the
rotate event's next file name and `NextPosition.Pos` is the rotate event's next position
reduced modulo `2^32`, hence that position when it is below `2^32`. -/
theorem parseEvent_next_position (f : Follower) (str : Streamer) (b ev : List Nat)
    (needACK : Bool) (fired : SelectCase) (p : BinlogParser) (c : EventContainer)
    (hs : stripStreamHeader f.semiSyncEnabled b = .ok (ev, needACK))
    (hp : f.parser.Parse ev = (p, .ok c)) :
    (c.Header.EventType ≠ ROTATE_EVENT →
      (f.parseEvent str b fired).1.NextPosition =
        { Name := f.NextPosition.Name, Pos := c.Header.LogPos }) ∧
    (c.Header.EventType = ROTATE_EVENT →
      ∃ re, c.Event = .rotate re ∧
        (f.parseEvent str b fired).1.NextPosition =
          { Name := re.NextFile, Pos := re.NextPosition % 2 ^ 32 } ∧
        (re.NextPosition < 2 ^ 32 →
          (f.parseEvent str b fired).1.NextPosition =
            { Name := re.NextFile, Pos := re.NextPosition })) := by
  have hpos := parseEvent_position f str b ev needACK fired p c hs hp
  obtain ⟨_, _, _, hpe⟩ := Parse_ok_inv f.parser p ev c hp
  obtain ⟨hk1, hk2⟩ := parseEvent_event_kind f.parser p c.Header (ev.drop 19) c.Event hpe
  constructor
  · intro hne
    rw [hpos]
    have := hk2 hne
    cases hE : c.Event with
    | rotate re => exact absurd hE (this re)
    | _ => rfl
  · intro heq
    obtain ⟨re, hre, _⟩ := hk1 heq
    refine ⟨re, hre, ?_, ?_⟩
    · rw [hpos, hre]
    · intro hlt
      rw [hpos, hre]
      dsimp only
      rw [Nat.mod_eq_of_lt hlt]

/-- Witness for C33 (amended): the rotate event `rotateEventBytes` (next position 4,
file `a`) arrives behind its OK byte. -/
theorem parseEvent_next_position_witness :
    stripStreamHeader idleFollower.semiSyncEnabled (0 :: rotateEventBytes) =
      .ok (rotateEventBytes, false) ∧
    idleFollower.parser.Parse rotateEventBytes =
      ({ format := none, tables := [] },
        .ok { Header := { Timestamp := 0, EventType := 4, ServerId := 1, EventSize := 28,
                          LogPos := 0, Flags := 0 },
              Event := .rotate { NextPosition := 4, NextFile := [97] },
              Bytes := rotateEventBytes }) ∧
    ∃ re, Event.rotate { NextPosition := 4, NextFile := [97] } = .rotate re ∧
      (idleFollower.parseEvent newStreamer (0 :: rotateEventBytes) .delivered).1.NextPosition =
        { Name := re.NextFile, Pos := re.NextPosition % 2 ^ 32 } ∧
      (re.NextPosition < 2 ^ 32 →
        (idleFollower.parseEvent newStreamer (0 :: rotateEventBytes)
            .delivered).1.NextPosition =
          { Name := re.NextFile, Pos := re.NextPosition }) :=
  ⟨by decide, by decide,
    (parseEvent_next_position idleFollower newStreamer (0 :: rotateEventBytes) rotateEventBytes
      false .delivered { format := none, tables := [] }
      { Header := { Timestamp := 0, EventType := 4, ServerId := 1, EventSize := 28,
                    LogPos := 0, Flags := 0 },
        Event := .rotate { NextPosition := 4, NextFile := [97] },
        Bytes := rotateEventBytes } (by decide) (by decide)).2 (by decide)⟩

/-- C34: once a call of `GetEvent` has returned an error, taken from the error queue or
not, every call of `GetEvent` made later returns the error "last sync failed" and no
event, whatever happens to the streamer in between: events sent on `ch`, calls of
`closeWithError` and `Close`, other calls of `GetEvent`. -/
theorem GetEvent_error_sticky (s s1 : Streamer) (pick : Bool) (msg : String)
    (h : s.GetEvent pick = (s1, some (none, some msg))) (ops : List StreamOp) :
    ∀ r ∈ (s1.run ops).2, r = some (none, some "last sync failed") := by
  obtain ⟨e, he⟩ := GetEvent_error_sets_err s s1 pick msg h
  exact run_after_error ops s1 e he

/-- Witness for C34: a streamer with one queued error and an event queued behind it;
the first call takes the error, then an event is sent and two more calls are made. -/
theorem GetEvent_error_sticky_witness :
    Streamer.GetEvent { ch := [], ech := [some "boom"], err := none } false =
      ({ ch := [], ech := [], err := some "boom" }, some (none, some "boom")) ∧
    ∀ r ∈ (Streamer.run { ch := [], ech := [], err := some "boom" }
        [.send { Header := { Timestamp := 0, EventType := 30, ServerId := 1, EventSize := 19,
                             LogPos := 0, Flags := 0 },
                 Event := .generic { Data := [] }, Bytes := [] },
         .getEvent false, .getEvent true]).2,
      r = some (none, some "last sync failed") :=
  ⟨by decide,
    GetEvent_error_sticky { ch := [], ech := [some "boom"], err := none }
      { ch := [], ech := [], err := some "boom" } false "boom" (by decide) _⟩

/-- C35 (counterexample): the single byte `0xFF` is decoded as the value 255, not null,
with one byte consumed, and `putLengthEncodedInt 255` takes three bytes. -/
theorem getLengthEncodedInt_ff_shorter :
    getLengthEncodedInt [0xff] = .ok (255, false, 1) ∧
    putLengthEncodedInt 255 = [0xfc, 255, 0] ∧
    ¬ ((putLengthEncodedInt 255).length ≤ [0xff].length) := by
  decide

/-- C35 (amended): for every byte sequence `b` whose first byte is not `0xFF` and that
`getLengthEncodedInt` decodes to `(n, not null)` while consuming all of `b`, the value
`n` is below `2^64` and `putLengthEncodedInt n` is at most as long as `b`. -/
theorem putLengthEncodedInt_minimal (b : List Nat) (n k : Nat) (hb : IsBytes b)
    (hd : getLengthEncodedInt b = .ok (n, false, k)) (hk : k = b.length)
    (hff : b[0]? ≠ some 0xff) :
    n < 2 ^ 64 ∧ (putLengthEncodedInt n).length ≤ b.length := by
  obtain ⟨h1, h3, h4, h9⟩ := putLengthEncodedInt_length n
  cases b with
  | nil => simp [getLengthEncodedInt, index, bind, Except.bind] at hd
  | cons b0 rest =>
    have hb0 : b0 < 256 := hb b0 (by simp)
    have hne : b0 ≠ 0xff := by
      intro h; apply hff; rw [h]; simp
    unfold getLengthEncodedInt at hd
    rw [index_cons_zero] at hd
    simp only [bind, Except.bind, pure, Except.pure, index_cons_succ] at hd
    split at hd
    · cases hd
    split at hd
    · -- 0xfc
      rcases rest with _ | ⟨b1, _ | ⟨b2, rest⟩⟩
      · simp [index] at hd
      · simp [index] at hd
      · simp only [index_cons_zero, index_cons_succ] at hd
        cases hd
        have hl : rest = [] := by
          simp only [List.length_cons] at hk
          exact List.eq_nil_of_length_eq_zero (by omega)
        subst hl
        have hv : b1 ||| b2 <<< 8 = littleEndian [b1, b2] := leUint16_value b1 b2 (hb b1 (by simp))
        have hlt := littleEndian_lt [b1, b2] (fun x hx => hb x (by simp at hx ⊢; tauto))
        rw [← hv] at hlt
        simp only [List.length_cons, List.length_nil] at hlt ⊢
        have hput := h3 (by omega)
        exact ⟨by omega, by omega⟩
    split at hd
    · -- 0xfd
      rcases rest with _ | ⟨b1, _ | ⟨b2, _ | ⟨b3, rest⟩⟩⟩
      · simp [index] at hd
      · simp [index] at hd
      · simp [index] at hd
      · simp only [index_cons_zero, index_cons_succ] at hd
        cases hd
        have hl : rest = [] := by
          simp only [List.length_cons] at hk
          exact List.eq_nil_of_length_eq_zero (by omega)
        subst hl
        have hb1 := hb b1 (by simp)
        have hb2 := hb b2 (by simp)
        have hb3 := hb b3 (by simp)
        have hval : b1 ||| b2 <<< 8 ||| b3 <<< 16 = b1 + b2 * 2 ^ 8 + b3 * 2 ^ 16 := by
          rw [lor_shl b1 b2 8 (by omega), lor_shl _ b3 16 (by omega)]
        have hlt : b1 ||| b2 <<< 8 ||| b3 <<< 16 < 2 ^ 24 := by rw [hval]; omega
        have hput := h4 (by omega)
        simp only [List.length_cons, List.length_nil]
        exact ⟨by omega, by omega⟩
    split at hd
    · -- 0xfe
      have hl : 9 ≤ (b0 :: rest).length ∧ n < 2 ^ 64 := by
        rcases rest with _ | ⟨b1, _ | ⟨b2, _ | ⟨b3, _ | ⟨b4, _ | ⟨b5, _ | ⟨b6, _ | ⟨b7, _ | ⟨b8, rest⟩⟩⟩⟩⟩⟩⟩⟩
        all_goals first
          | (simp [index] at hd; done)
          | skip
        simp only [index_cons_zero, index_cons_succ] at hd
        cases hd
        refine ⟨by simp, ?_⟩
        rw [lor_shl_eight b1 b2 b3 b4 b5 b6 b7 b8 (hb b1 (by simp)) (hb b2 (by simp))
          (hb b3 (by simp)) (hb b4 (by simp)) (hb b5 (by simp)) (hb b6 (by simp))
          (hb b7 (by simp))]
        have := hb b1 (by simp)
        have := hb b2 (by simp)
        have := hb b3 (by simp)
        have := hb b4 (by simp)
        have := hb b5 (by simp)
        have := hb b6 (by simp)
        have := hb b7 (by simp)
        have := hb b8 (by simp)
        omega
      exact ⟨hl.2, le_trans h9 hl.1⟩
    · cases hd
      have hle : n ≤ 250 := by omega
      rw [h1 hle]
      exact ⟨by omega, by simp⟩

/-- Witness for C35 (amended): the three bytes `FC 2C 01` decode to 300. -/
theorem putLengthEncodedInt_minimal_witness :
    IsBytes [0xfc, 0x2c, 1] ∧ getLengthEncodedInt [0xfc, 0x2c, 1] = .ok (300, false, 3) ∧
    (3 : Nat) = [0xfc, 0x2c, 1].length ∧ ([0xfc, 0x2c, 1] : List Nat)[0]? ≠ some 0xff ∧
    (300 < 2 ^ 64 ∧ (putLengthEncodedInt 300).length ≤ [0xfc, 0x2c, 1].length) :=
  ⟨by decide, by decide, by decide, by decide,
    putLengthEncodedInt_minimal [0xfc, 0x2c, 1] 300 3 (by decide) (by decide) (by decide)
      (by decide)⟩

/-- C36: when `b` starts with a complete length-encoded integer of value `L` with
`1 ≤ L < 2^31` that occupies `h` bytes, `getLengthEncodedString b` returns the bytes
`b[h .. h+L)`, not null, `h + L` consumed and no error when `len(b) ≥ h + L`, and the
error `io.EOF` and no bytes when `len(b) < h + L`; when the first byte is `0xFB` it
returns no bytes, null, one byte consumed and no error. -/
theorem getLengthEncodedString_spec (b : List Nat) (L h : Nat)
    (hd : getLengthEncodedInt b = .ok (L, false, h)) (hL1 : 1 ≤ L) (hL : L < 2 ^ 31) :
    (h + L ≤ b.length →
      getLengthEncodedString b = .ok ((b.drop h).take L, false, ((h + L : Nat) : Int))) ∧
    (b.length < h + L → getLengthEncodedString b = .error (.error "EOF")) ∧
    (∀ rest, getLengthEncodedString (0xfb :: rest) = .ok ([], true, 1)) := by
  have hs : toSigned 64 L = (L : Int) := toSigned_small L (by omega)
  refine ⟨?_, ?_, ?_⟩
  · intro hlen
    unfold getLengthEncodedString
    rw [bind_ok_eq _ _ _ hd]
    dsimp only
    rw [if_neg (by omega), hs, if_pos (by omega)]
    have hsl : sliceInt b ((h : Int) + (L : Int) - (L : Int)) ((h : Int) + (L : Int)) =
        .ok ((b.drop h).take L) := by
      unfold sliceInt
      rw [if_pos ⟨by omega, by omega, by omega⟩]
      have e1 : ((h : Int) + (L : Int)).toNat = h + L := by omega
      have e2 : ((h : Int) + (L : Int) - (L : Int)).toNat = h := by omega
      rw [e1, e2, List.drop_take, Nat.add_sub_cancel_left]
    rw [bind_ok_eq _ _ _ hsl]
    simp only [pure, Except.pure, Nat.cast_add]
  · intro hlen
    unfold getLengthEncodedString
    rw [bind_ok_eq _ _ _ hd]
    dsimp only
    rw [if_neg (by omega), hs, if_neg (by omega)]
    rfl
  · intro rest
    unfold getLengthEncodedString getLengthEncodedInt
    rw [index_cons_zero]
    rfl

/-- Witness for C36: the length byte 3 followed by `abc` and one more byte. -/
theorem getLengthEncodedString_spec_witness :
    getLengthEncodedInt [3, 97, 98, 99, 7] = .ok (3, false, 1) ∧
    1 + 3 ≤ [3, 97, 98, 99, 7].length ∧
    getLengthEncodedString [3, 97, 98, 99, 7] =
      .ok (([3, 97, 98, 99, 7].drop 1).take 3, false, ((1 + 3 : Nat) : Int)) :=
  ⟨by decide, by decide,
    (getLengthEncodedString_spec [3, 97, 98, 99, 7] 3 1 (by decide) (by decide)
      (by decide)).1 (by decide)⟩

/-- C37: for a rows event of `C` columns (`C < 2^63`), a column bitmap of fewer than
`2^29` bytes that has a bit for each of the `C` columns, a table map with at least `C`
column types and metadata entries, and a row image that holds the null bitmap and on
which row decoding as the specification words it (`decodeRow`: a null bitmap of
`ceil(popcount(bitmap)/8)` bytes; the `k`-th selected column nil iff bit `k mod 8` of
null-bitmap byte `k / 8` is set, and otherwise the `parseValue` result for the column's
type and metadata, read at a cursor that starts behind the null bitmap and moves by the
consumed sizes) yields the row `row` and the count `n`: `parseRows` appends exactly
`row` to the event and returns `n`, `row` has `C` entries, and every column that the
column bitmap does not select is nil. -/
theorem parseRows_decodes_row (e : RowsEvent) (b : List Nat) (table : TableMapEvent)
    (bitmap : List Nat) (row : List Value) (n : Nat)
    (hC : e.ColumnCount < 2 ^ 63) (hb : IsBytes bitmap) (hl : bitmap.length < 2 ^ 29)
    (hbits : e.ColumnCount ≤ 8 * bitmap.length)
    (hnull : (popcount bitmap + 7) / 8 ≤ b.length)
    (hty : e.ColumnCount ≤ table.ColumnTypes.length)
    (hme : e.ColumnCount ≤ table.ColumnMetadata.length)
    (hd : decodeRow e.ColumnCount b table bitmap = some (row, n)) :
    parseRows e b table bitmap = .ok ({ e with Rows := e.Rows ++ [row] }, n) ∧
    row.length = e.ColumnCount ∧
    ∀ j, j < e.ColumnCount → columnSelected bitmap j = false → row[j]? = some Value.null := by
  unfold decodeRow at hd
  refine ⟨?_, ?_, ?_⟩
  · unfold parseRows
    rw [if_neg (by omega)]
    dsimp only
    rw [bind_ok_eq (pure PUnit.unit) PUnit.unit _ rfl]
    unfold byteCountFromBitCount
    rw [bitCount_popcount bitmap hb hl, Nat.zero_add,
      bind_ok_eq _ _ _ (slice_ok b 0 _ ⟨Nat.zero_le _, hnull⟩)]
    have hsel := selected_le_popcount bitmap e.ColumnCount hbits
    unfold selectedColumns at hd hsel
    rw [List.range_eq_range'] at hd hsel
    have hdrop : List.drop 0 (List.take ((popcount bitmap + 7) / 8) b)
        = b.take ((popcount bitmap + 7) / 8) := List.drop_zero _
    have hloop := parseRowsLoop_spec b table bitmap (b.take ((popcount bitmap + 7) / 8))
      e.ColumnCount 0 ((popcount bitmap + 7) / 8) 0 (List.replicate e.ColumnCount .null) row n
      (by omega) (by omega) (by omega) (by rw [List.length_replicate]; omega)
      (by rw [List.length_take, Nat.min_eq_left hnull]; omega) hd
    rw [hdrop, bind_ok_eq _ _ _ hloop]
    rfl
  · rw [decodeSelected_length _ _ _ _ _ _ _ _ _ _ hd, List.length_replicate]
  · intro j hj hns
    rw [decodeSelected_untouched _ _ _ _ _ _ _ _ _ _ hd j]
    · rw [List.getElem?_replicate, if_pos hj]
    · unfold selectedColumns
      intro hm
      rw [List.mem_filter] at hm
      rw [hns] at hm
      exact absurd hm.2 (by decide)

/-- Witness for C37: three `TINY` columns of which the bitmap selects the first and the
third; the null bitmap `01` marks the first selected column as nil, the third column is
read from the byte behind the null bitmap. -/
theorem parseRows_decodes_row_witness :
    decodeRow 3 [1, 7] tinyTable [5] = some ([Value.null, Value.null, Value.int8 7], 2) ∧
    parseRows tinyRows [1, 7] tinyTable [5]
      = .ok ({ tinyRows with Rows := [[Value.null, Value.null, Value.int8 7]] }, 2) :=
  ⟨by decide, (parseRows_decodes_row tinyRows [1, 7] tinyTable [5] _ _ (by decide) (by decide)
    (by decide) (by decide) (by decide) (by decide) (by decide) (by decide)).1⟩

/-- C38 (failing input): the row loop of `NewRowsEvent` does not advance on every
input.  On a `WRITE_ROWS_V1` body whose column bitmap selects no column, `parseRows`
appends a row and returns the count 0 although a byte of the body is left, so the next
iteration starts at the same cursor and the loop never ends; the same happens on a
`DELETE_ROWS_V1` body whose selected column has an unsupported type, where `parseRows`
returns `0, nil`. -/
theorem NewRowsEvent_row_loop_stalls :
    parseRows { Table := geometryTable, TableID := 1, Flags := 0, ColumnCount := 2,
                ColumnBitmap1 := [0], ColumnBitmap2 := [], Rows := [] }
        [9] geometryTable [0] =
      .ok ({ Table := geometryTable, TableID := 1, Flags := 0, ColumnCount := 2,
             ColumnBitmap1 := [0], ColumnBitmap2 := [], Rows := [[.null, .null]] }, 0) ∧
    NewRowsEvent [(1, geometryTable)] WRITE_ROWS_EVENT_V1
        [1, 0, 0, 0, 0, 0, 0, 0, 2, 0, 9] = .error .diverge ∧
    parseRows { Table := geometryTable, TableID := 1, Flags := 0, ColumnCount := 2,
                ColumnBitmap1 := [1], ColumnBitmap2 := [], Rows := [] }
        [0, 9] geometryTable [1] =
      .ok ({ Table := geometryTable, TableID := 1, Flags := 0, ColumnCount := 2,
             ColumnBitmap1 := [1], ColumnBitmap2 := [], Rows := [] }, 0) ∧
    NewRowsEvent [(1, geometryTable)] DELETE_ROWS_EVENT_V1
        [1, 0, 0, 0, 0, 0, 0, 0, 2, 1, 0, 9] = .error .diverge := by
  decide

/-- C39: whenever `Parse` returns an error, whether from the header, the size check or
the body parser of any event type, the parser afterwards, stored format description
and table registry, is the parser before the call. -/
theorem Parse_atomic_on_failure (p p' : BinlogParser) (b : List Nat) (pf : ParseFault)
    (hp : p.Parse b = (p', .error pf)) :
    p' = p ∧ p'.format = p.format ∧ p'.tables = p.tables := by
  have h := Parse_error_state p p' b pf hp
  subst h
  exact ⟨rfl, rfl, rfl⟩

/-- Witness for C39: an update event for an unknown table id fails with an
`EventError` and leaves the parser as it was. -/
theorem Parse_atomic_on_failure_witness :
    BinlogParser.Parse { format := some sixByteFormat, tables := [(2, geometryTable)] }
        updateEventBytes =
      ({ format := some sixByteFormat, tables := [(2, geometryTable)] },
        .error (.eventError
          { Header := { Timestamp := 0, EventType := 24, ServerId := 1, EventSize := 34,
                        LogPos := 0, Flags := 0 },
            Err := "invalid table id", Data := updateEventBytes.drop 19 })) ∧
    ({ format := some sixByteFormat, tables := [(2, geometryTable)] } : BinlogParser) =
      { format := some sixByteFormat, tables := [(2, geometryTable)] } :=
  ⟨by decide,
    (Parse_atomic_on_failure { format := some sixByteFormat, tables := [(2, geometryTable)] }
      { format := some sixByteFormat, tables := [(2, geometryTable)] } updateEventBytes
      (.eventError
          { Header := { Timestamp := 0, EventType := 24, ServerId := 1, EventSize := 34,
                        LogPos := 0, Flags := 0 },
            Err := "invalid table id", Data := updateEventBytes.drop 19 })
      (by decide)).1⟩

/-- C40: for a parser whose format is nil, or whose stored format has fewer than 19
per-type header-length entries, `Parse` of an input whose header names a
`TABLE_MAP_EVENT` never succeeds and leaves the parser, table registry included,
unchanged; when the input passes the size check the call faults (panics) in the format
lookup. -/
theorem Parse_table_map_needs_format (p : BinlogParser) (b : List Nat) (h : EventHeader)
    (hh : NewEventHeader b = .ok h) (ht : h.EventType = TABLE_MAP_EVENT)
    (hf : p.format = none ∨
      ∃ fmt, p.format = some fmt ∧ fmt.EventTypeHeaderLengths.length < 19) :
    (∀ p' c, p.Parse b ≠ (p', .ok c)) ∧ (p.Parse b).1 = p ∧
    (p.Parse b).1.tables = p.tables ∧
    (b.length = h.EventSize → p.Parse b = (p, .error .panic)) := by
  have hpe : ∀ data, p.parseEvent h data = (p, .error .panic) := by
    intro data
    have h15 : ¬ (h.EventType = FORMAT_DESCRIPTION_EVENT) := by rw [ht]; decide
    have h4 : ¬ (h.EventType = ROTATE_EVENT) := by rw [ht]; decide
    unfold BinlogParser.parseEvent
    rw [if_neg h15, if_neg h4, if_pos ht, NewTableMapEvent_no_format p.format data hf]
    rfl
  have hne : ∀ p' c, p.Parse b ≠ (p', .ok c) := by
    intro p' c hp
    obtain ⟨hh', _, _, hpe'⟩ := Parse_ok_inv p p' b c hp
    rw [hh] at hh'
    cases hh'
    rw [hpe] at hpe'
    exact absurd (Prod.mk.inj hpe').2 (by simp)
  have hst : (p.Parse b).1 = p := by
    rcases hr : p.Parse b with ⟨p', r⟩
    cases r with
    | error pf => exact Parse_error_state p p' b pf hr
    | ok c => exact absurd hr (hne p' c)
  refine ⟨hne, hst, by rw [hst], ?_⟩
  intro hsz
  have hlen : 19 ≤ b.length := by
    by_contra hlt
    rw [NewEventHeader_short b (by omega)] at hh
    cases hh
  unfold BinlogParser.Parse parseHeader
  rw [hh]
  simp only [sliceFrom_ok b EventHeaderSize hlen]
  have hn : ¬ (((b.drop EventHeaderSize).length : Int) ≠
      (h.EventSize : Int) - (EventHeaderSize : Int)) := by
    simp only [List.length_drop, EventHeaderSize, ne_eq, not_not]
    omega
  rw [if_neg hn, hpe]

/-- Witness for C40: a new parser, which holds no format yet, is given
`tableMapEventBytes`. -/
theorem Parse_table_map_needs_format_witness :
    NewEventHeader tableMapEventBytes =
      .ok { Timestamp := 0, EventType := 19, ServerId := 1, EventSize := 39, LogPos := 0,
            Flags := 0 } ∧
    NewBinlogParser.format = none ∧
    tableMapEventBytes.length = 39 ∧
    NewBinlogParser.Parse tableMapEventBytes = (NewBinlogParser, .error .panic) :=
  ⟨by decide, rfl, by decide,
    (Parse_table_map_needs_format NewBinlogParser tableMapEventBytes
      { Timestamp := 0, EventType := 19, ServerId := 1, EventSize := 39, LogPos := 0,
        Flags := 0 } (by decide) (by decide) (Or.inl rfl)).2.2.2 (by decide)⟩

end Binlog
